import Mathlib

/-! KRC token contract (`krc.go`) over the Kalp SDK transaction context

A shallow embedding of the token chaincode: Go `int` is a 64-bit two's
complement integer (an `Int` together with an explicit `wrap`), Go strings and
byte slices are `String`s, the committed world state is a finite key/value
list, and an invocation returns its Go result together with the writes and
events it issued, in order.
-/

namespace Kalp

/-! ## Machine integers -/

/-- Largest Go `int` on a 64-bit platform. -/
def maxInt : Int := 9223372036854775807

/-- Smallest Go `int` on a 64-bit platform. -/
def minInt : Int := -9223372036854775808

/-- Two's complement wrap-around of a mathematical integer into the Go `int` range. -/
def wrap (x : Int) : Int := (x + 9223372036854775808) % 18446744073709551616 - 9223372036854775808

/-- Membership in the Go `int` range. -/
def InRange (x : Int) : Prop := minInt ≤ x ∧ x ≤ maxInt

instance (x : Int) : Decidable (InRange x) := by unfold InRange; infer_instance

/-! ## `strconv.Itoa` and `strconv.Atoi` (Go standard library, base 10) -/

/-- The ASCII digit of `d < 10`. -/
def digitChar (d : Nat) : Char := Char.ofNat (48 + d)

/-- `strconv.formatBits` for base 10: the decimal digits of `u`, most significant
first; `fuel` bounds the number of digits (20 suffice for a `uint64`). -/
def formatBits : Nat → Nat → List Char
  | 0, _ => []
  | fuel + 1, u =>
    if u < 10 then [digitChar u] else formatBits fuel (u / 10) ++ [digitChar (u % 10)]

/-- `strconv.Itoa`: `FormatInt(int64(i), 10)`. -/
def Itoa (i : Int) : String :=
  if i < 0 then String.mk ('-' :: formatBits 20 i.natAbs) else String.mk (formatBits 20 i.natAbs)

/-- Largest `uint64`. -/
def maxUint64 : Nat := 18446744073709551615

/-- The `cutoff` of `strconv.ParseUint` for base 10: the smallest `n` with `n * 10` overflowing. -/
def cutoff64 : Nat := maxUint64 / 10 + 1

/-- How `strconv.ParseUint` ended. -/
inductive NumErr where
  | none
  | syntaxErr
  | rangeErr
deriving DecidableEq, Repr

/-- The digit loop of `strconv.ParseUint(s, 10, 64)`: characters are consumed left to
right; a non-digit ends with a syntax error and value 0, an overflow ends at once with
a range error and value `maxUint64`. -/
def parseUintLoop : List Char → Nat → Nat × NumErr
  | [], n => (n, .none)
  | c :: cs, n =>
    if 48 ≤ c.toNat ∧ c.toNat ≤ 57 then
      if n ≥ cutoff64 then (maxUint64, .rangeErr)
      else
        let n1 := n * 10 + (c.toNat - 48)
        if n1 > maxUint64 then (maxUint64, .rangeErr) else parseUintLoop cs n1
    else (0, .syntaxErr)

/-- `strconv.ParseUint(s, 10, 64)`. -/
def ParseUint (cs : List Char) : Nat × NumErr :=
  if cs = [] then (0, .syntaxErr) else parseUintLoop cs 0

/-- `strconv.ParseInt(s, 10, 0)`: the value and whether an error is returned. -/
def ParseInt (cs : List Char) : Int × Bool :=
  match cs with
  | [] => (0, true)
  | c :: rest =>
    let neg : Bool := c = '-'
    let body := if c = '+' ∨ c = '-' then rest else cs
    match ParseUint body with
    | (_, .syntaxErr) => (0, true)
    | (un, e) =>
      if neg = false ∧ un ≥ 9223372036854775808 then (maxInt, true)
      else if neg = true ∧ un > 9223372036854775808 then (minInt, true)
      else (if neg then -(un : Int) else (un : Int), e != .none)

/-- `strconv.Atoi`: equivalent to `ParseInt(s, 10, 0)` converted to `int`. The first
component is the value Go returns (0 on a syntax error, the nearest bound on a range
error), the second tells whether the returned error is non-nil. -/
def Atoi (s : String) : Int × Bool := ParseInt s.data

/-! ## World state and transaction context -/

/-- Committed world state of the ledger: key/value entries, the first entry of a key
holding its value. -/
abbrev World := List (String × String)

/-- Value stored under `k`, `none` when the key is absent (Go `nil`). -/
def World.get : World → String → Option String
  | [], _ => none
  | (k', v) :: rest, k => if k' = k then some v else World.get rest k

/-- Store `v` under `k`, replacing the value the key had. -/
def World.put : World → String → String → World
  | [], k, v => [(k, v)]
  | (k', v') :: rest, k, v =>
    if k' = k then (k, v) :: rest else (k', v') :: World.put rest k v

/-- What an operation sees of `kalpsdk.TransactionContextInterface`: the committed
world state, and the results of `GetClientIdentity().GetMSPID()` and `GetUserID()`
for the submitting client. -/
structure TransactionContext where
  state : World
  mspID : Except String String
  userID : Except String String

/-- The `event` struct of `krc.go`, marshalled to JSON when an event is set. -/
structure event where
  From : String
  To : String
  Value : Int
deriving DecidableEq, Repr

/-- One invocation of a contract operation: the Go result, the writes issued through
`PutStateWithoutKYC` in order, and the events set through `SetEvent` in order. -/
structure Invocation (α : Type) where
  ret : Except String α
  writes : List (String × String)
  events : List (String × event)

/-- Whether a Go `error` result is non-nil. -/
def isError {α : Type} (r : Except String α) : Bool :=
  match r with
  | .error _ => true
  | .ok _ => false

/-- Modelled from the spec: the ledger stub behind `TransactionContext.GetState` is missing;
`get(key) -> bytes|absent` reads committed state only, never the writes buffered by the
running invocation. -/
def GetState (sdk : TransactionContext) (key : String) : Except String (Option String) :=
  .ok (sdk.state.get key)

/-- Modelled from the spec: the ledger stub behind `TransactionContext.PutStateWithoutKYC` is
missing; `put(key, value)` buffers a write into the write-set of the running invocation. -/
def PutStateWithoutKYC (writes : List (String × String)) (key value : String) :
    Except String (List (String × String)) :=
  .ok (writes ++ [(key, value)])

/-- Modelled from the spec: the ledger stub behind `TransactionContext.SetEvent` is missing;
the event is attached to the response of the running invocation. -/
def SetEvent (events : List (String × event)) (name : String) (payload : event) :
    Except String (List (String × event)) :=
  .ok (events ++ [(name, payload)])

/-- `sdk.GetClientIdentity().GetMSPID()`. -/
def GetMSPID (sdk : TransactionContext) : Except String String := sdk.mspID

/-- `sdk.GetUserID()`. -/
def GetUserID (sdk : TransactionContext) : Except String String := sdk.userID

/-- The characters U+0000 and U+10FFFF, which no part of a composite key may contain. -/
def reservedRune (c : Char) : Bool := c.toNat = 0 || c.toNat = 1114111

/-- Appends the attributes of a composite key, each followed by U+0000. -/
def compositeKeyLoop : List String → String → Except String String
  | [], ck => .ok ck
  | att :: rest, ck =>
    if att.data.any reservedRune then .error ("invalid composite key attribute " ++ att)
    else compositeKeyLoop rest (ck ++ att ++ "\x00")

/-- Modelled from the spec: the ledger stub behind `TransactionContext.CreateCompositeKey` is
missing; `compositeKey(prefix, parts...)` is the prefix and the parts in order, introduced
and separated by the reserved U+0000, and fails when the prefix or a part contains U+0000
or U+10FFFF. -/
def CreateCompositeKey (objectType : String) (attributes : List String) : Except String String :=
  if objectType.data.any reservedRune then .error ("invalid composite key type " ++ objectType)
  else compositeKeyLoop attributes ("\x00" ++ objectType ++ "\x00")

/-- Committed state after an invocation: its writes are applied in order when it returned
no error and discarded otherwise. -/
def commit {α : Type} (w : World) (inv : Invocation α) : World :=
  match inv.ret with
  | .ok _ => inv.writes.foldl (fun acc kv => acc.put kv.1 kv.2) w
  | .error _ => w

/-! ## `krc.go` -/

def nameKey : String := "name"
def symbolKey : String := "symbol"
def decimalsKey : String := "decimals"
def totalSupplyKey : String := "totalSupply"
def allowancePrefix : String := "allowance"

/-- `add`: addition of two Go ints with the overflow check of `krc.go`. -/
def add (b q : Int) : Except String Int :=
  let sum := wrap (q + b)
  if (decide (sum < q) || decide (sum < b)) == (decide (b ≥ 0) && decide (q ≥ 0)) then
    .error ("Math: addition overflow occurred " ++ Itoa b ++ " + " ++ Itoa q)
  else .ok sum

/-- `sub`: subtraction of a positive Go int from one that is at least as large. -/
def sub (b q : Int) : Except String Int :=
  if q ≤ 0 then
    .error ("Error: the subtraction number is " ++ Itoa q ++ ", it should be greater than 0")
  else if b < q then
    .error ("Error: the number " ++ Itoa b ++ " is not enough to be subtracted by " ++ Itoa q)
  else .ok (wrap (b - q))

/-- `checkInitialized`: whether the name key holds a value. -/
def checkInitialized (sdk : TransactionContext) : Except String Bool :=
  match GetState sdk nameKey with
  | .error err => .error ("failed to get token name: " ++ err)
  | .ok tokenName => if tokenName = none then .ok false else .ok true

/-- The integer a balance read decodes to: 0 for an absent key, otherwise the value
of `strconv.Atoi`, whose error the contract drops. -/
def decodeOrZero (bytes : Option String) : Int :=
  match bytes with
  | none => 0
  | some b => (Atoi b).1

/-- An invocation that returns `msg` as its error after having issued `writes`. -/
def failWith {α : Type} (msg : String) (writes : List (String × String)) : Invocation α :=
  ⟨.error msg, writes, []⟩

def notInitializedMsg : String :=
  "Contract options need to be set before calling any function, " ++
    "call Initialize() to initialize contract"

/-- `Mint`: credits `amount` to the minter and to the total supply, then sets a Transfer
event from "0x0". -/
def Mint (sdk : TransactionContext) (amount : Int) : Invocation Unit :=
  match checkInitialized sdk with
  | .error err => failWith ("failed to check if contract is already initialized: " ++ err) []
  | .ok initialized =>
  if !initialized then
    failWith ("contract options need to be set before calling any function, " ++
      "call Initialize() to initialize contract") [] else
  match GetMSPID sdk with
  | .error err => failWith ("failed to get MSPID: " ++ err) []
  | .ok clientMSPID =>
  if clientMSPID ≠ "mailabs" then failWith "client is not authorized to mint new tokens" [] else
  match GetUserID sdk with
  | .error err => failWith ("failed to get client id: " ++ err) []
  | .ok minter =>
  if amount ≤ 0 then failWith "mint amount must be a positive integer" [] else
  match GetState sdk minter with
  | .error err =>
    failWith ("failed to read minter account " ++ minter ++ " from world state: " ++ err) []
  | .ok currentBalanceBytes =>
  let currentBalance := decodeOrZero currentBalanceBytes
  match add currentBalance amount with
  | .error err => failWith err []
  | .ok updatedBalance =>
  match PutStateWithoutKYC [] minter (Itoa updatedBalance) with
  | .error err => failWith err []
  | .ok w1 =>
  match GetState sdk totalSupplyKey with
  | .error err => failWith ("failed to retrieve total token supply: " ++ err) w1
  | .ok totalSupplyBytes =>
  let totalSupply := decodeOrZero totalSupplyBytes
  match add totalSupply amount with
  | .error err => failWith err w1
  | .ok totalSupply' =>
  match PutStateWithoutKYC w1 totalSupplyKey (Itoa totalSupply') with
  | .error err => failWith err w1
  | .ok w2 =>
  match SetEvent [] "Transfer" ⟨"0x0", minter, amount⟩ with
  | .error err => failWith ("failed to set event: " ++ err) w2
  | .ok evs => ⟨.ok (), w2, evs⟩

/-- `Burn`: debits `amount` from the minter and from the total supply, then sets a
Transfer event to "0x0". -/
def Burn (sdk : TransactionContext) (amount : Int) : Invocation Unit :=
  match checkInitialized sdk with
  | .error err => failWith ("failed to check if contract is already initialized: " ++ err) []
  | .ok initialized =>
  if !initialized then failWith notInitializedMsg [] else
  match GetMSPID sdk with
  | .error err => failWith ("failed to get MSPID: " ++ err) []
  | .ok clientMSPID =>
  if clientMSPID ≠ "mailabs" then failWith "client is not authorized to mint new tokens" [] else
  match GetUserID sdk with
  | .error err => failWith ("failed to get client id: " ++ err) []
  | .ok minter =>
  if amount ≤ 0 then failWith "burn amount must be a positive integer" [] else
  match GetState sdk minter with
  | .error err =>
    failWith ("failed to read minter account " ++ minter ++ " from world state: " ++ err) []
  | .ok currentBalanceBytes =>
  match currentBalanceBytes with
  | none => failWith "The balance does not exist" []
  | some balanceBytes =>
  let currentBalance := (Atoi balanceBytes).1
  match sub currentBalance amount with
  | .error err => failWith err []
  | .ok updatedBalance =>
  match PutStateWithoutKYC [] minter (Itoa updatedBalance) with
  | .error err => failWith err []
  | .ok w1 =>
  match GetState sdk totalSupplyKey with
  | .error err => failWith ("failed to retrieve total token supply: " ++ err) w1
  | .ok totalSupplyBytes =>
  match totalSupplyBytes with
  | none => failWith "totalSupply does not exist" w1
  | some supplyBytes =>
  let totalSupply := (Atoi supplyBytes).1
  match sub totalSupply amount with
  | .error err => failWith err w1
  | .ok totalSupply' =>
  match PutStateWithoutKYC w1 totalSupplyKey (Itoa totalSupply') with
  | .error err => failWith err w1
  | .ok w2 =>
  match SetEvent [] "Transfer" ⟨minter, "0x0", amount⟩ with
  | .error err => failWith ("failed to set event: " ++ err) w2
  | .ok evs => ⟨.ok (), w2, evs⟩

/-- `transferHelper`: moves `value` from `from` to `to`; the result is the Go error (if
any) and the writes issued. -/
def transferHelper (sdk : TransactionContext) (from_ to_ : String) (value : Int) :
    Except String Unit × List (String × String) :=
  if from_ = to_ then (.error "cannot transfer to and from same client account", []) else
  if value < 0 then (.error "transfer amount cannot be negative", []) else
  match GetState sdk from_ with
  | .error err =>
    (.error ("failed to read client account " ++ from_ ++ " from world state: " ++ err), [])
  | .ok fromCurrentBalanceBytes =>
  match fromCurrentBalanceBytes with
  | none => (.error ("client account " ++ from_ ++ " has no balance"), [])
  | some fromBytes =>
  let fromCurrentBalance := (Atoi fromBytes).1
  if fromCurrentBalance < value then
    (.error ("client account " ++ from_ ++ " has insufficient funds"), []) else
  match GetState sdk to_ with
  | .error err =>
    (.error ("failed to read recipient account " ++ to_ ++ " from world state: " ++ err), [])
  | .ok toCurrentBalanceBytes =>
  let toCurrentBalance := decodeOrZero toCurrentBalanceBytes
  match sub fromCurrentBalance value with
  | .error err => (.error err, [])
  | .ok fromUpdatedBalance =>
  match add toCurrentBalance value with
  | .error err => (.error err, [])
  | .ok toUpdatedBalance =>
  match PutStateWithoutKYC [] from_ (Itoa fromUpdatedBalance) with
  | .error err => (.error err, [])
  | .ok w1 =>
  match PutStateWithoutKYC w1 to_ (Itoa toUpdatedBalance) with
  | .error err => (.error err, w1)
  | .ok w2 => (.ok (), w2)

/-- `Transfer`: moves `amount` from the caller to `recipient` and sets a Transfer event. -/
def Transfer (sdk : TransactionContext) (recipient : String) (amount : Int) : Invocation Unit :=
  match checkInitialized sdk with
  | .error err => failWith ("failed to check if contract is already initialized: " ++ err) []
  | .ok initialized =>
  if !initialized then failWith notInitializedMsg [] else
  match GetUserID sdk with
  | .error err => failWith ("failed to get client id: " ++ err) []
  | .ok clientID =>
  match transferHelper sdk clientID recipient amount with
  | (.error err, w) => failWith ("failed to transfer: " ++ err) w
  | (.ok _, w) =>
  match SetEvent [] "Transfer" ⟨clientID, recipient, amount⟩ with
  | .error err => failWith ("failed to set event: " ++ err) w
  | .ok evs => ⟨.ok (), w, evs⟩

/-- `BalanceOf`: the decoded balance stored under `account`. -/
def BalanceOf (sdk : TransactionContext) (account : String) : Except String Int :=
  match checkInitialized sdk with
  | .error err => .error ("failed to check if contract is already initialized: " ++ err)
  | .ok initialized =>
  if !initialized then .error notInitializedMsg else
  match GetState sdk account with
  | .error err => .error ("failed to read from world state: " ++ err)
  | .ok balanceBytes =>
  match balanceBytes with
  | none => .error ("the account " ++ account ++ " does not exist")
  | some b => .ok (Atoi b).1

/-- `TotalSupply`: the decoded total supply, 0 when none is stored. -/
def TotalSupply (sdk : TransactionContext) : Except String Int :=
  match checkInitialized sdk with
  | .error err => .error ("failed to check if contract is already initialized: " ++ err)
  | .ok initialized =>
  if !initialized then .error notInitializedMsg else
  match GetState sdk totalSupplyKey with
  | .error err => .error ("failed to retrieve total token supply: " ++ err)
  | .ok totalSupplyBytes => .ok (decodeOrZero totalSupplyBytes)

/-- `Approve`: stores `value` as the allowance of `spender` over the caller's account and
sets an Approval event. -/
def Approve (sdk : TransactionContext) (spender : String) (value : Int) : Invocation Unit :=
  match checkInitialized sdk with
  | .error err => failWith ("failed to check if contract is already initialized: " ++ err) []
  | .ok initialized =>
  if !initialized then failWith notInitializedMsg [] else
  match GetUserID sdk with
  | .error err => failWith ("failed to get client id: " ++ err) []
  | .ok owner =>
  match CreateCompositeKey allowancePrefix [owner, spender] with
  | .error err =>
    failWith ("failed to create the composite key for prefix " ++ allowancePrefix ++ ": " ++ err) []
  | .ok allowanceKey =>
  match PutStateWithoutKYC [] allowanceKey (Itoa value) with
  | .error err =>
    failWith ("failed to update state of smart contract for key " ++ allowanceKey ++ ": " ++ err) []
  | .ok w1 =>
  match SetEvent [] "Approval" ⟨owner, spender, value⟩ with
  | .error err => failWith ("failed to set event: " ++ err) w1
  | .ok evs => ⟨.ok (), w1, evs⟩

/-- `Allowance`: the decoded allowance of `spender` over the account of `owner`, 0 when
none is stored. -/
def Allowance (sdk : TransactionContext) (owner spender : String) : Except String Int :=
  match checkInitialized sdk with
  | .error err => .error ("failed to check if contract is already initialized: " ++ err)
  | .ok initialized =>
  if !initialized then .error notInitializedMsg else
  match CreateCompositeKey allowancePrefix [owner, spender] with
  | .error err =>
    .error ("failed to create the composite key for prefix " ++ allowancePrefix ++ ": " ++ err)
  | .ok allowanceKey =>
  match GetState sdk allowanceKey with
  | .error err =>
    .error ("failed to read allowance for " ++ allowanceKey ++ " from world state: " ++ err)
  | .ok allowanceBytes => .ok (decodeOrZero allowanceBytes)

/-- `TransferFrom`: moves `value` from `from` to `to` on behalf of the caller, whose
allowance over the account of `from` is decreased by `value`. -/
def TransferFrom (sdk : TransactionContext) (from_ to_ : String) (value : Int) :
    Invocation Unit :=
  match checkInitialized sdk with
  | .error err => failWith ("failed to check if contract is already initialized: " ++ err) []
  | .ok initialized =>
  if !initialized then failWith notInitializedMsg [] else
  match GetUserID sdk with
  | .error err => failWith ("failed to get client id: " ++ err) []
  | .ok spender =>
  match CreateCompositeKey allowancePrefix [from_, spender] with
  | .error err =>
    failWith ("failed to create the composite key for prefix " ++ allowancePrefix ++ ": " ++ err) []
  | .ok allowanceKey =>
  match GetState sdk allowanceKey with
  | .error err =>
    failWith ("failed to retrieve the allowance for " ++ allowanceKey ++ " from world state: "
      ++ err) []
  | .ok currentAllowanceBytes =>
  let currentAllowance := (Atoi (currentAllowanceBytes.getD "")).1
  if currentAllowance < value then
    failWith "spender does not have enough allowance for transfer" [] else
  match transferHelper sdk from_ to_ value with
  | (.error err, w) => failWith ("failed to transfer: " ++ err) w
  | (.ok _, w) =>
  match sub currentAllowance value with
  | .error err => failWith err w
  | .ok updatedAllowance =>
  match PutStateWithoutKYC w allowanceKey (Itoa updatedAllowance) with
  | .error err => failWith err w
  | .ok w3 =>
  match SetEvent [] "Transfer" ⟨from_, to_, value⟩ with
  | .error err => failWith ("failed to set event: " ++ err) w3
  | .ok evs => ⟨.ok (), w3, evs⟩

/-- `Initialize`: stores name, symbol and decimals once, on behalf of the issuer. Every
failing branch of the Go function returns `(false, err)`, which is the `.error err` here;
the only other result is `(true, nil)`. -/
def Initialize (sdk : TransactionContext) (name symbol decimals : String) : Invocation Bool :=
  match GetMSPID sdk with
  | .error err => ⟨.error ("failed to get MSPID: " ++ err), [], []⟩
  | .ok clientMSPID =>
  if clientMSPID ≠ "mailabs" then
    ⟨.error "client is not authorized to initialize contract", [], []⟩ else
  match GetState sdk nameKey with
  | .error err => ⟨.error ("failed to get Name: " ++ err), [], []⟩
  | .ok bytes =>
  if bytes ≠ none then
    ⟨.error "contract options are already set, client is not authorized to change them", [], []⟩
  else
  match PutStateWithoutKYC [] nameKey name with
  | .error err => ⟨.error ("failed to set token name: " ++ err), [], []⟩
  | .ok w1 =>
  match PutStateWithoutKYC w1 symbolKey symbol with
  | .error err => ⟨.error ("failed to set symbol: " ++ err), w1, []⟩
  | .ok w2 =>
  match PutStateWithoutKYC w2 decimalsKey decimals with
  | .error err => ⟨.error ("failed to set token name: " ++ err), w2, []⟩
  | .ok w3 => ⟨.ok true, w3, []⟩

/-- `ClientAccountBalance`: the decoded balance stored under the caller's id. -/
def ClientAccountBalance (sdk : TransactionContext) : Except String Int :=
  match checkInitialized sdk with
  | .error err => .error ("failed to check if contract is already initialized: " ++ err)
  | .ok initialized =>
  if !initialized then .error notInitializedMsg else
  match GetUserID sdk with
  | .error err => .error ("failed to get client id: " ++ err)
  | .ok clientID =>
  match GetState sdk clientID with
  | .error err => .error ("failed to read from world state: " ++ err)
  | .ok balanceBytes =>
  match balanceBytes with
  | none => .error ("the account " ++ clientID ++ " does not exist")
  | some b => .ok (Atoi b).1

/-- `ClientAccountID`: the id of the caller. -/
def ClientAccountID (sdk : TransactionContext) : Except String String :=
  match checkInitialized sdk with
  | .error err => .error ("failed to check if contract is already initialized: " ++ err)
  | .ok initialized =>
  if !initialized then .error notInitializedMsg else
  match GetUserID sdk with
  | .error err => .error ("failed to get client id: " ++ err)
  | .ok clientAccountID => .ok clientAccountID

/-- `Name`: the bytes stored under the name key, as a string. -/
def Name (sdk : TransactionContext) : Except String String :=
  match checkInitialized sdk with
  | .error err => .error ("failed to check if contract is already initialized: " ++ err)
  | .ok initialized =>
  if !initialized then .error notInitializedMsg else
  match GetState sdk nameKey with
  | .error err => .error ("failed to get Name bytes: " ++ err)
  | .ok bytes => .ok (bytes.getD "")

/-- `Symbol`: the bytes stored under the symbol key, as a string. -/
def Symbol (sdk : TransactionContext) : Except String String :=
  match checkInitialized sdk with
  | .error err => .error ("failed to check if contract is already initialized: " ++ err)
  | .ok initialized =>
  if !initialized then .error notInitializedMsg else
  match GetState sdk symbolKey with
  | .error err => .error ("failed to get Symbol: " ++ err)
  | .ok bytes => .ok (bytes.getD "")

/-! ## Reading the committed state, and sequences of transactions -/

/-- The integer stored under a key as the contract reads it: 0 when absent. -/
def balance (w : World) (k : String) : Int := decodeOrZero (w.get k)

/-- Keys that hold an account balance: every key other than the four option keys. -/
def isAccountKey (k : String) : Bool :=
  k ≠ nameKey && k ≠ symbolKey && k ≠ decimalsKey && k ≠ totalSupplyKey

/-- Sum of the balances stored under account keys, entry by entry. -/
def sumBalances : World → Int
  | [] => 0
  | (k, v) :: rest => (if isAccountKey k then (Atoi v).1 else 0) + sumBalances rest

/-- The submitting client of a transaction, as the contract resolves it. -/
structure Client where
  mspID : Except String String
  userID : Except String String

/-- The context of a call by client `c` on the committed state `w`. -/
def Client.on (c : Client) (w : World) : TransactionContext := ⟨w, c.mspID, c.userID⟩

/-- A balance-changing call of the contract. -/
inductive Call where
  | mint (amount : Int)
  | burn (amount : Int)
  | transfer (recipient : String) (amount : Int)

/-- The amount argument of a call. -/
def Call.amount : Call → Int
  | .mint a => a
  | .burn a => a
  | .transfer _ a => a

/-- The committed world state together with the amounts minted and burned by the
transactions that succeeded so far. -/
structure Ledger where
  world : World
  minted : Int
  burned : Int

/-- One transaction: the call is run on the committed state and committed. -/
def Ledger.step (l : Ledger) (tx : Client × Call) : Ledger :=
  let sdk : TransactionContext := tx.1.on l.world
  match tx.2 with
  | .mint a =>
    let inv := Mint sdk a
    ⟨commit l.world inv, if isError inv.ret then l.minted else l.minted + a, l.burned⟩
  | .burn a =>
    let inv := Burn sdk a
    ⟨commit l.world inv, l.minted, if isError inv.ret then l.burned else l.burned + a⟩
  | .transfer recipient a => ⟨commit l.world (Transfer sdk recipient a), l.minted, l.burned⟩

/-- A sequence of transactions, each committed before the next. -/
def Ledger.run (l : Ledger) (txs : List (Client × Call)) : Ledger := txs.foldl Ledger.step l

/-- The state right after `Initialize(name, symbol, decimals)`: no balance, no total supply. -/
def freshLedger (name symbol decimals : String) : Ledger :=
  ⟨[(nameKey, name), (symbolKey, symbol), (decimalsKey, decimals)], 0, 0⟩

/-- A client of the issuer organisation with user id `id`. -/
def issuerClient (id : String) : Client := ⟨.ok "mailabs", .ok id⟩

/-- Whether the amount of a transaction is a Go `int` and its caller id and its recipient
(if any) are account keys. -/
def Call.onAccounts (tx : Client × Call) : Bool :=
  decide (InRange tx.2.amount) &&
    (match tx.1.userID with
     | .ok m => isAccountKey m
     | .error _ => true) &&
    (match tx.2 with
     | .transfer r _ => isAccountKey r
     | _ => true)

/-! ## Sample states and clients used to instantiate the theorems -/

/-- An initialized state with an issuer, two holders and one allowance of bob over
alice's account. -/
def sampleWorld : World :=
  [("name", "Kalp"), ("symbol", "KLP"), ("decimals", "2"), ("issuer", "1000"),
   ("totalSupply", "1750"), ("alice", "700"), ("bob", "50"),
   ("\x00allowance\x00alice\x00bob\x00", "100")]

/-- An initialized state in which the issuer holds the largest Go `int`. -/
def fullWorld : World :=
  [("name", "Kalp"), ("issuer", "9223372036854775807"), ("totalSupply", "9223372036854775807")]

/-- The context of a call on `w` by the issuer organisation's client `id`. -/
def issuerOn (w : World) (id : String) : TransactionContext := ⟨w, .ok "mailabs", .ok id⟩

/-- The context of a call on `w` by a client `id` of another organisation. -/
def holderOn (w : World) (id : String) : TransactionContext := ⟨w, .ok "org1", .ok id⟩

/-- The issuer mints 10 and then transfers 5 to the recipient string "totalSupply". -/
def conservationBreakingTxs : List (Client × Call) :=
  [(issuerClient "issuer", .mint 10), (issuerClient "issuer", .transfer "totalSupply" 5)]

/-- The issuer mints 10 and then transfers 5 to the recipient string "name". -/
def nameOverwritingTxs : List (Client × Call) :=
  [(issuerClient "issuer", .mint 10), (issuerClient "issuer", .transfer "name" 5)]

/-- The issuer mints 1000, transfers 300 to alice and burns 200. -/
def sampleTxs : List (Client × Call) :=
  [(issuerClient "issuer", .mint 1000), (issuerClient "issuer", .transfer "alice" 300),
   (issuerClient "issuer", .burn 200)]

/-- A ledger on which the conservation properties hold: the stored total supply is what
was minted minus what was burned, the account balances add up to it, and no key is stored
twice. -/
def Ledger.Conserved (l : Ledger) : Prop :=
  balance l.world totalSupplyKey = l.minted - l.burned ∧
    sumBalances l.world = balance l.world totalSupplyKey ∧
    (l.world.map Prod.fst).Nodup

/-- A state-changing call of the contract with its arguments. -/
inductive Op where
  | init (name symbol decimals : String)
  | mint (amount : Int)
  | burn (amount : Int)
  | transfer (recipient : String) (amount : Int)
  | approve (spender : String) (value : Int)
  | transferFrom (from_ to_ : String) (value : Int)

/-- The writes an operation issues in the context `sdk`. -/
def Op.writes (sdk : TransactionContext) : Op → List (String × String)
  | .init n s d => (Initialize sdk n s d).writes
  | .mint a => (Mint sdk a).writes
  | .burn a => (Burn sdk a).writes
  | .transfer r a => (Transfer sdk r a).writes
  | .approve s v => (Approve sdk s v).writes
  | .transferFrom f t v => (TransferFrom sdk f t v).writes

/-- The committed state after an operation run in the context `sdk`. -/
def Op.committed (sdk : TransactionContext) : Op → World
  | .init n s d => Kalp.commit sdk.state (Initialize sdk n s d)
  | .mint a => Kalp.commit sdk.state (Mint sdk a)
  | .burn a => Kalp.commit sdk.state (Burn sdk a)
  | .transfer r a => Kalp.commit sdk.state (Transfer sdk r a)
  | .approve s v => Kalp.commit sdk.state (Approve sdk s v)
  | .transferFrom f t v => Kalp.commit sdk.state (TransferFrom sdk f t v)

/-- The ids an operation uses as account keys: the caller's id for `Mint` and `Burn`, the
caller's id and the recipient for `Transfer`, `from` and `to` for `TransferFrom`. -/
def Op.accountKeys (sdk : TransactionContext) : Op → List String
  | .init _ _ _ => []
  | .mint _ => (match sdk.userID with | .ok m => [m] | .error _ => [])
  | .burn _ => (match sdk.userID with | .ok m => [m] | .error _ => [])
  | .transfer r _ => (match sdk.userID with | .ok m => [m, r] | .error _ => [r])
  | .approve _ _ => []
  | .transferFrom f t _ => [f, t]

/-- The empty ledger after `Initialize("Kalp", "KLP", "2")` by the issuer. -/
def scenario1 : World := commit [] (Initialize (issuerOn [] "issuer") "Kalp" "KLP" "2")

/-- Then after `Mint(1000)` by the issuer. -/
def scenario2 : World := commit scenario1 (Mint (issuerOn scenario1 "issuer") 1000)

/-- Then after `Transfer("alice", 300)` by the issuer. -/
def scenario3 : World := commit scenario2 (Transfer (issuerOn scenario2 "issuer") "alice" 300)

/-- Then after `Approve("bob", 100)` by alice. -/
def scenario4 : World := commit scenario3 (Approve (holderOn scenario3 "alice") "bob" 100)

/-- Then after `TransferFrom("alice", "carol", 100)` by bob. -/
def scenario5 : World :=
  commit scenario4 (TransferFrom (holderOn scenario4 "bob") "alice" "carol" 100)

/-- A JSON scalar, as far as `event` needs it. -/
inductive JSONValue where
  | str (s : String)
  | num (n : Int)
deriving DecidableEq, Repr

/-- `json.Marshal` of an `event`, as the object's members in order: the member names are the
struct tags `from`, `to` and `value`. -/
def event.marshal (e : event) : List (String × JSONValue) :=
  [("from", .str e.From), ("to", .str e.To), ("value", .num e.Value)]

/-! ## `kalpsdk.TransactionContext` (`read_transaction.go`, `write_transaction.go`) -/

/-- Result of a Go call that returns a value and an error, or panics. -/
inductive Outcome (α : Type) where
  | ok (a : α)
  | error (err : String)
  | panics
deriving DecidableEq, Repr

/-- Status and payload of the response to a chaincode invocation. -/
structure Response where
  Status : Int
  Payload : String
deriving DecidableEq, Repr

/-- A buffered entry of the write-set: a write or a deletion. -/
inductive WriteOp where
  | put (key value : String)
  | del (key : String)
deriving DecidableEq, Repr

/-- What the methods of `kalpsdk.TransactionContext` use of the shim stub: the channel id,
the responses of `InvokeChaincode(name, args, channel)`, and the errors returned by
`PutState(key, value)` and `DelState(key)`. -/
structure kalpsdk.Stub where
  channelID : String
  invokeChaincode : String → List String → String → Response
  putState : String → String → Except String Unit
  delState : String → Except String Unit

/-- `kalpsdk.TransactionContext`: the stub, and the result of `GetID()` on the client
identity (the base64 text of the attested identity). -/
structure kalpsdk.TransactionContext where
  stub : kalpsdk.Stub
  clientID : Except String String

/-- Value of a character in the standard base64 alphabet. -/
def b64Value (c : Char) : Option Nat :=
  if 65 ≤ c.toNat ∧ c.toNat ≤ 90 then some (c.toNat - 65)
  else if 97 ≤ c.toNat ∧ c.toNat ≤ 122 then some (c.toNat - 71)
  else if 48 ≤ c.toNat ∧ c.toNat ≤ 57 then some (c.toNat + 4)
  else if c.toNat = 43 then some 62
  else if c.toNat = 47 then some 63
  else none

/-- The last quantum of a padded base64 text: four characters, of which the last or the last
two may be the padding character. -/
def decodeLastQuantum (a b c d : Char) : Except String (List Nat) :=
  match b64Value a, b64Value b with
  | some va, some vb =>
    if c = '=' then
      if d = '=' then .ok [(va * 4 + vb / 16) % 256] else .error "illegal base64 data"
    else
      match b64Value c with
      | none => .error "illegal base64 data"
      | some vc =>
        if d = '=' then .ok [(va * 4 + vb / 16) % 256, (vb % 16 * 16 + vc / 4) % 256]
        else
          match b64Value d with
          | none => .error "illegal base64 data"
          | some vd =>
            .ok [(va * 4 + vb / 16) % 256, (vb % 16 * 16 + vc / 4) % 256, (vc % 4 * 64 + vd) % 256]
  | _, _ => .error "illegal base64 data"

/-- Decodes base64 text quantum by quantum; padding is accepted in the last quantum only. -/
def decodeQuanta : List Char → Except String (List Nat)
  | [] => .ok []
  | [a, b, c, d] => decodeLastQuantum a b c d
  | a :: b :: c :: d :: rest =>
    match b64Value a, b64Value b, b64Value c, b64Value d with
    | some va, some vb, some vc, some vd =>
      match decodeQuanta rest with
      | .ok bytes =>
        .ok ((va * 4 + vb / 16) % 256 :: (vb % 16 * 16 + vc / 4) % 256 ::
          (vc % 4 * 64 + vd) % 256 :: bytes)
      | .error e => .error e
    | _, _, _, _ => .error "illegal base64 data"
  | _ => .error "illegal base64 data"

/-- `base64.StdEncoding.DecodeString` (Go standard library): the standard alphabet with
padding, carriage returns and line feeds being skipped; each decoded byte is one character
of the result. The input position that Go adds to its error message is left out. -/
def DecodeString (s : String) : Except String String :=
  match decodeQuanta (s.data.filter (fun c => c ≠ '\r' ∧ c ≠ '\n')) with
  | .ok bytes => .ok (String.mk (bytes.map Char.ofNat))
  | .error e => .error e

/-- Whether `p` is an initial segment of `s`. -/
def startsWith : List Char → List Char → Bool
  | _, [] => true
  | [], _ :: _ => false
  | c :: cs, p :: ps => decide (c = p) && startsWith cs ps

/-- Index of the first occurrence of `sub` in `s` at or after position `i`, or -1. -/
def indexFrom : List Char → List Char → Nat → Int
  | [], sub, i => if sub = [] then (i : Int) else -1
  | c :: cs, sub, i => if startsWith (c :: cs) sub then (i : Int) else indexFrom cs sub (i + 1)

/-- `strings.Index(s, substr)`. -/
def stringsIndex (s substr : String) : Int := indexFrom s.data substr.data 0

/-- The Go slice expression `s[lo:hi]` on a string: `none` when the bounds are out of range
(the expression panics). -/
def sliceString (s : String) (lo hi : Int) : Option String :=
  if 0 ≤ lo ∧ lo ≤ hi ∧ hi ≤ (s.data.length : Int) then
    some (String.mk ((s.data.drop lo.toNat).take (hi.toNat - lo.toNat)))
  else none

/-- `GetChannelName`: the channel id of the stub, an error when it is empty. -/
def kalpsdk.GetChannelName (ctx : kalpsdk.TransactionContext) : Except String String :=
  let channelID := ctx.stub.channelID
  if channelID = "" then .error ("failed to get channelName: " ++ channelID)
  else .ok channelID

/-- `strconv.ParseBool` (Go standard library). -/
def ParseBool (str : String) : Except String Bool :=
  if str = "1" ∨ str = "t" ∨ str = "T" ∨ str = "TRUE" ∨ str = "true" ∨ str = "True" then .ok true
  else if str = "0" ∨ str = "f" ∨ str = "F" ∨ str = "FALSE" ∨ str = "false" ∨ str = "False" then
    .ok false
  else .error ("strconv.ParseBool: parsing " ++ str ++ ": invalid syntax")

/-- `GetKYC`: asks the chaincode "kyc" on the caller's channel whether `userId` exists. An
error result stands for Go's `(false, err)`. -/
def kalpsdk.GetKYC (ctx : kalpsdk.TransactionContext) (userId : String) : Except String Bool :=
  let crossCCFunc := "KycExists"
  let crossCCName := "kyc"
  match kalpsdk.GetChannelName ctx with
  | .error err => .error ("failed to get channel name: " ++ err)
  | .ok channelName =>
  let params := [crossCCFunc, userId]
  let response := ctx.stub.invokeChaincode crossCCName params channelName
  if response.Status ≠ 200 then
    .error ("failed to query kyc chaincode for user " ++ userId ++ ". Got status " ++
      Itoa response.Status ++ " and error message: " ++ response.Payload)
  else ParseBool response.Payload

/-- `GetUserID`: the text between the marker "x509::CN=" and the first comma of the decoded
client identity. -/
def kalpsdk.GetUserID (ctx : kalpsdk.TransactionContext) : Outcome String :=
  match ctx.clientID with
  | .error err => .error ("failed to read clientID: " ++ err)
  | .ok b64ID =>
  match DecodeString b64ID with
  | .error err => .error ("failed to base64 decode clientID: " ++ err)
  | .ok completeID =>
  match sliceString completeID (stringsIndex completeID "x509::CN=" + 9)
      (stringsIndex completeID ",") with
  | none => .panics
  | some userID => .ok userID

/-- `PutStateWithKYC`: the result, and the entries put into the write-set. The stub's
`PutState` is called once the KYC check has passed; the entry is in the write-set when it
returns no error. -/
def kalpsdk.PutStateWithKYC (ctx : kalpsdk.TransactionContext) (key value : String) :
    Outcome Unit × List WriteOp :=
  match kalpsdk.GetUserID ctx with
  | .panics => (.panics, [])
  | .error err => (.error err, [])
  | .ok userID =>
  match kalpsdk.GetKYC ctx userID with
  | .error err =>
    (.error ("failed to perform KYC check for user " ++ userID ++ ". Error: " ++ err), [])
  | .ok kycCheck =>
  if !kycCheck then (.error ("user " ++ userID ++ " has not completed KYC"), [])
  else
  match ctx.stub.putState key value with
  | .error err => (.error err, [])
  | .ok _ => (.ok (), [.put key value])

/-- `DelStateWithKYC`: the result, and the entries put into the write-set. The stub's
`DelState` is called once the KYC check has passed; the deletion is in the write-set when it
returns no error. -/
def kalpsdk.DelStateWithKYC (ctx : kalpsdk.TransactionContext) (key : String) :
    Outcome Unit × List WriteOp :=
  match kalpsdk.GetUserID ctx with
  | .panics => (.panics, [])
  | .error err => (.error err, [])
  | .ok userID =>
  match kalpsdk.GetKYC ctx userID with
  | .error err =>
    (.error ("failed to perform KYC check for user " ++ userID ++ ". Error: " ++ err), [])
  | .ok kycCheck =>
  if !kycCheck then (.error ("user " ++ userID ++ " has not completed KYC"), [])
  else
  match ctx.stub.delState key with
  | .error err => (.error err, [])
  | .ok _ => (.ok (), [.del key])

/-- A stub on channel "kalp" whose chaincode "kyc" knows alice and nobody else, and whose
`PutState` and `DelState` return no error. -/
def sampleStub : kalpsdk.Stub :=
  ⟨"kalp", fun name args channel =>
    if name = "kyc" ∧ channel = "kalp" then
      if args = ["KycExists", "alice"] then ⟨200, "true"⟩ else ⟨200, "false"⟩
    else ⟨500, "chaincode not found"⟩,
   fun _ _ => .ok (), fun _ => .ok ()⟩

/-- A stub on channel "kalp" whose chaincode "kyc" does not answer. -/
def brokenStub : kalpsdk.Stub :=
  ⟨"kalp", fun _ _ _ => ⟨500, "kyc is down"⟩, fun _ _ => .ok (), fun _ => .ok ()⟩

/-- The stub `sampleStub`, except that `PutState` and `DelState` return an error. -/
def rejectingStub : kalpsdk.Stub :=
  ⟨"kalp", sampleStub.invokeChaincode, fun _ _ => .error "PUT_STATE failed",
   fun _ => .error "DEL_STATE failed"⟩

/-- The base64 text of "x509::CN=alice,OU=client,O=Kalp::CN=ca.kalp,O=Kalp". -/
def aliceID : String := "eDUwOTo6Q049YWxpY2UsT1U9Y2xpZW50LE89S2FscDo6Q049Y2Eua2FscCxPPUthbHA="

/-- The base64 text of "x509::CN=bob,OU=client,O=Kalp::CN=ca.kalp,O=Kalp". -/
def bobID : String := "eDUwOTo6Q049Ym9iLE9VPWNsaWVudCxPPUthbHA6OkNOPWNhLmthbHAsTz1LYWxw"

/-- The base64 text of "subject-without-marker,rest". -/
def unmarkedID : String := "c3ViamVjdC13aXRob3V0LW1hcmtlcixyZXN0"

/-- The base64 text of "no-marker-and-no-comma". -/
def commalessID : String := "bm8tbWFya2VyLWFuZC1uby1jb21tYQ=="

/-- An initialized state in which alice holds the largest Go `int`, which is also the total
supply, and the issuer holds nothing. -/
def supplyFullWorld : World :=
  [("name", "Kalp"), ("symbol", "KLP"), ("decimals", "2"), ("issuer", "0"),
   ("alice", "9223372036854775807"), ("totalSupply", "9223372036854775807")]

/-- The base64 text of "x509::CN=alice". -/
def markerOnlyID : String := "eDUwOTo6Q049YWxpY2U="

/-- The base64 text of "O=Kalp,x509::CN=alice,OU=client". -/
def commaFirstID : String := "Tz1LYWxwLHg1MDk6OkNOPWFsaWNlLE9VPWNsaWVudA=="

/-! ## The greeting contract (`backend/krc.go`) -/

/-- `SetGreeting`: stores the greeting under the key "greeting". -/
def SetGreeting (_ctx : TransactionContext) (greeting : String) : Invocation Unit :=
  match PutStateWithoutKYC [] "greeting" greeting with
  | .error err => ⟨.error err, [], []⟩
  | .ok w => ⟨.ok (), w, []⟩

/-- `GetGreeting`: the bytes stored under the key "greeting", as a string. -/
def GetGreeting (ctx : TransactionContext) : Except String String :=
  match GetState ctx "greeting" with
  | .error err => .error ("failed to read greeting: " ++ err)
  | .ok greetingBytes =>
  match greetingBytes with
  | none => .error "greeting not found"
  | some b => .ok b

/-! ## The sequence of store accesses of an invocation -/

/-- One access to the store: a `GetState` of a key, or a `PutStateWithoutKYC` of a value
under a key. -/
inductive Access where
  | read (key : String)
  | write (key value : String)
  deriving DecidableEq, Repr

/-- What `GetState` returns for a key written earlier in the same invocation: only the
state committed before the invocation (the documented behaviour), or also the writes
buffered so far. -/
inductive ReadSemantics where
  | committed
  | readYourWrites
  deriving DecidableEq, Repr

/-- The writes of a sequence of accesses, in order. -/
def Access.writes : List Access → List (String × String)
  | [] => []
  | .read _ :: rest => Access.writes rest
  | .write k v :: rest => (k, v) :: Access.writes rest

/-- The value most recently written under `key` in a sequence of accesses. -/
def Access.lastWrite : List Access → String → Option String
  | [], _ => none
  | .read _ :: rest, key => Access.lastWrite rest key
  | .write k v :: rest, key =>
    match Access.lastWrite rest key with
    | some later => some later
    | none => if k = key then some v else none

def Access.isWrite : Access → Bool
  | .read _ => false
  | .write _ _ => true

/-- No read occurs after a write. -/
def Access.readsFirst : List Access → Bool
  | [] => true
  | .read _ :: rest => Access.readsFirst rest
  | .write _ _ :: rest => rest.all Access.isWrite

/-- An invocation together with the sequence of its store accesses. -/
structure Traced (α : Type) where
  ret : Except String α
  log : List Access
  events : List (String × event)

/-- The value a read of `key` sees after the accesses `log`: the committed one, or, under
`readYourWrites`, the value buffered under the key earlier in the invocation if there is
one. -/
def Traced.visible (mode : ReadSemantics) (sdk : TransactionContext) (log : List Access)
    (key : String) : Option String :=
  match mode with
  | .committed => sdk.state.get key
  | .readYourWrites =>
    match Access.lastWrite log key with
    | some buffered => some buffered
    | none => sdk.state.get key

/-- Modelled from the spec: `GetState`, recording the read. -/
def Traced.GetState (mode : ReadSemantics) (sdk : TransactionContext) (log : List Access)
    (key : String) : Except String (Option String) × List Access :=
  (.ok (Traced.visible mode sdk log key), log ++ [.read key])

/-- Modelled from the spec: `PutStateWithoutKYC`, recording the write. -/
def Traced.PutStateWithoutKYC (log : List Access) (key value : String) :
    Except String Unit × List Access :=
  (.ok (), log ++ [.write key value])

/-- `checkInitialized`, with its read recorded. -/
def Traced.checkInitialized (mode : ReadSemantics) (sdk : TransactionContext)
    (log : List Access) : Except String Bool × List Access :=
  match Traced.GetState mode sdk log nameKey with
  | (.error err, l1) => (.error ("failed to get token name: " ++ err), l1)
  | (.ok tokenName, l1) => (if tokenName = none then .ok false else .ok true, l1)

/-- `Mint`, with its store accesses recorded in order. -/
def Traced.Mint (mode : ReadSemantics) (sdk : TransactionContext) (amount : Int) :
    Traced Unit :=
  match Traced.checkInitialized mode sdk [] with
  | (.error err, l0) =>
    ⟨.error ("failed to check if contract is already initialized: " ++ err), l0, []⟩
  | (.ok initialized, l0) =>
  if !initialized then
    ⟨.error ("contract options need to be set before calling any function, " ++
      "call Initialize() to initialize contract"), l0, []⟩ else
  match GetMSPID sdk with
  | .error err => ⟨.error ("failed to get MSPID: " ++ err), l0, []⟩
  | .ok clientMSPID =>
  if clientMSPID ≠ "mailabs" then
    ⟨.error "client is not authorized to mint new tokens", l0, []⟩ else
  match GetUserID sdk with
  | .error err => ⟨.error ("failed to get client id: " ++ err), l0, []⟩
  | .ok minter =>
  if amount ≤ 0 then ⟨.error "mint amount must be a positive integer", l0, []⟩ else
  match Traced.GetState mode sdk l0 minter with
  | (.error err, l1) =>
    ⟨.error ("failed to read minter account " ++ minter ++ " from world state: " ++ err), l1,
      []⟩
  | (.ok currentBalanceBytes, l1) =>
  let currentBalance := decodeOrZero currentBalanceBytes
  match add currentBalance amount with
  | .error err => ⟨.error err, l1, []⟩
  | .ok updatedBalance =>
  match Traced.PutStateWithoutKYC l1 minter (Itoa updatedBalance) with
  | (.error err, l2) => ⟨.error err, l2, []⟩
  | (.ok _, l2) =>
  match Traced.GetState mode sdk l2 totalSupplyKey with
  | (.error err, l3) => ⟨.error ("failed to retrieve total token supply: " ++ err), l3, []⟩
  | (.ok totalSupplyBytes, l3) =>
  let totalSupply := decodeOrZero totalSupplyBytes
  match add totalSupply amount with
  | .error err => ⟨.error err, l3, []⟩
  | .ok totalSupply' =>
  match Traced.PutStateWithoutKYC l3 totalSupplyKey (Itoa totalSupply') with
  | (.error err, l4) => ⟨.error err, l4, []⟩
  | (.ok _, l4) =>
  match SetEvent [] "Transfer" ⟨"0x0", minter, amount⟩ with
  | .error err => ⟨.error ("failed to set event: " ++ err), l4, []⟩
  | .ok evs => ⟨.ok (), l4, evs⟩

/-- `Burn`, with its store accesses recorded in order. -/
def Traced.Burn (mode : ReadSemantics) (sdk : TransactionContext) (amount : Int) :
    Traced Unit :=
  match Traced.checkInitialized mode sdk [] with
  | (.error err, l0) =>
    ⟨.error ("failed to check if contract is already initialized: " ++ err), l0, []⟩
  | (.ok initialized, l0) =>
  if !initialized then ⟨.error notInitializedMsg, l0, []⟩ else
  match GetMSPID sdk with
  | .error err => ⟨.error ("failed to get MSPID: " ++ err), l0, []⟩
  | .ok clientMSPID =>
  if clientMSPID ≠ "mailabs" then
    ⟨.error "client is not authorized to mint new tokens", l0, []⟩ else
  match GetUserID sdk with
  | .error err => ⟨.error ("failed to get client id: " ++ err), l0, []⟩
  | .ok minter =>
  if amount ≤ 0 then ⟨.error "burn amount must be a positive integer", l0, []⟩ else
  match Traced.GetState mode sdk l0 minter with
  | (.error err, l1) =>
    ⟨.error ("failed to read minter account " ++ minter ++ " from world state: " ++ err), l1,
      []⟩
  | (.ok currentBalanceBytes, l1) =>
  match currentBalanceBytes with
  | none => ⟨.error "The balance does not exist", l1, []⟩
  | some balanceBytes =>
  let currentBalance := (Atoi balanceBytes).1
  match sub currentBalance amount with
  | .error err => ⟨.error err, l1, []⟩
  | .ok updatedBalance =>
  match Traced.PutStateWithoutKYC l1 minter (Itoa updatedBalance) with
  | (.error err, l2) => ⟨.error err, l2, []⟩
  | (.ok _, l2) =>
  match Traced.GetState mode sdk l2 totalSupplyKey with
  | (.error err, l3) => ⟨.error ("failed to retrieve total token supply: " ++ err), l3, []⟩
  | (.ok totalSupplyBytes, l3) =>
  match totalSupplyBytes with
  | none => ⟨.error "totalSupply does not exist", l3, []⟩
  | some supplyBytes =>
  let totalSupply := (Atoi supplyBytes).1
  match sub totalSupply amount with
  | .error err => ⟨.error err, l3, []⟩
  | .ok totalSupply' =>
  match Traced.PutStateWithoutKYC l3 totalSupplyKey (Itoa totalSupply') with
  | (.error err, l4) => ⟨.error err, l4, []⟩
  | (.ok _, l4) =>
  match SetEvent [] "Transfer" ⟨minter, "0x0", amount⟩ with
  | .error err => ⟨.error ("failed to set event: " ++ err), l4, []⟩
  | .ok evs => ⟨.ok (), l4, evs⟩

/-- `transferHelper`, continuing the sequence of accesses `log`. -/
def Traced.transferHelper (mode : ReadSemantics) (sdk : TransactionContext)
    (log : List Access) (from_ to_ : String) (value : Int) :
    Except String Unit × List Access :=
  if from_ = to_ then (.error "cannot transfer to and from same client account", log) else
  if value < 0 then (.error "transfer amount cannot be negative", log) else
  match Traced.GetState mode sdk log from_ with
  | (.error err, l1) =>
    (.error ("failed to read client account " ++ from_ ++ " from world state: " ++ err), l1)
  | (.ok fromCurrentBalanceBytes, l1) =>
  match fromCurrentBalanceBytes with
  | none => (.error ("client account " ++ from_ ++ " has no balance"), l1)
  | some fromBytes =>
  let fromCurrentBalance := (Atoi fromBytes).1
  if fromCurrentBalance < value then
    (.error ("client account " ++ from_ ++ " has insufficient funds"), l1) else
  match Traced.GetState mode sdk l1 to_ with
  | (.error err, l2) =>
    (.error ("failed to read recipient account " ++ to_ ++ " from world state: " ++ err), l2)
  | (.ok toCurrentBalanceBytes, l2) =>
  let toCurrentBalance := decodeOrZero toCurrentBalanceBytes
  match sub fromCurrentBalance value with
  | .error err => (.error err, l2)
  | .ok fromUpdatedBalance =>
  match add toCurrentBalance value with
  | .error err => (.error err, l2)
  | .ok toUpdatedBalance =>
  match Traced.PutStateWithoutKYC l2 from_ (Itoa fromUpdatedBalance) with
  | (.error err, l3) => (.error err, l3)
  | (.ok _, l3) =>
  match Traced.PutStateWithoutKYC l3 to_ (Itoa toUpdatedBalance) with
  | (.error err, l4) => (.error err, l4)
  | (.ok _, l4) => (.ok (), l4)

/-- `Transfer`, with its store accesses recorded in order. -/
def Traced.Transfer (mode : ReadSemantics) (sdk : TransactionContext) (recipient : String)
    (amount : Int) : Traced Unit :=
  match Traced.checkInitialized mode sdk [] with
  | (.error err, l0) =>
    ⟨.error ("failed to check if contract is already initialized: " ++ err), l0, []⟩
  | (.ok initialized, l0) =>
  if !initialized then ⟨.error notInitializedMsg, l0, []⟩ else
  match GetUserID sdk with
  | .error err => ⟨.error ("failed to get client id: " ++ err), l0, []⟩
  | .ok clientID =>
  match Traced.transferHelper mode sdk l0 clientID recipient amount with
  | (.error err, l1) => ⟨.error ("failed to transfer: " ++ err), l1, []⟩
  | (.ok _, l1) =>
  match SetEvent [] "Transfer" ⟨clientID, recipient, amount⟩ with
  | .error err => ⟨.error ("failed to set event: " ++ err), l1, []⟩
  | .ok evs => ⟨.ok (), l1, evs⟩

/-- `Approve`, with its store accesses recorded in order. -/
def Traced.Approve (mode : ReadSemantics) (sdk : TransactionContext) (spender : String)
    (value : Int) : Traced Unit :=
  match Traced.checkInitialized mode sdk [] with
  | (.error err, l0) =>
    ⟨.error ("failed to check if contract is already initialized: " ++ err), l0, []⟩
  | (.ok initialized, l0) =>
  if !initialized then ⟨.error notInitializedMsg, l0, []⟩ else
  match GetUserID sdk with
  | .error err => ⟨.error ("failed to get client id: " ++ err), l0, []⟩
  | .ok owner =>
  match CreateCompositeKey allowancePrefix [owner, spender] with
  | .error err =>
    ⟨.error ("failed to create the composite key for prefix " ++ allowancePrefix ++ ": " ++ err),
      l0, []⟩
  | .ok allowanceKey =>
  match Traced.PutStateWithoutKYC l0 allowanceKey (Itoa value) with
  | (.error err, l1) =>
    ⟨.error ("failed to update state of smart contract for key " ++ allowanceKey ++ ": " ++ err),
      l1, []⟩
  | (.ok _, l1) =>
  match SetEvent [] "Approval" ⟨owner, spender, value⟩ with
  | .error err => ⟨.error ("failed to set event: " ++ err), l1, []⟩
  | .ok evs => ⟨.ok (), l1, evs⟩

/-- `TransferFrom`, with its store accesses recorded in order. -/
def Traced.TransferFrom (mode : ReadSemantics) (sdk : TransactionContext)
    (from_ to_ : String) (value : Int) : Traced Unit :=
  match Traced.checkInitialized mode sdk [] with
  | (.error err, l0) =>
    ⟨.error ("failed to check if contract is already initialized: " ++ err), l0, []⟩
  | (.ok initialized, l0) =>
  if !initialized then ⟨.error notInitializedMsg, l0, []⟩ else
  match GetUserID sdk with
  | .error err => ⟨.error ("failed to get client id: " ++ err), l0, []⟩
  | .ok spender =>
  match CreateCompositeKey allowancePrefix [from_, spender] with
  | .error err =>
    ⟨.error ("failed to create the composite key for prefix " ++ allowancePrefix ++ ": " ++ err),
      l0, []⟩
  | .ok allowanceKey =>
  match Traced.GetState mode sdk l0 allowanceKey with
  | (.error err, l1) =>
    ⟨.error ("failed to retrieve the allowance for " ++ allowanceKey ++ " from world state: "
      ++ err), l1, []⟩
  | (.ok currentAllowanceBytes, l1) =>
  let currentAllowance := (Atoi (currentAllowanceBytes.getD "")).1
  if currentAllowance < value then
    ⟨.error "spender does not have enough allowance for transfer", l1, []⟩ else
  match Traced.transferHelper mode sdk l1 from_ to_ value with
  | (.error err, l2) => ⟨.error ("failed to transfer: " ++ err), l2, []⟩
  | (.ok _, l2) =>
  match sub currentAllowance value with
  | .error err => ⟨.error err, l2, []⟩
  | .ok updatedAllowance =>
  match Traced.PutStateWithoutKYC l2 allowanceKey (Itoa updatedAllowance) with
  | (.error err, l3) => ⟨.error err, l3, []⟩
  | (.ok _, l3) =>
  match SetEvent [] "Transfer" ⟨from_, to_, value⟩ with
  | .error err => ⟨.error ("failed to set event: " ++ err), l3, []⟩
  | .ok evs => ⟨.ok (), l3, evs⟩

/-- `Initialize`, with its store accesses recorded in order. -/
def Traced.Initialize (mode : ReadSemantics) (sdk : TransactionContext)
    (name symbol decimals : String) : Traced Bool :=
  match GetMSPID sdk with
  | .error err => ⟨.error ("failed to get MSPID: " ++ err), [], []⟩
  | .ok clientMSPID =>
  if clientMSPID ≠ "mailabs" then
    ⟨.error "client is not authorized to initialize contract", [], []⟩ else
  match Traced.GetState mode sdk [] nameKey with
  | (.error err, l0) => ⟨.error ("failed to get Name: " ++ err), l0, []⟩
  | (.ok bytes, l0) =>
  if bytes ≠ none then
    ⟨.error "contract options are already set, client is not authorized to change them", l0, []⟩
  else
  match Traced.PutStateWithoutKYC l0 nameKey name with
  | (.error err, l1) => ⟨.error ("failed to set token name: " ++ err), l1, []⟩
  | (.ok _, l1) =>
  match Traced.PutStateWithoutKYC l1 symbolKey symbol with
  | (.error err, l2) => ⟨.error ("failed to set symbol: " ++ err), l2, []⟩
  | (.ok _, l2) =>
  match Traced.PutStateWithoutKYC l2 decimalsKey decimals with
  | (.error err, l3) => ⟨.error ("failed to set token name: " ++ err), l3, []⟩
  | (.ok _, l3) => ⟨.ok true, l3, []⟩

/-- The keys read after the first write of a sequence of accesses. -/
def Access.readsAfterWrite : List Access → List String
  | [] => []
  | .read _ :: rest => Access.readsAfterWrite rest
  | .write _ _ :: rest =>
    rest.filterMap (fun a => match a with | .read k => some k | .write _ _ => none)

/-- The base64 text of "x509::CN=alice::CN=ca.kalp", an identity whose subject and issuer
have the common name as their only attribute. -/
def bareSubjectID : String := "eDUwOTo6Q049YWxpY2U6OkNOPWNhLmthbHA="

/-! ## Lemmas on the decimal encoding and the checked arithmetic -/

theorem digitChar_toNat (d : Nat) (h : d < 10) : (digitChar d).toNat = 48 + d := by
  interval_cases d <;> rfl

theorem parseUintLoop_append (xs ys : List Char) (n : Nat) :
    parseUintLoop (xs ++ ys) n =
      if (parseUintLoop xs n).2 = NumErr.none then parseUintLoop ys (parseUintLoop xs n).1
      else parseUintLoop xs n := by
  induction xs generalizing n with
  | nil => simp [parseUintLoop]
  | cons c cs ih =>
    simp only [List.cons_append, parseUintLoop]
    split
    · split
      · simp
      · split
        · simp
        · exact ih _
    · simp

theorem parseUintLoop_digit (d n : Nat) (hd : d < 10) (hn : n * 10 + d ≤ maxUint64) :
    parseUintLoop [digitChar d] n = (n * 10 + d, NumErr.none) := by
  have hc : ¬ n ≥ cutoff64 := by
    simp only [cutoff64, maxUint64] at *
    omega
  simp only [parseUintLoop, digitChar_toNat d hd]
  rw [if_pos (by omega), if_neg hc]
  simp only [Nat.add_sub_cancel_left]
  rw [if_neg (by omega)]

theorem parseUintLoop_formatBits (fuel : Nat) : ∀ u : Nat, u < 10 ^ fuel → u ≤ maxUint64 →
    parseUintLoop (formatBits fuel u) 0 = (u, NumErr.none) := by
  induction fuel with
  | zero => intro u h _; simp at h; subst h; simp [formatBits, parseUintLoop]
  | succ fuel ih =>
    intro u h hmax
    unfold formatBits
    split
    · rename_i h10
      have := parseUintLoop_digit u 0 h10 (by omega)
      simpa using this
    · rename_i h10
      have hdiv : u / 10 < 10 ^ fuel := by
        rw [pow_succ] at h
        omega
      have e1 := ih (u / 10) hdiv (by omega)
      rw [parseUintLoop_append, e1]
      simp only [if_true]
      have := parseUintLoop_digit (u % 10) (u / 10) (Nat.mod_lt _ (by norm_num)) (by omega)
      rw [this]
      congr 1
      omega

theorem formatBits_digits (fuel u : Nat) :
    ∀ c ∈ formatBits fuel u, 48 ≤ c.toNat ∧ c.toNat ≤ 57 := by
  induction fuel generalizing u with
  | zero => simp [formatBits]
  | succ fuel ih =>
    intro c hc
    unfold formatBits at hc
    split at hc
    · rename_i h10
      simp only [List.mem_singleton] at hc
      subst hc
      rw [digitChar_toNat u h10]; omega
    · simp only [List.mem_append, List.mem_singleton] at hc
      rcases hc with hc | hc
      · exact ih _ c hc
      · subst hc
        rw [digitChar_toNat _ (Nat.mod_lt _ (by norm_num))]
        have := Nat.mod_lt u (show 10 > 0 by norm_num)
        omega

theorem formatBits_ne_nil (fuel u : Nat) : formatBits (fuel + 1) u ≠ [] := by
  unfold formatBits
  split <;> simp

theorem ParseInt_digits (cs : List Char) (u : Nat) (hne : cs ≠ [])
    (hdig : ∀ c ∈ cs, 48 ≤ c.toNat ∧ c.toNat ≤ 57)
    (hp : parseUintLoop cs 0 = (u, NumErr.none)) (hu : u < 9223372036854775808) :
    ParseInt cs = ((u : Int), false) := by
  cases cs with
  | nil => exact absurd rfl hne
  | cons c rest =>
    have hc := hdig c (List.mem_cons_self _ _)
    have hminus : c ≠ '-' := by
      intro h; subst h; revert hc; decide
    have hplus : c ≠ '+' := by
      intro h; subst h; revert hc; decide
    simp only [ParseInt, hminus, hplus, or_self, if_false, decide_False, ParseUint, hp]
    simp
    omega

theorem ParseInt_neg_digits (cs : List Char) (u : Nat) (hne : cs ≠ [])
    (hp : parseUintLoop cs 0 = (u, NumErr.none)) (hu : u ≤ 9223372036854775808) :
    ParseInt ('-' :: cs) = (-(u : Int), false) := by
  simp only [ParseInt, ParseUint]
  simp [hne, hp]
  omega

/-- Round trip of the decimal encoding on the Go `int` range. -/
theorem Atoi_Itoa (n : Int) (h : InRange n) : Atoi (Itoa n) = (n, false) := by
  obtain ⟨hlo, hhi⟩ := h
  simp only [minInt, maxInt] at hlo hhi
  have hmax : n.natAbs ≤ maxUint64 := by simp only [maxUint64]; omega
  have hfuel : n.natAbs < 10 ^ 20 := by norm_num; omega
  have hp := parseUintLoop_formatBits 20 n.natAbs hfuel hmax
  unfold Itoa Atoi
  split
  · rename_i hneg
    rw [ParseInt_neg_digits _ n.natAbs (formatBits_ne_nil 19 _) hp (by omega)]
    congr 1
    omega
  · rename_i hneg
    rw [ParseInt_digits _ n.natAbs (formatBits_ne_nil 19 _) (formatBits_digits 20 _) hp (by omega)]
    congr 1
    omega

theorem ParseInt_inRange (cs : List Char) : InRange (ParseInt cs).1 := by
  unfold ParseInt InRange minInt maxInt
  cases cs with
  | nil => simp
  | cons c rest =>
    dsimp only
    generalize ParseUint (if c = '+' ∨ c = '-' then rest else c :: rest) = r
    obtain ⟨un, e⟩ := r
    cases e <;> dsimp only
    all_goals first
      | (simp; done)
      | (split
         · simp
         · split
           · simp
           · rename_i h1 h2
             by_cases hneg : c = '-' <;> simp [hneg] at h1 h2 ⊢ <;> omega)

/-- Every value `strconv.Atoi` returns is a Go `int`. -/
theorem Atoi_inRange (s : String) : InRange (Atoi s).1 := ParseInt_inRange s.data

theorem wrap_of_inRange (x : Int) (h : InRange x) : wrap x = x := by
  unfold InRange minInt maxInt at h
  unfold wrap
  omega

theorem wrap_inRange (x : Int) : InRange (wrap x) := by
  unfold InRange minInt maxInt wrap
  omega

theorem add_of_inRange (b q : Int) (h : InRange (b + q)) : add b q = .ok (b + q) := by
  have hw : wrap (q + b) = b + q := by rw [Int.add_comm q b]; exact wrap_of_inRange _ h
  unfold add
  simp only [hw]
  by_cases hb : 0 ≤ b <;> by_cases hq : 0 ≤ q <;> simp [hb, hq]

theorem add_eq_ok (b q s : Int) (hb : InRange b) (hq : InRange q) (h : add b q = .ok s) :
    s = b + q ∧ InRange s := by
  unfold add at h
  unfold InRange minInt maxInt at *
  simp only at h
  split at h
  · cases h
  · rename_i hc
    injection h with h
    subst h
    unfold wrap at hc ⊢
    by_cases hb0 : 0 ≤ b <;> by_cases hq0 : 0 ≤ q <;> simp [hb0, hq0] at hc <;> omega

theorem add_overflow (b q : Int) (hb : InRange b) (hq : InRange q) (h : maxInt < b + q) :
    add b q = .error ("Math: addition overflow occurred " ++ Itoa b ++ " + " ++ Itoa q) := by
  unfold add
  unfold InRange minInt maxInt at *
  have hb0 : 0 ≤ b := by omega
  have hq0 : 0 ≤ q := by omega
  have hlt : wrap (q + b) < q := by unfold wrap; omega
  simp [hb0, hq0, hlt]

theorem sub_of_le (b q : Int) (hb : InRange b) (hq : 0 < q) (h : q ≤ b) :
    sub b q = .ok (b - q) := by
  unfold sub
  rw [if_neg (by omega), if_neg (by omega), wrap_of_inRange]
  unfold InRange minInt maxInt at *
  omega

theorem sub_eq_ok (b q d : Int) (hb : InRange b) (h : sub b q = .ok d) :
    0 < q ∧ q ≤ b ∧ d = b - q := by
  unfold sub at h
  split at h
  · cases h
  · split at h
    · cases h
    · injection h with h
      rw [wrap_of_inRange] at h
      · omega
      · unfold InRange minInt maxInt at *
        omega

theorem World.get_put (w : World) (k v k' : String) :
    (w.put k v).get k' = if k = k' then some v else w.get k' := by
  induction w with
  | nil => simp [World.put, World.get]
  | cons e rest ih =>
    obtain ⟨k0, v0⟩ := e
    by_cases h0 : k0 = k
    · subst h0
      by_cases h1 : k0 = k' <;> simp [World.put, World.get, h1]
    · simp only [World.put, if_neg h0, World.get, ih]
      by_cases h1 : k0 = k'
      · subst h1
        simp [Ne.symm h0]
      · simp [h1]

/-! ## Lemmas on the operations -/

theorem balance_inRange (w : World) (k : String) : InRange (balance w k) := by
  unfold balance decodeOrZero
  cases w.get k with
  | none => simp [InRange, minInt, maxInt]
  | some b => exact Atoi_inRange b

theorem balance_put (w : World) (k k' : String) (n : Int) (h : InRange n) :
    balance (w.put k (Itoa n)) k' = if k = k' then n else balance w k' := by
  unfold balance
  rw [World.get_put]
  split
  · simp [decodeOrZero, Atoi_Itoa n h]
  · rfl

theorem Mint_of_ok (sdk : TransactionContext) (amount : Int) (ha : InRange amount)
    (h : isError (Mint sdk amount).ret = false) :
    ∃ m, sdk.userID = .ok m ∧ sdk.mspID = .ok "mailabs" ∧ sdk.state.get nameKey ≠ none ∧
      0 < amount ∧ InRange (balance sdk.state m + amount) ∧
      InRange (balance sdk.state totalSupplyKey + amount) := by
  cases hget : sdk.state.get nameKey with
  | none => simp [Mint, checkInitialized, GetState, hget, failWith, isError] at h
  | some nm =>
  cases hmsp : sdk.mspID with
  | error e => simp [Mint, checkInitialized, GetState, GetMSPID, hget, hmsp, failWith, isError] at h
  | ok c =>
  by_cases hc : c = "mailabs"
  swap
  · simp [Mint, checkInitialized, GetState, GetMSPID, hget, hmsp, hc, failWith, isError] at h
  subst hc
  cases huser : sdk.userID with
  | error e =>
    simp [Mint, checkInitialized, GetState, GetMSPID, GetUserID, hget, hmsp, huser, failWith,
      isError] at h
  | ok m =>
  by_cases hpos : amount ≤ 0
  · simp [Mint, checkInitialized, GetState, GetMSPID, GetUserID, hget, hmsp, huser, hpos,
      failWith, isError] at h
  cases hadd1 : add (balance sdk.state m) amount with
  | error e =>
    unfold balance at hadd1
    simp [Mint, checkInitialized, GetState, GetMSPID, GetUserID, hget, hmsp, huser, hpos,
      hadd1, failWith, isError] at h
  | ok ub =>
  cases hadd2 : add (balance sdk.state totalSupplyKey) amount with
  | error e =>
    unfold balance at hadd1 hadd2
    simp [Mint, checkInitialized, GetState, GetMSPID, GetUserID, PutStateWithoutKYC, hget, hmsp,
      huser, hpos, hadd1, hadd2, failWith, isError] at h
  | ok ut =>
  have e1 := add_eq_ok _ _ _ (balance_inRange _ _) ha hadd1
  have e2 := add_eq_ok _ _ _ (balance_inRange _ _) ha hadd2
  refine ⟨m, rfl, rfl, by simp, by omega, ?_, ?_⟩
  · rw [← e1.1]; exact e1.2
  · rw [← e2.1]; exact e2.2

theorem Mint_succeeds (sdk : TransactionContext) (m : String) (amount : Int)
    (hinit : sdk.state.get nameKey ≠ none)
    (hmsp : sdk.mspID = .ok "mailabs")
    (huser : sdk.userID = .ok m)
    (hpos : 0 < amount)
    (hbal : balance sdk.state m + amount ≤ maxInt)
    (htot : balance sdk.state totalSupplyKey + amount ≤ maxInt) :
    Mint sdk amount =
      ⟨.ok (), [(m, Itoa (balance sdk.state m + amount)),
                (totalSupplyKey, Itoa (balance sdk.state totalSupplyKey + amount))],
       [("Transfer", ⟨"0x0", m, amount⟩)]⟩ := by
  have hb := Atoi_inRange
  have r1 : InRange (balance sdk.state m + amount) := by
    have := hb ((sdk.state.get m).getD "")
    unfold balance decodeOrZero InRange minInt maxInt at *
    cases hg : sdk.state.get m <;> simp [hg] at * <;> omega
  have r2 : InRange (balance sdk.state totalSupplyKey + amount) := by
    have := hb ((sdk.state.get totalSupplyKey).getD "")
    unfold balance decodeOrZero InRange minInt maxInt at *
    cases hg : sdk.state.get totalSupplyKey <;> simp [hg] at * <;> omega
  unfold balance at *
  simp [Mint, checkInitialized, GetState, GetMSPID, GetUserID, PutStateWithoutKYC, SetEvent,
    hinit, hmsp, huser, not_le.mpr hpos, add_of_inRange _ _ r1, add_of_inRange _ _ r2]

theorem balance_of_get (w : World) (k b : String) (h : w.get k = some b) :
    balance w k = (Atoi b).1 := by
  simp [balance, decodeOrZero, h]

theorem transferHelper_succeeds (sdk : TransactionContext) (f t : String) (value : Int)
    (hne : f ≠ t) (hpos : 0 < value) (hf : sdk.state.get f ≠ none)
    (hge : value ≤ balance sdk.state f) (hto : balance sdk.state t + value ≤ maxInt) :
    transferHelper sdk f t value =
      (.ok (), [(f, Itoa (balance sdk.state f - value)),
                (t, Itoa (balance sdk.state t + value))]) := by
  obtain ⟨fb, hfb⟩ := Option.ne_none_iff_exists'.mp hf
  have hbf := balance_inRange sdk.state f
  have hbt := balance_inRange sdk.state t
  have r2 : InRange (balance sdk.state t + value) := by
    unfold InRange minInt maxInt at *; omega
  have hs := sub_of_le _ _ hbf hpos hge
  have ha := add_of_inRange _ _ r2
  rw [balance_of_get _ _ _ hfb] at hs hge ⊢
  unfold balance at ha ⊢
  simp [transferHelper, GetState, PutStateWithoutKYC, hne, hfb, not_lt.mpr (le_of_lt hpos),
    not_lt.mpr hge, hs, ha]

theorem transferHelper_of_ok (sdk : TransactionContext) (f t : String) (value : Int)
    (hv : InRange value) (h : isError (transferHelper sdk f t value).1 = false) :
    f ≠ t ∧ 0 < value ∧ sdk.state.get f ≠ none ∧ value ≤ balance sdk.state f ∧
      InRange (balance sdk.state t + value) := by
  by_cases hne : f = t
  · simp [transferHelper, hne, isError] at h
  by_cases hneg : value < 0
  · simp [transferHelper, hne, hneg, isError] at h
  cases hfb : sdk.state.get f with
  | none => simp [transferHelper, GetState, hne, hneg, hfb, isError] at h
  | some fb =>
  by_cases hlt : (Atoi fb).1 < value
  · simp [transferHelper, GetState, hne, hneg, hfb, hlt, isError] at h
  cases hs : sub (Atoi fb).1 value with
  | error e => simp [transferHelper, GetState, hne, hneg, hfb, hlt, hs, isError] at h
  | ok d =>
  cases ha : add (balance sdk.state t) value with
  | error e =>
    unfold balance at ha
    simp [transferHelper, GetState, hne, hneg, hfb, hlt, hs, ha, isError] at h
  | ok u =>
  have e1 := sub_eq_ok _ _ _ (Atoi_inRange fb) hs
  have e2 := add_eq_ok _ _ _ (balance_inRange _ _) hv ha
  refine ⟨hne, e1.1, by simp, ?_, ?_⟩
  · rw [balance_of_get _ _ _ hfb]; exact e1.2.1
  · rw [← e2.1]; exact e2.2

theorem transferHelper_error_writes (sdk : TransactionContext) (f t : String) (value : Int)
    (h : isError (transferHelper sdk f t value).1 = true) :
    (transferHelper sdk f t value).2 = [] := by
  unfold transferHelper at h ⊢
  simp only [GetState, PutStateWithoutKYC] at h ⊢
  repeat' split
  all_goals first
    | rfl
    | (exfalso; revert h; simp [isError, *])

theorem Atoi_empty : (Atoi "").1 = 0 := by decide

theorem balance_getD (w : World) (k : String) : (Atoi ((w.get k).getD "")).1 = balance w k := by
  unfold balance decodeOrZero
  cases w.get k with
  | none => exact Atoi_empty
  | some b => rfl

theorem commit_ok {α : Type} (w : World) (x : α) (ws : List (String × String))
    (evs : List (String × event)) :
    commit w (⟨.ok x, ws, evs⟩ : Invocation α) = ws.foldl (fun acc kv => acc.put kv.1 kv.2) w := rfl

theorem commit_error {α : Type} (w : World) (inv : Invocation α) (h : isError inv.ret = true) :
    commit w inv = w := by
  unfold commit
  cases hr : inv.ret with
  | error e => rfl
  | ok x => simp [hr, isError] at h

theorem World.get_put_ne_none (w : World) (k v k' : String) (h : w.get k' ≠ none) :
    (w.put k v).get k' ≠ none := by
  rw [World.get_put]
  split <;> simp [h]

theorem Burn_succeeds (sdk : TransactionContext) (m : String) (amount : Int)
    (hinit : sdk.state.get nameKey ≠ none) (hmsp : sdk.mspID = .ok "mailabs")
    (huser : sdk.userID = .ok m) (hpos : 0 < amount)
    (hm : sdk.state.get m ≠ none) (hge : amount ≤ balance sdk.state m)
    (hts : sdk.state.get totalSupplyKey ≠ none)
    (htge : amount ≤ balance sdk.state totalSupplyKey) :
    Burn sdk amount =
      ⟨.ok (), [(m, Itoa (balance sdk.state m - amount)),
                (totalSupplyKey, Itoa (balance sdk.state totalSupplyKey - amount))],
       [("Transfer", ⟨m, "0x0", amount⟩)]⟩ := by
  obtain ⟨mb, hmb⟩ := Option.ne_none_iff_exists'.mp hm
  obtain ⟨tb, htb⟩ := Option.ne_none_iff_exists'.mp hts
  have s1 := sub_of_le _ _ (balance_inRange sdk.state m) hpos hge
  have s2 := sub_of_le _ _ (balance_inRange sdk.state totalSupplyKey) hpos htge
  rw [balance_of_get _ _ _ hmb] at s1 ⊢
  rw [balance_of_get _ _ _ htb] at s2 ⊢
  simp [Burn, checkInitialized, GetState, GetMSPID, GetUserID, PutStateWithoutKYC, SetEvent,
    hinit, hmsp, huser, not_le.mpr hpos, hmb, htb, s1, s2]

theorem Transfer_succeeds (sdk : TransactionContext) (f t : String) (amount : Int)
    (hinit : sdk.state.get nameKey ≠ none) (huser : sdk.userID = .ok f)
    (hne : t ≠ f) (hpos : 0 < amount) (hf : sdk.state.get f ≠ none)
    (hge : amount ≤ balance sdk.state f) (hto : balance sdk.state t + amount ≤ maxInt) :
    Transfer sdk t amount =
      ⟨.ok (), [(f, Itoa (balance sdk.state f - amount)),
                (t, Itoa (balance sdk.state t + amount))],
       [("Transfer", ⟨f, t, amount⟩)]⟩ := by
  have hh := transferHelper_succeeds sdk f t amount (Ne.symm hne) hpos hf hge hto
  simp [Transfer, checkInitialized, GetState, GetUserID, SetEvent, hinit, huser, hh]

theorem TransferFrom_succeeds (sdk : TransactionContext) (s f t k : String) (value : Int)
    (hinit : sdk.state.get nameKey ≠ none) (huser : sdk.userID = .ok s)
    (hk : CreateCompositeKey allowancePrefix [f, s] = .ok k)
    (hne : t ≠ f) (hpos : 0 < value) (hallow : value ≤ balance sdk.state k)
    (hf : sdk.state.get f ≠ none) (hge : value ≤ balance sdk.state f)
    (hto : balance sdk.state t + value ≤ maxInt) :
    TransferFrom sdk f t value =
      ⟨.ok (), [(f, Itoa (balance sdk.state f - value)),
                (t, Itoa (balance sdk.state t + value)),
                (k, Itoa (balance sdk.state k - value))],
       [("Transfer", ⟨f, t, value⟩)]⟩ := by
  have hh := transferHelper_succeeds sdk f t value (Ne.symm hne) hpos hf hge hto
  have hs := sub_of_le _ _ (balance_inRange sdk.state k) hpos hallow
  simp [TransferFrom, checkInitialized, GetState, GetUserID, PutStateWithoutKYC, SetEvent, hinit,
    huser, hk, hh, not_lt.mpr hallow, hs, balance_getD]

theorem Approve_succeeds (sdk : TransactionContext) (o s k : String) (v : Int)
    (hinit : sdk.state.get nameKey ≠ none) (huser : sdk.userID = .ok o)
    (hk : CreateCompositeKey allowancePrefix [o, s] = .ok k) :
    Approve sdk s v = ⟨.ok (), [(k, Itoa v)], [("Approval", ⟨o, s, v⟩)]⟩ := by
  simp [Approve, checkInitialized, GetState, GetUserID, PutStateWithoutKYC, SetEvent, hinit,
    huser, hk]

theorem Allowance_eq (sdk : TransactionContext) (o s k : String)
    (hinit : sdk.state.get nameKey ≠ none)
    (hk : CreateCompositeKey allowancePrefix [o, s] = .ok k) :
    Allowance sdk o s = .ok (balance sdk.state k) := by
  simp [Allowance, checkInitialized, GetState, hinit, hk, balance]

theorem TransferFrom_of_ok (sdk : TransactionContext) (f t : String) (value : Int)
    (hv : InRange value) (h : isError (TransferFrom sdk f t value).ret = false) :
    ∃ s k, sdk.userID = .ok s ∧ CreateCompositeKey allowancePrefix [f, s] = .ok k ∧
      sdk.state.get nameKey ≠ none ∧ value ≤ balance sdk.state k ∧
      f ≠ t ∧ 0 < value ∧ sdk.state.get f ≠ none ∧ value ≤ balance sdk.state f ∧
      InRange (balance sdk.state t + value) := by
  cases hget : sdk.state.get nameKey with
  | none => simp [TransferFrom, checkInitialized, GetState, hget, failWith, isError] at h
  | some nm =>
  cases huser : sdk.userID with
  | error e =>
    simp [TransferFrom, checkInitialized, GetState, GetUserID, hget, huser, failWith, isError] at h
  | ok s =>
  cases hk : CreateCompositeKey allowancePrefix [f, s] with
  | error e =>
    simp [TransferFrom, checkInitialized, GetState, GetUserID, hget, huser, hk, failWith,
      isError] at h
  | ok k =>
  by_cases hal : balance sdk.state k < value
  · simp [TransferFrom, checkInitialized, GetState, GetUserID, hget, huser, hk, balance_getD,
      hal, failWith, isError] at h
  cases hh : transferHelper sdk f t value with
  | mk r w =>
  cases r with
  | error e =>
    simp [TransferFrom, checkInitialized, GetState, GetUserID, hget, huser, hk, balance_getD,
      hal, hh, failWith, isError] at h
  | ok u =>
  have hth := transferHelper_of_ok sdk f t value hv (by rw [hh]; rfl)
  exact ⟨s, k, rfl, hk, by simp, by omega, hth⟩

theorem TransferFrom_low_allowance (sdk : TransactionContext) (s f t k : String) (value : Int)
    (huser : sdk.userID = .ok s) (hk : CreateCompositeKey allowancePrefix [f, s] = .ok k)
    (hlow : balance sdk.state k < value) :
    isError (TransferFrom sdk f t value).ret = true ∧ (TransferFrom sdk f t value).writes = [] ∧
      (TransferFrom sdk f t value).events = [] := by
  cases hget : sdk.state.get nameKey with
  | none => simp [TransferFrom, checkInitialized, GetState, hget, failWith, isError]
  | some nm =>
    simp [TransferFrom, checkInitialized, GetState, GetUserID, hget, huser, hk, balance_getD,
      hlow, failWith, isError]

theorem TransferFrom_error_writes (sdk : TransactionContext) (f t : String) (value : Int)
    (hv : InRange value) (h : isError (TransferFrom sdk f t value).ret = true) :
    (TransferFrom sdk f t value).writes = [] ∧ (TransferFrom sdk f t value).events = [] := by
  cases hget : sdk.state.get nameKey with
  | none => simp [TransferFrom, checkInitialized, GetState, hget, failWith]
  | some nm =>
  cases huser : sdk.userID with
  | error e => simp [TransferFrom, checkInitialized, GetState, GetUserID, hget, huser, failWith]
  | ok s =>
  cases hk : CreateCompositeKey allowancePrefix [f, s] with
  | error e =>
    simp [TransferFrom, checkInitialized, GetState, GetUserID, hget, huser, hk, failWith]
  | ok k =>
  by_cases hal : balance sdk.state k < value
  · simp [TransferFrom, checkInitialized, GetState, GetUserID, hget, huser, hk, balance_getD,
      hal, failWith]
  cases hh : transferHelper sdk f t value with
  | mk r w =>
  cases r with
  | error e =>
    have hw := transferHelper_error_writes sdk f t value (by rw [hh]; rfl)
    rw [hh] at hw
    simp only at hw
    subst hw
    simp [TransferFrom, checkInitialized, GetState, GetUserID, hget, huser, hk, balance_getD,
      hal, hh, failWith]
  | ok u =>
    exfalso
    have hth := transferHelper_of_ok sdk f t value hv (by rw [hh]; rfl)
    obtain ⟨hne, hpos, hf, hge, hto⟩ := hth
    have hrun := TransferFrom_succeeds sdk s f t k value (by simp [hget]) huser hk (Ne.symm hne)
      hpos (by omega) hf hge hto.2
    rw [hrun] at h
    simp [isError] at h

theorem World.get_foldl_put_ne_none (ws : List (String × String)) (w : World) (k : String)
    (h : w.get k ≠ none) : (ws.foldl (fun acc kv => acc.put kv.1 kv.2) w).get k ≠ none := by
  induction ws generalizing w with
  | nil => exact h
  | cons e rest ih => exact ih _ (World.get_put_ne_none _ _ _ _ h)

theorem Atoi_Itoa_val (n : Int) (h : InRange n) : (Atoi (Itoa n)).1 = n := by
  rw [Atoi_Itoa n h]

theorem Mint_writes_mem (sdk : TransactionContext) (amount : Int) (ha : InRange amount)
    (kv : String × String) (hkv : kv ∈ (Mint sdk amount).writes) :
    0 < amount ∧
    ((∃ m, sdk.userID = .ok m ∧ kv = (m, Itoa (balance sdk.state m + amount)) ∧
        InRange (balance sdk.state m + amount)) ∨
      (kv = (totalSupplyKey, Itoa (balance sdk.state totalSupplyKey + amount)) ∧
        InRange (balance sdk.state totalSupplyKey + amount))) := by
  cases hget : sdk.state.get nameKey with
  | none => simp [Mint, checkInitialized, GetState, hget, failWith] at hkv
  | some nm =>
  cases hmsp : sdk.mspID with
  | error e => simp [Mint, checkInitialized, GetState, GetMSPID, hget, hmsp, failWith] at hkv
  | ok c =>
  by_cases hc : c = "mailabs"
  swap
  · simp [Mint, checkInitialized, GetState, GetMSPID, hget, hmsp, hc, failWith] at hkv
  subst hc
  cases huser : sdk.userID with
  | error e =>
    simp [Mint, checkInitialized, GetState, GetMSPID, GetUserID, hget, hmsp, huser, failWith]
      at hkv
  | ok m =>
  by_cases hpos : amount ≤ 0
  · simp [Mint, checkInitialized, GetState, GetMSPID, GetUserID, hget, hmsp, huser, hpos,
      failWith] at hkv
  cases hadd1 : add (balance sdk.state m) amount with
  | error e =>
    unfold balance at hadd1
    simp [Mint, checkInitialized, GetState, GetMSPID, GetUserID, hget, hmsp, huser, hpos,
      hadd1, failWith] at hkv
  | ok ub =>
  have e1 := add_eq_ok _ _ _ (balance_inRange _ _) ha hadd1
  have r1 : InRange (balance sdk.state m + amount) := by rw [← e1.1]; exact e1.2
  cases hadd2 : add (balance sdk.state totalSupplyKey) amount with
  | error e =>
    unfold balance at hadd1 hadd2
    simp [Mint, checkInitialized, GetState, GetMSPID, GetUserID, PutStateWithoutKYC, hget, hmsp,
      huser, hpos, hadd1, hadd2, failWith] at hkv
    refine ⟨by omega, Or.inl ⟨m, rfl, ?_, r1⟩⟩
    rw [hkv, e1.1]
  | ok ut =>
  have e2 := add_eq_ok _ _ _ (balance_inRange _ _) ha hadd2
  have r2 : InRange (balance sdk.state totalSupplyKey + amount) := by rw [← e2.1]; exact e2.2
  have hrun := Mint_succeeds sdk m amount (by simp [hget]) hmsp huser (by omega) r1.2 r2.2
  rw [hrun] at hkv
  simp only [List.mem_cons, List.mem_singleton, List.not_mem_nil, or_false] at hkv
  refine ⟨by omega, ?_⟩
  rcases hkv with h | h
  · exact Or.inl ⟨m, rfl, h, r1⟩
  · exact Or.inr ⟨h, r2⟩

theorem Burn_writes_mem (sdk : TransactionContext) (amount : Int)
    (kv : String × String) (hkv : kv ∈ (Burn sdk amount).writes) :
    0 < amount ∧
    ((∃ m, sdk.userID = .ok m ∧ kv = (m, Itoa (balance sdk.state m - amount)) ∧
        amount ≤ balance sdk.state m) ∨
      (kv = (totalSupplyKey, Itoa (balance sdk.state totalSupplyKey - amount)) ∧
        amount ≤ balance sdk.state totalSupplyKey)) := by
  cases hget : sdk.state.get nameKey with
  | none => simp [Burn, checkInitialized, GetState, hget, failWith] at hkv
  | some nm =>
  cases hmsp : sdk.mspID with
  | error e => simp [Burn, checkInitialized, GetState, GetMSPID, hget, hmsp, failWith] at hkv
  | ok c =>
  by_cases hc : c = "mailabs"
  swap
  · simp [Burn, checkInitialized, GetState, GetMSPID, hget, hmsp, hc, failWith] at hkv
  subst hc
  cases huser : sdk.userID with
  | error e =>
    simp [Burn, checkInitialized, GetState, GetMSPID, GetUserID, hget, hmsp, huser, failWith]
      at hkv
  | ok m =>
  by_cases hpos : amount ≤ 0
  · simp [Burn, checkInitialized, GetState, GetMSPID, GetUserID, hget, hmsp, huser, hpos,
      failWith] at hkv
  cases hmb : sdk.state.get m with
  | none =>
    simp [Burn, checkInitialized, GetState, GetMSPID, GetUserID, hget, hmsp, huser, hpos, hmb,
      failWith] at hkv
  | some mb =>
  cases hs1 : sub (Atoi mb).1 amount with
  | error e =>
    simp [Burn, checkInitialized, GetState, GetMSPID, GetUserID, hget, hmsp, huser, hpos, hmb,
      hs1, failWith] at hkv
  | ok ub =>
  have e1 := sub_eq_ok _ _ _ (Atoi_inRange mb) hs1
  have hbm := balance_of_get _ _ _ hmb
  cases htb : sdk.state.get totalSupplyKey with
  | none =>
    simp [Burn, checkInitialized, GetState, GetMSPID, GetUserID, PutStateWithoutKYC, hget, hmsp,
      huser, hpos, hmb, hs1, htb, failWith] at hkv
    refine ⟨by omega, Or.inl ⟨m, rfl, ?_, by omega⟩⟩
    rw [hkv, e1.2.2, hbm]
  | some tb =>
  have hbt := balance_of_get _ _ _ htb
  cases hs2 : sub (Atoi tb).1 amount with
  | error e =>
    simp [Burn, checkInitialized, GetState, GetMSPID, GetUserID, PutStateWithoutKYC, hget, hmsp,
      huser, hpos, hmb, hs1, htb, hs2, failWith] at hkv
    refine ⟨by omega, Or.inl ⟨m, rfl, ?_, by omega⟩⟩
    rw [hkv, e1.2.2, hbm]
  | ok ut =>
  have e2 := sub_eq_ok _ _ _ (Atoi_inRange tb) hs2
  have hrun := Burn_succeeds sdk m amount (by simp [hget]) hmsp huser (by omega) (by simp [hmb])
    (by omega) (by simp [htb]) (by omega)
  rw [hrun] at hkv
  simp only [List.mem_cons, List.mem_singleton, List.not_mem_nil, or_false] at hkv
  refine ⟨by omega, ?_⟩
  rcases hkv with h | h
  · exact Or.inl ⟨m, rfl, h, by omega⟩
  · exact Or.inr ⟨h, by omega⟩

theorem transferHelper_writes_mem (sdk : TransactionContext) (f t : String) (value : Int)
    (hv : InRange value) (kv : String × String) (hkv : kv ∈ (transferHelper sdk f t value).2) :
    0 < value ∧ f ≠ t ∧
    ((kv = (f, Itoa (balance sdk.state f - value)) ∧ value ≤ balance sdk.state f) ∨
      (kv = (t, Itoa (balance sdk.state t + value)) ∧
        InRange (balance sdk.state t + value))) := by
  cases herr : isError (transferHelper sdk f t value).1 with
  | true =>
    rw [transferHelper_error_writes sdk f t value herr] at hkv
    simp at hkv
  | false =>
    obtain ⟨hne, hpos, hf, hge, hto⟩ := transferHelper_of_ok sdk f t value hv herr
    rw [transferHelper_succeeds sdk f t value hne hpos hf hge hto.2] at hkv
    simp only [List.mem_cons, List.mem_singleton, List.not_mem_nil, or_false] at hkv
    refine ⟨hpos, hne, ?_⟩
    rcases hkv with h | h
    · exact Or.inl ⟨h, hge⟩
    · exact Or.inr ⟨h, hto⟩

theorem Transfer_writes_sub (sdk : TransactionContext) (t : String) (amount : Int)
    (kv : String × String) (hkv : kv ∈ (Transfer sdk t amount).writes) :
    ∃ f, sdk.userID = .ok f ∧ kv ∈ (transferHelper sdk f t amount).2 := by
  cases hget : sdk.state.get nameKey with
  | none => simp [Transfer, checkInitialized, GetState, hget, failWith] at hkv
  | some nm =>
  cases huser : sdk.userID with
  | error e =>
    simp [Transfer, checkInitialized, GetState, GetUserID, hget, huser, failWith] at hkv
  | ok f =>
  refine ⟨f, rfl, ?_⟩
  cases hh : transferHelper sdk f t amount with
  | mk r w =>
  cases r with
  | error e =>
    simpa [Transfer, checkInitialized, GetState, GetUserID, hget, huser, hh, failWith] using hkv
  | ok u =>
    simpa [Transfer, checkInitialized, GetState, GetUserID, SetEvent, hget, huser, hh, failWith]
      using hkv

theorem TransferFrom_writes_mem (sdk : TransactionContext) (f t : String) (value : Int)
    (hv : InRange value) (kv : String × String)
    (hkv : kv ∈ (TransferFrom sdk f t value).writes) :
    kv ∈ (transferHelper sdk f t value).2 ∨
      ∃ s k, sdk.userID = .ok s ∧ CreateCompositeKey allowancePrefix [f, s] = .ok k ∧
        kv = (k, Itoa (balance sdk.state k - value)) ∧ value ≤ balance sdk.state k ∧
        0 < value := by
  cases herr : isError (TransferFrom sdk f t value).ret with
  | true =>
    rw [(TransferFrom_error_writes sdk f t value hv herr).1] at hkv
    simp at hkv
  | false =>
    obtain ⟨s, k, hs, hk, hinit, hal, hne, hpos, hf, hge, hto⟩ :=
      TransferFrom_of_ok sdk f t value hv herr
    rw [TransferFrom_succeeds sdk s f t k value hinit hs hk (Ne.symm hne) hpos hal hf hge hto.2]
      at hkv
    rw [transferHelper_succeeds sdk f t value hne hpos hf hge hto.2]
    simp only [List.mem_cons, List.mem_singleton, List.not_mem_nil, or_false] at hkv ⊢
    rcases hkv with h | h | h
    · exact Or.inl (Or.inl h)
    · exact Or.inl (Or.inr h)
    · exact Or.inr ⟨s, k, hs, hk, h, hal, hpos⟩

theorem Approve_writes_mem (sdk : TransactionContext) (spender : String) (value : Int)
    (kv : String × String) (hkv : kv ∈ (Approve sdk spender value).writes) :
    kv.2 = Itoa value := by
  cases hget : sdk.state.get nameKey with
  | none => simp [Approve, checkInitialized, GetState, hget, failWith] at hkv
  | some nm =>
  cases huser : sdk.userID with
  | error e =>
    simp [Approve, checkInitialized, GetState, GetUserID, hget, huser, failWith] at hkv
  | ok o =>
  cases hk : CreateCompositeKey allowancePrefix [o, spender] with
  | error e =>
    simp [Approve, checkInitialized, GetState, GetUserID, hget, huser, hk, failWith] at hkv
  | ok k =>
    rw [Approve_succeeds sdk o spender k value (by simp [hget]) huser hk] at hkv
    simp only [List.mem_singleton] at hkv
    rw [hkv]

theorem sampleWorld_nonneg (k : String) : 0 ≤ balance sampleWorld k := by
  simp only [balance, sampleWorld, World.get]
  repeat' split
  all_goals decide

theorem sumBalances_put_account (w : World) (k : String) (n : Int)
    (hk : isAccountKey k = true) (hn : InRange n) :
    sumBalances (w.put k (Itoa n)) = sumBalances w - balance w k + n := by
  induction w with
  | nil => simp [World.put, sumBalances, hk, Atoi_Itoa_val n hn, balance, World.get, decodeOrZero]
  | cons e rest ih =>
    obtain ⟨k0, v0⟩ := e
    by_cases h0 : k0 = k
    · subst h0
      simp [World.put, sumBalances, hk, Atoi_Itoa_val n hn, balance, World.get, decodeOrZero]
      omega
    · have hb : balance ((k0, v0) :: rest) k = balance rest k := by
        simp [balance, World.get, h0]
      simp only [World.put, if_neg h0, sumBalances, ih, hb]
      omega

theorem sumBalances_put_reserved (w : World) (k v : String) (hk : isAccountKey k = false) :
    sumBalances (w.put k v) = sumBalances w := by
  induction w with
  | nil => simp [World.put, sumBalances, hk]
  | cons e rest ih =>
    obtain ⟨k0, v0⟩ := e
    by_cases h0 : k0 = k
    · subst h0
      simp [World.put, sumBalances, hk]
    · simp only [World.put, if_neg h0, sumBalances, ih]

theorem World.mem_keys_put (w : World) (k v k' : String) :
    k' ∈ (w.put k v).map Prod.fst ↔ k' = k ∨ k' ∈ w.map Prod.fst := by
  induction w with
  | nil => simp [World.put]
  | cons e rest ih =>
    obtain ⟨k0, v0⟩ := e
    by_cases h0 : k0 = k
    · subst h0
      simp [World.put]
    · simp only [World.put, if_neg h0, List.map_cons, List.mem_cons, ih]
      tauto

theorem World.nodup_keys_put (w : World) (k v : String) (h : (w.map Prod.fst).Nodup) :
    ((w.put k v).map Prod.fst).Nodup := by
  induction w with
  | nil => simp [World.put]
  | cons e rest ih =>
    obtain ⟨k0, v0⟩ := e
    simp only [List.map_cons, List.nodup_cons] at h
    by_cases h0 : k0 = k
    · subst h0
      simpa [World.put] using h
    · simp only [World.put, if_neg h0, List.map_cons, List.nodup_cons, World.mem_keys_put]
      exact ⟨fun hc => hc.elim h0 h.1, ih h.2⟩

theorem Burn_of_ok (sdk : TransactionContext) (amount : Int)
    (h : isError (Burn sdk amount).ret = false) :
    ∃ m, sdk.userID = .ok m ∧ sdk.mspID = .ok "mailabs" ∧ sdk.state.get nameKey ≠ none ∧
      0 < amount ∧ sdk.state.get m ≠ none ∧ amount ≤ balance sdk.state m ∧
      sdk.state.get totalSupplyKey ≠ none ∧ amount ≤ balance sdk.state totalSupplyKey := by
  cases hget : sdk.state.get nameKey with
  | none => simp [Burn, checkInitialized, GetState, hget, failWith, isError] at h
  | some nm =>
  cases hmsp : sdk.mspID with
  | error e => simp [Burn, checkInitialized, GetState, GetMSPID, hget, hmsp, failWith, isError] at h
  | ok c =>
  by_cases hc : c = "mailabs"
  swap
  · simp [Burn, checkInitialized, GetState, GetMSPID, hget, hmsp, hc, failWith, isError] at h
  subst hc
  cases huser : sdk.userID with
  | error e =>
    simp [Burn, checkInitialized, GetState, GetMSPID, GetUserID, hget, hmsp, huser, failWith,
      isError] at h
  | ok m =>
  by_cases hpos : amount ≤ 0
  · simp [Burn, checkInitialized, GetState, GetMSPID, GetUserID, hget, hmsp, huser, hpos,
      failWith, isError] at h
  cases hmb : sdk.state.get m with
  | none =>
    simp [Burn, checkInitialized, GetState, GetMSPID, GetUserID, hget, hmsp, huser, hpos, hmb,
      failWith, isError] at h
  | some mb =>
  cases hs1 : sub (Atoi mb).1 amount with
  | error e =>
    simp [Burn, checkInitialized, GetState, GetMSPID, GetUserID, hget, hmsp, huser, hpos, hmb,
      hs1, failWith, isError] at h
  | ok ub =>
  cases htb : sdk.state.get totalSupplyKey with
  | none =>
    simp [Burn, checkInitialized, GetState, GetMSPID, GetUserID, PutStateWithoutKYC, hget, hmsp,
      huser, hpos, hmb, hs1, htb, failWith, isError] at h
  | some tb =>
  cases hs2 : sub (Atoi tb).1 amount with
  | error e =>
    simp [Burn, checkInitialized, GetState, GetMSPID, GetUserID, PutStateWithoutKYC, hget, hmsp,
      huser, hpos, hmb, hs1, htb, hs2, failWith, isError] at h
  | ok ut =>
  have e1 := sub_eq_ok _ _ _ (Atoi_inRange mb) hs1
  have e2 := sub_eq_ok _ _ _ (Atoi_inRange tb) hs2
  refine ⟨m, rfl, rfl, by simp [hget], by omega, by simp [hmb], ?_, by simp [htb], ?_⟩
  · rw [balance_of_get _ _ _ hmb]; exact e1.2.1
  · rw [balance_of_get _ _ _ htb]; exact e2.2.1

theorem Transfer_of_ok (sdk : TransactionContext) (t : String) (amount : Int)
    (ha : InRange amount) (h : isError (Transfer sdk t amount).ret = false) :
    ∃ f, sdk.userID = .ok f ∧ sdk.state.get nameKey ≠ none ∧ f ≠ t ∧ 0 < amount ∧
      sdk.state.get f ≠ none ∧ amount ≤ balance sdk.state f ∧
      InRange (balance sdk.state t + amount) := by
  cases hget : sdk.state.get nameKey with
  | none => simp [Transfer, checkInitialized, GetState, hget, failWith, isError] at h
  | some nm =>
  cases huser : sdk.userID with
  | error e =>
    simp [Transfer, checkInitialized, GetState, GetUserID, hget, huser, failWith, isError] at h
  | ok f =>
  cases hh : transferHelper sdk f t amount with
  | mk r w =>
  cases r with
  | error e =>
    simp [Transfer, checkInitialized, GetState, GetUserID, hget, huser, hh, failWith, isError]
      at h
  | ok u =>
  exact ⟨f, rfl, by simp [hget], transferHelper_of_ok sdk f t amount ha (by rw [hh]; rfl)⟩

theorem isAccountKey_ne_totalSupply (k : String) (h : isAccountKey k = true) :
    k ≠ totalSupplyKey := by
  intro hk
  subst hk
  revert h
  decide

theorem Call.onAccounts_spec (tx : Client × Call) (h : Call.onAccounts tx = true) :
    InRange tx.2.amount ∧ (∀ m, tx.1.userID = .ok m → isAccountKey m = true) ∧
      (∀ r a, tx.2 = .transfer r a → isAccountKey r = true) := by
  obtain ⟨c, call⟩ := tx
  simp only [Call.onAccounts, Bool.and_eq_true, decide_eq_true_eq] at h
  obtain ⟨⟨h1, h2⟩, h3⟩ := h
  refine ⟨h1, fun m hm => ?_, fun r a hr => ?_⟩
  · simp only at hm
    simpa [hm] using h2
  · simp only at hr
    simpa [hr] using h3

theorem Ledger.step_conserved (l : Ledger) (tx : Client × Call) (h : l.Conserved)
    (htx : Call.onAccounts tx = true) : (l.step tx).Conserved := by
  obtain ⟨hrange, hcaller, hrecip⟩ := Call.onAccounts_spec tx htx
  obtain ⟨c, call⟩ := tx
  obtain ⟨htot, hsum, hnd⟩ := h
  have hts : isAccountKey totalSupplyKey = false := by decide
  cases call with
  | mint a =>
    simp only [Call.amount] at hrange
    cases herr : isError (Mint (c.on l.world) a).ret with
    | true =>
      simp only [Ledger.step, herr, if_true, commit_error _ _ herr]
      exact ⟨htot, hsum, hnd⟩
    | false =>
      obtain ⟨m, hm, hmsp, hinit, hpos, r1, r2⟩ := Mint_of_ok (c.on l.world) a hrange herr
      have hrun := Mint_succeeds (c.on l.world) m a hinit hmsp hm hpos r1.2 r2.2
      have hacc := hcaller m hm
      have hne := isAccountKey_ne_totalSupply m hacc
      simp only [Client.on] at hrun r1 r2
      simp only [Ledger.step, herr, Bool.false_eq_true, if_false]
      simp only [Client.on, hrun, commit_ok, List.foldl_cons, List.foldl_nil]
      refine ⟨?_, ?_, World.nodup_keys_put _ _ _ (World.nodup_keys_put _ _ _ hnd)⟩
      · simp only
        rw [balance_put _ _ _ _ r2, if_pos rfl]
        omega
      · simp only
        rw [sumBalances_put_reserved _ _ _ hts, sumBalances_put_account _ _ _ hacc r1,
          balance_put _ _ _ _ r2, if_pos rfl]
        omega
  | burn a =>
    cases herr : isError (Burn (c.on l.world) a).ret with
    | true =>
      simp only [Ledger.step, herr, if_true, commit_error _ _ herr]
      exact ⟨htot, hsum, hnd⟩
    | false =>
      obtain ⟨m, hm, hmsp, hinit, hpos, hmb, hge, htb, htge⟩ := Burn_of_ok (c.on l.world) a herr
      have hrun := Burn_succeeds (c.on l.world) m a hinit hmsp hm hpos hmb hge htb htge
      have hacc := hcaller m hm
      have hne := isAccountKey_ne_totalSupply m hacc
      simp only [Client.on] at hrun hge htge
      have r1 : InRange (balance l.world m - a) := by
        have := balance_inRange l.world m
        unfold InRange minInt maxInt at *
        omega
      have r2 : InRange (balance l.world totalSupplyKey - a) := by
        have := balance_inRange l.world totalSupplyKey
        unfold InRange minInt maxInt at *
        omega
      simp only [Ledger.step, herr, Bool.false_eq_true, if_false]
      simp only [Client.on, hrun, commit_ok, List.foldl_cons, List.foldl_nil]
      refine ⟨?_, ?_, World.nodup_keys_put _ _ _ (World.nodup_keys_put _ _ _ hnd)⟩
      · simp only
        rw [balance_put _ _ _ _ r2, if_pos rfl]
        omega
      · simp only
        rw [sumBalances_put_reserved _ _ _ hts, sumBalances_put_account _ _ _ hacc r1,
          balance_put _ _ _ _ r2, if_pos rfl]
        omega
  | transfer t a =>
    simp only [Call.amount] at hrange
    cases herr : isError (Transfer (c.on l.world) t a).ret with
    | true =>
      simp only [Ledger.step, commit_error _ _ herr]
      exact ⟨htot, hsum, hnd⟩
    | false =>
      obtain ⟨f, hf, hinit, hne, hpos, hfb, hge, hto⟩ :=
        Transfer_of_ok (c.on l.world) t a hrange herr
      have hrun := Transfer_succeeds (c.on l.world) f t a hinit hf (Ne.symm hne) hpos hfb hge
        hto.2
      have hfacc := hcaller f hf
      have htacc := hrecip t a rfl
      have hfne := isAccountKey_ne_totalSupply f hfacc
      have htne := isAccountKey_ne_totalSupply t htacc
      simp only [Client.on] at hrun hge hto
      have r1 : InRange (balance l.world f - a) := by
        have := balance_inRange l.world f
        unfold InRange minInt maxInt at *
        omega
      simp only [Ledger.step]
      simp only [Client.on, hrun, commit_ok, List.foldl_cons, List.foldl_nil]
      refine ⟨?_, ?_, World.nodup_keys_put _ _ _ (World.nodup_keys_put _ _ _ hnd)⟩
      · simp only
        rw [balance_put _ _ _ _ hto, if_neg htne, balance_put _ _ _ _ r1, if_neg hfne]
        exact htot
      · simp only
        rw [sumBalances_put_account _ _ _ htacc hto, sumBalances_put_account _ _ _ hfacc r1,
          balance_put _ _ _ _ r1, if_neg hne,
          balance_put _ _ _ _ hto, if_neg htne, balance_put _ _ _ _ r1, if_neg hfne]
        omega

theorem Ledger.run_conserved (txs : List (Client × Call)) (l : Ledger) (h : l.Conserved)
    (htxs : ∀ tx ∈ txs, Call.onAccounts tx = true) : (l.run txs).Conserved := by
  induction txs generalizing l with
  | nil => exact h
  | cons tx rest ih =>
    simp only [Ledger.run, List.foldl_cons]
    exact ih _ (Ledger.step_conserved l tx h (htxs tx (List.mem_cons_self _ _)))
      (fun tx' hmem => htxs tx' (List.mem_cons_of_mem _ hmem))

theorem sumBalances_of_no_balance (w : World) (h : ∀ kv ∈ w, isAccountKey kv.1 = false) :
    sumBalances w = 0 := by
  induction w with
  | nil => rfl
  | cons e rest ih =>
    obtain ⟨k0, v0⟩ := e
    have h0 : isAccountKey k0 = false := h (k0, v0) (List.mem_cons_self _ _)
    simp only [sumBalances, h0, Bool.false_eq_true, if_false, zero_add]
    exact ih (fun kv hmem => h kv (List.mem_cons_of_mem _ hmem))

theorem Ledger.conserved_of_no_balance (w : World) (hnd : (w.map Prod.fst).Nodup)
    (hempty : ∀ kv ∈ w, isAccountKey kv.1 = false) (hts : w.get totalSupplyKey = none) :
    (Ledger.mk w 0 0).Conserved := by
  have hs := sumBalances_of_no_balance w hempty
  have hb : balance w totalSupplyKey = 0 := by simp [balance, hts, decodeOrZero]
  exact ⟨by simp [hb], by simp [hs, hb], hnd⟩

theorem transferHelper_rejects (sdk : TransactionContext) (f t : String) (value : Int)
    (h : f = t ∨ value ≤ 0 ∨ sdk.state.get f = none ∨ balance sdk.state f < value) :
    isError (transferHelper sdk f t value).1 = true := by
  by_cases hne : f = t
  · simp [transferHelper, hne, isError]
  by_cases hneg : value < 0
  · simp [transferHelper, hne, hneg, isError]
  cases hfb : sdk.state.get f with
  | none => simp [transferHelper, GetState, hne, hneg, hfb, isError]
  | some fb =>
  by_cases hlt : (Atoi fb).1 < value
  · simp [transferHelper, GetState, hne, hneg, hfb, hlt, isError]
  have hzero : value ≤ 0 := by
    rcases h with h | h | h | h
    · exact absurd h hne
    · exact h
    · rw [hfb] at h; cases h
    · rw [balance_of_get _ _ _ hfb] at h; exact absurd h hlt
  simp [transferHelper, GetState, hne, hneg, hfb, hlt, sub, hzero, isError]

theorem Transfer_of_helper_error (sdk : TransactionContext) (t : String) (amount : Int)
    (h : ∀ f, sdk.userID = .ok f → isError (transferHelper sdk f t amount).1 = true) :
    isError (Transfer sdk t amount).ret = true ∧ (Transfer sdk t amount).writes = [] ∧
      (Transfer sdk t amount).events = [] := by
  cases hget : sdk.state.get nameKey with
  | none => simp [Transfer, checkInitialized, GetState, hget, failWith, isError]
  | some nm =>
  cases huser : sdk.userID with
  | error e =>
    simp [Transfer, checkInitialized, GetState, GetUserID, hget, huser, failWith, isError]
  | ok f =>
  have herr := h f huser
  have hw := transferHelper_error_writes sdk f t amount herr
  cases hh : transferHelper sdk f t amount with
  | mk r w =>
  rw [hh] at herr hw
  simp only at hw
  subst hw
  cases r with
  | error e =>
    simp [Transfer, checkInitialized, GetState, GetUserID, hget, huser, hh, failWith, isError]
  | ok u => simp [isError] at herr

theorem TransferFrom_of_helper_error (sdk : TransactionContext) (f t : String) (value : Int)
    (h : isError (transferHelper sdk f t value).1 = true) :
    isError (TransferFrom sdk f t value).ret = true ∧ (TransferFrom sdk f t value).writes = [] ∧
      (TransferFrom sdk f t value).events = [] := by
  cases hget : sdk.state.get nameKey with
  | none => simp [TransferFrom, checkInitialized, GetState, hget, failWith, isError]
  | some nm =>
  cases huser : sdk.userID with
  | error e =>
    simp [TransferFrom, checkInitialized, GetState, GetUserID, hget, huser, failWith, isError]
  | ok s =>
  cases hk : CreateCompositeKey allowancePrefix [f, s] with
  | error e =>
    simp [TransferFrom, checkInitialized, GetState, GetUserID, hget, huser, hk, failWith,
      isError]
  | ok k =>
  by_cases hal : balance sdk.state k < value
  · simp [TransferFrom, checkInitialized, GetState, GetUserID, hget, huser, hk, balance_getD,
      hal, failWith, isError]
  have hw := transferHelper_error_writes sdk f t value h
  cases hh : transferHelper sdk f t value with
  | mk r w =>
  rw [hh] at h hw
  simp only at hw
  subst hw
  cases r with
  | error e =>
    simp [TransferFrom, checkInitialized, GetState, GetUserID, hget, huser, hk, balance_getD,
      hal, hh, failWith, isError]
  | ok u => simp [isError] at h

theorem Initialize_succeeds (sdk : TransactionContext) (name symbol decimals : String)
    (hmsp : sdk.mspID = .ok "mailabs") (habsent : sdk.state.get nameKey = none) :
    Initialize sdk name symbol decimals =
      ⟨.ok true, [(nameKey, name), (symbolKey, symbol), (decimalsKey, decimals)], []⟩ := by
  simp [Initialize, GetMSPID, GetState, PutStateWithoutKYC, hmsp, habsent]

theorem Initialize_present (sdk : TransactionContext) (name symbol decimals : String)
    (hpresent : sdk.state.get nameKey ≠ none) :
    isError (Initialize sdk name symbol decimals).ret = true ∧
      (Initialize sdk name symbol decimals).writes = [] ∧
      (Initialize sdk name symbol decimals).events = [] := by
  cases hmsp : sdk.mspID with
  | error e => simp [Initialize, GetMSPID, hmsp, isError]
  | ok c =>
  by_cases hc : c = "mailabs"
  · simp [Initialize, GetMSPID, GetState, hmsp, hc, hpresent, isError]
  · simp [Initialize, GetMSPID, hmsp, hc, isError]

theorem Initialize_not_issuer (sdk : TransactionContext) (name symbol decimals : String)
    (h : sdk.mspID ≠ .ok "mailabs") :
    isError (Initialize sdk name symbol decimals).ret = true ∧
      (Initialize sdk name symbol decimals).writes = [] ∧
      (Initialize sdk name symbol decimals).events = [] := by
  cases hmsp : sdk.mspID with
  | error e => simp [Initialize, GetMSPID, hmsp, isError]
  | ok c =>
  have hc : c ≠ "mailabs" := by
    intro hc
    rw [hmsp, hc] at h
    exact h rfl
  simp [Initialize, GetMSPID, hmsp, hc, isError]

theorem Mint_not_issuer (sdk : TransactionContext) (amount : Int)
    (h : sdk.mspID ≠ .ok "mailabs") :
    isError (Mint sdk amount).ret = true ∧ (Mint sdk amount).writes = [] ∧
      (Mint sdk amount).events = [] := by
  cases hget : sdk.state.get nameKey with
  | none => simp [Mint, checkInitialized, GetState, hget, failWith, isError]
  | some nm =>
  cases hmsp : sdk.mspID with
  | error e => simp [Mint, checkInitialized, GetState, GetMSPID, hget, hmsp, failWith, isError]
  | ok c =>
  have hc : c ≠ "mailabs" := by
    intro hc
    rw [hmsp, hc] at h
    exact h rfl
  simp [Mint, checkInitialized, GetState, GetMSPID, hget, hmsp, hc, failWith, isError]

theorem Burn_not_issuer (sdk : TransactionContext) (amount : Int)
    (h : sdk.mspID ≠ .ok "mailabs") :
    isError (Burn sdk amount).ret = true ∧ (Burn sdk amount).writes = [] ∧
      (Burn sdk amount).events = [] := by
  cases hget : sdk.state.get nameKey with
  | none => simp [Burn, checkInitialized, GetState, hget, failWith, isError]
  | some nm =>
  cases hmsp : sdk.mspID with
  | error e => simp [Burn, checkInitialized, GetState, GetMSPID, hget, hmsp, failWith, isError]
  | ok c =>
  have hc : c ≠ "mailabs" := by
    intro hc
    rw [hmsp, hc] at h
    exact h rfl
  simp [Burn, checkInitialized, GetState, GetMSPID, hget, hmsp, hc, failWith, isError]

theorem org1_not_issuer (w : World) (id : String) : (holderOn w id).mspID ≠ .ok "mailabs" := by
  intro h
  have h2 : (Except.ok "org1" : Except String String) = Except.ok "mailabs" := h
  injection h2 with h3
  revert h3
  decide

theorem compositeKeyLoop_data (attrs : List String) (ck k : String)
    (h : compositeKeyLoop attrs ck = .ok k) : ∃ rest, k.data = ck.data ++ rest := by
  induction attrs generalizing ck with
  | nil =>
    simp only [compositeKeyLoop] at h
    injection h with h
    exact ⟨[], by simp [h]⟩
  | cons att rest ih =>
    simp only [compositeKeyLoop] at h
    split at h
    · cases h
    · obtain ⟨r, hr⟩ := ih _ h
      exact ⟨att.data ++ ("\x00" : String).data ++ r, by
        rw [hr]; simp [String.data_append, List.append_assoc]⟩

theorem CreateCompositeKey_data (objectType : String) (attrs : List String) (k : String)
    (h : CreateCompositeKey objectType attrs = .ok k) :
    ∃ rest, k.data = Char.ofNat 0 :: rest := by
  unfold CreateCompositeKey at h
  split at h
  · cases h
  · obtain ⟨r, hr⟩ := compositeKeyLoop_data _ _ _ h
    exact ⟨objectType.data ++ ("\x00" : String).data ++ r, by
      rw [hr]; simp [String.data_append]⟩

theorem CreateCompositeKey_ne_optionKey (objectType : String) (attrs : List String) (k : String)
    (h : CreateCompositeKey objectType attrs = .ok k) :
    k ≠ nameKey ∧ k ≠ symbolKey ∧ k ≠ decimalsKey ∧ k ≠ totalSupplyKey := by
  obtain ⟨r, hr⟩ := CreateCompositeKey_data objectType attrs k h
  refine ⟨?_, ?_, ?_, ?_⟩ <;>
  · intro hk
    rw [hk] at hr
    revert hr
    simp [nameKey, symbolKey, decimalsKey, totalSupplyKey]

theorem World.get_foldl_put_of_not_mem (ws : List (String × String)) (w : World) (key : String)
    (h : ∀ kv ∈ ws, kv.1 ≠ key) :
    (ws.foldl (fun acc kv => acc.put kv.1 kv.2) w).get key = w.get key := by
  induction ws generalizing w with
  | nil => rfl
  | cons e rest ih =>
    simp only [List.foldl_cons]
    rw [ih _ (fun kv hmem => h kv (List.mem_cons_of_mem _ hmem)), World.get_put,
      if_neg (h e (List.mem_cons_self _ _))]

theorem commit_get_of_not_mem {α : Type} (w : World) (inv : Invocation α) (key : String)
    (h : ∀ kv ∈ inv.writes, kv.1 ≠ key) : (commit w inv).get key = w.get key := by
  unfold commit
  cases inv.ret with
  | error e => rfl
  | ok x => exact World.get_foldl_put_of_not_mem _ _ _ h

theorem Mint_writes_keys (sdk : TransactionContext) (amount : Int) (kv : String × String)
    (hkv : kv ∈ (Mint sdk amount).writes) :
    (∃ m, sdk.userID = .ok m ∧ kv.1 = m) ∨ kv.1 = totalSupplyKey := by
  cases hget : sdk.state.get nameKey with
  | none => simp [Mint, checkInitialized, GetState, hget, failWith] at hkv
  | some nm =>
  cases hmsp : sdk.mspID with
  | error e => simp [Mint, checkInitialized, GetState, GetMSPID, hget, hmsp, failWith] at hkv
  | ok c =>
  by_cases hc : c = "mailabs"
  swap
  · simp [Mint, checkInitialized, GetState, GetMSPID, hget, hmsp, hc, failWith] at hkv
  subst hc
  cases huser : sdk.userID with
  | error e =>
    simp [Mint, checkInitialized, GetState, GetMSPID, GetUserID, hget, hmsp, huser, failWith]
      at hkv
  | ok m =>
  by_cases hpos : amount ≤ 0
  · simp [Mint, checkInitialized, GetState, GetMSPID, GetUserID, hget, hmsp, huser, hpos,
      failWith] at hkv
  cases hadd1 : add (decodeOrZero (sdk.state.get m)) amount with
  | error e =>
    simp [Mint, checkInitialized, GetState, GetMSPID, GetUserID, hget, hmsp, huser, hpos,
      hadd1, failWith] at hkv
  | ok ub =>
  cases hadd2 : add (decodeOrZero (sdk.state.get totalSupplyKey)) amount with
  | error e =>
    simp [Mint, checkInitialized, GetState, GetMSPID, GetUserID, PutStateWithoutKYC, hget, hmsp,
      huser, hpos, hadd1, hadd2, failWith] at hkv
    exact Or.inl ⟨m, rfl, by rw [hkv]⟩
  | ok ut =>
    simp [Mint, checkInitialized, GetState, GetMSPID, GetUserID, PutStateWithoutKYC, SetEvent,
      hget, hmsp, huser, hpos, hadd1, hadd2, failWith] at hkv
    rcases hkv with h | h
    · exact Or.inl ⟨m, rfl, by rw [h]⟩
    · exact Or.inr (by rw [h])

theorem transferHelper_writes_keys (sdk : TransactionContext) (f t : String) (value : Int)
    (kv : String × String) (hkv : kv ∈ (transferHelper sdk f t value).2) :
    kv.1 = f ∨ kv.1 = t := by
  by_cases hne : f = t
  · simp [transferHelper, hne] at hkv
  by_cases hneg : value < 0
  · simp [transferHelper, hne, hneg] at hkv
  cases hfb : sdk.state.get f with
  | none => simp [transferHelper, GetState, hne, hneg, hfb] at hkv
  | some fb =>
  by_cases hlt : (Atoi fb).1 < value
  · simp [transferHelper, GetState, hne, hneg, hfb, hlt] at hkv
  cases hs : sub (Atoi fb).1 value with
  | error e => simp [transferHelper, GetState, hne, hneg, hfb, hlt, hs] at hkv
  | ok d =>
  cases ha : add (decodeOrZero (sdk.state.get t)) value with
  | error e => simp [transferHelper, GetState, hne, hneg, hfb, hlt, hs, ha] at hkv
  | ok u =>
    simp [transferHelper, GetState, PutStateWithoutKYC, hne, hneg, hfb, hlt, hs, ha] at hkv
    rcases hkv with h | h
    · exact Or.inl (by rw [h])
    · exact Or.inr (by rw [h])

theorem TransferFrom_writes_keys (sdk : TransactionContext) (f t : String) (value : Int)
    (kv : String × String) (hkv : kv ∈ (TransferFrom sdk f t value).writes) :
    kv.1 = f ∨ kv.1 = t ∨
      ∃ s k, sdk.userID = .ok s ∧ CreateCompositeKey allowancePrefix [f, s] = .ok k ∧
        kv.1 = k := by
  cases hget : sdk.state.get nameKey with
  | none => simp [TransferFrom, checkInitialized, GetState, hget, failWith] at hkv
  | some nm =>
  cases huser : sdk.userID with
  | error e =>
    simp [TransferFrom, checkInitialized, GetState, GetUserID, hget, huser, failWith] at hkv
  | ok s =>
  cases hk : CreateCompositeKey allowancePrefix [f, s] with
  | error e =>
    simp [TransferFrom, checkInitialized, GetState, GetUserID, hget, huser, hk, failWith] at hkv
  | ok k =>
  by_cases hal : balance sdk.state k < value
  · simp [TransferFrom, checkInitialized, GetState, GetUserID, hget, huser, hk, balance_getD,
      hal, failWith] at hkv
  have hhelper := transferHelper_writes_keys sdk f t value kv
  cases hh : transferHelper sdk f t value with
  | mk r w =>
  rw [hh] at hhelper
  simp only at hhelper
  cases r with
  | error e =>
    simp [TransferFrom, checkInitialized, GetState, GetUserID, hget, huser, hk, balance_getD,
      hal, hh, failWith] at hkv
    rcases hhelper hkv with h | h
    · exact Or.inl h
    · exact Or.inr (Or.inl h)
  | ok u =>
  cases hs : sub (balance sdk.state k) value with
  | error e =>
    simp [TransferFrom, checkInitialized, GetState, GetUserID, hget, huser, hk, balance_getD,
      hal, hh, hs, failWith] at hkv
    rcases hhelper hkv with h | h
    · exact Or.inl h
    · exact Or.inr (Or.inl h)
  | ok d =>
    simp [TransferFrom, checkInitialized, GetState, GetUserID, PutStateWithoutKYC, SetEvent,
      hget, huser, hk, balance_getD, hal, hh, hs, failWith] at hkv
    rcases hkv with h | h
    · rcases hhelper h with h | h
      · exact Or.inl h
      · exact Or.inr (Or.inl h)
    · exact Or.inr (Or.inr ⟨s, k, rfl, hk, by rw [h]⟩)

theorem Approve_writes_keys (sdk : TransactionContext) (spender : String) (value : Int)
    (kv : String × String) (hkv : kv ∈ (Approve sdk spender value).writes) :
    ∃ o k, sdk.userID = .ok o ∧ CreateCompositeKey allowancePrefix [o, spender] = .ok k ∧
      kv.1 = k := by
  cases hget : sdk.state.get nameKey with
  | none => simp [Approve, checkInitialized, GetState, hget, failWith] at hkv
  | some nm =>
  cases huser : sdk.userID with
  | error e =>
    simp [Approve, checkInitialized, GetState, GetUserID, hget, huser, failWith] at hkv
  | ok o =>
  cases hk : CreateCompositeKey allowancePrefix [o, spender] with
  | error e =>
    simp [Approve, checkInitialized, GetState, GetUserID, hget, huser, hk, failWith] at hkv
  | ok k =>
    rw [Approve_succeeds sdk o spender k value (by simp [hget]) huser hk] at hkv
    simp only [List.mem_singleton] at hkv
    exact ⟨o, k, rfl, hk, by rw [hkv]⟩

theorem Initialize_writes_keys (sdk : TransactionContext) (name symbol decimals : String)
    (kv : String × String) (hkv : kv ∈ (Initialize sdk name symbol decimals).writes) :
    sdk.state.get nameKey = none ∧
      (kv.1 = nameKey ∨ kv.1 = symbolKey ∨ kv.1 = decimalsKey) := by
  cases hget : sdk.state.get nameKey with
  | some nm =>
    rw [(Initialize_present sdk name symbol decimals (by simp [hget])).2.1] at hkv
    simp at hkv
  | none =>
  cases hmsp : sdk.mspID with
  | error e => simp [Initialize, GetMSPID, hmsp] at hkv
  | ok c =>
  by_cases hc : c = "mailabs"
  · subst hc
    rw [Initialize_succeeds sdk name symbol decimals hmsp hget] at hkv
    simp only [List.mem_cons, List.mem_singleton, List.not_mem_nil, or_false] at hkv
    refine ⟨rfl, ?_⟩
    rcases hkv with h | h | h
    · exact Or.inl (by rw [h])
    · exact Or.inr (Or.inl (by rw [h]))
    · exact Or.inr (Or.inr (by rw [h]))
  · simp [Initialize, GetMSPID, hmsp, hc] at hkv

theorem Op.committed_get_of_not_mem (sdk : TransactionContext) (op : Op) (key : String)
    (h : ∀ kv ∈ op.writes sdk, kv.1 ≠ key) : (op.committed sdk).get key = sdk.state.get key := by
  cases op <;> exact commit_get_of_not_mem _ _ _ h

theorem Op.writes_ne_optionKey (sdk : TransactionContext) (op : Op) (key : String)
    (hkey : key = nameKey ∨ key = symbolKey ∨ key = decimalsKey)
    (hinit : sdk.state.get nameKey ≠ none) (hargs : ∀ k ∈ op.accountKeys sdk, k ≠ key) :
    ∀ kv ∈ op.writes sdk, kv.1 ≠ key := by
  have hts : totalSupplyKey ≠ key := by
    rcases hkey with h | h | h <;> rw [h] <;> decide
  have hck : ∀ (attrs : List String) (k : String),
      CreateCompositeKey allowancePrefix attrs = .ok k → k ≠ key := by
    intro attrs k hk
    obtain ⟨h1, h2, h3, -⟩ := CreateCompositeKey_ne_optionKey _ _ _ hk
    rcases hkey with h | h | h <;> rw [h] <;> assumption
  intro kv hkv
  cases op with
  | init n s d =>
    simp only [Op.writes] at hkv
    rw [(Initialize_present sdk n s d hinit).2.1] at hkv
    simp at hkv
  | mint a =>
    simp only [Op.writes] at hkv
    rcases Mint_writes_keys sdk a kv hkv with ⟨m, hm, h⟩ | h
    · rw [h]
      exact hargs m (by simp [Op.accountKeys, hm])
    · rw [h]; exact hts
  | burn a =>
    simp only [Op.writes] at hkv
    obtain ⟨-, ⟨m, hm, h, -⟩ | ⟨h, -⟩⟩ := Burn_writes_mem sdk a kv hkv
    · rw [h]
      exact hargs m (by simp [Op.accountKeys, hm])
    · rw [h]; exact hts
  | transfer r a =>
    simp only [Op.writes] at hkv
    obtain ⟨f, hf, hmem⟩ := Transfer_writes_sub sdk r a kv hkv
    rcases transferHelper_writes_keys sdk f r a kv hmem with h | h
    · rw [h]
      exact hargs f (by simp [Op.accountKeys, hf])
    · rw [h]
      exact hargs r (by simp [Op.accountKeys, hf])
  | approve s v =>
    simp only [Op.writes] at hkv
    obtain ⟨o, k, -, hk, h⟩ := Approve_writes_keys sdk s v kv hkv
    rw [h]
    exact hck _ k hk
  | transferFrom f t v =>
    simp only [Op.writes] at hkv
    rcases TransferFrom_writes_keys sdk f t v kv hkv with h | h | ⟨s, k, -, hk, h⟩
    · rw [h]
      exact hargs f (by simp [Op.accountKeys])
    · rw [h]
      exact hargs t (by simp [Op.accountKeys])
    · rw [h]
      exact hck _ k hk

theorem commit_get_ne_none {α : Type} (w : World) (inv : Invocation α) (k : String)
    (h : w.get k ≠ none) : (commit w inv).get k ≠ none := by
  unfold commit
  cases inv.ret with
  | error e => exact h
  | ok x => exact World.get_foldl_put_ne_none _ _ _ h

theorem BalanceOf_eq (sdk : TransactionContext) (account : String)
    (hinit : sdk.state.get nameKey ≠ none) :
    BalanceOf sdk account =
      match sdk.state.get account with
      | none => .error ("the account " ++ account ++ " does not exist")
      | some b => .ok (Atoi b).1 := by
  simp [BalanceOf, checkInitialized, GetState, hinit]

theorem Mint_events (sdk : TransactionContext) (amount : Int) :
    (isError (Mint sdk amount).ret = true ∧ (Mint sdk amount).events = []) ∨
    (isError (Mint sdk amount).ret = false ∧
      ∃ m, sdk.userID = .ok m ∧ (Mint sdk amount).events = [("Transfer", ⟨"0x0", m, amount⟩)]) := by
  unfold Mint
  simp only [checkInitialized, GetState, GetMSPID, GetUserID, PutStateWithoutKYC, SetEvent,
    failWith]
  repeat' split
  all_goals simp_all [isError]

theorem Burn_events (sdk : TransactionContext) (amount : Int) :
    (isError (Burn sdk amount).ret = true ∧ (Burn sdk amount).events = []) ∨
    (isError (Burn sdk amount).ret = false ∧
      ∃ m, sdk.userID = .ok m ∧ (Burn sdk amount).events = [("Transfer", ⟨m, "0x0", amount⟩)]) := by
  unfold Burn
  simp only [checkInitialized, GetState, GetMSPID, GetUserID, PutStateWithoutKYC, SetEvent,
    failWith]
  repeat' split
  all_goals simp_all [isError]

theorem Transfer_events (sdk : TransactionContext) (t : String) (amount : Int) :
    (isError (Transfer sdk t amount).ret = true ∧ (Transfer sdk t amount).events = []) ∨
    (isError (Transfer sdk t amount).ret = false ∧
      ∃ f, sdk.userID = .ok f ∧
        (Transfer sdk t amount).events = [("Transfer", ⟨f, t, amount⟩)]) := by
  unfold Transfer
  simp only [checkInitialized, GetState, GetUserID, SetEvent, failWith]
  repeat' split
  all_goals simp_all [isError]

theorem TransferFrom_events (sdk : TransactionContext) (f t : String) (value : Int) :
    (isError (TransferFrom sdk f t value).ret = true ∧ (TransferFrom sdk f t value).events = []) ∨
    (isError (TransferFrom sdk f t value).ret = false ∧
      (TransferFrom sdk f t value).events = [("Transfer", ⟨f, t, value⟩)]) := by
  unfold TransferFrom
  simp only [checkInitialized, GetState, GetUserID, PutStateWithoutKYC, SetEvent, failWith]
  repeat' split
  all_goals simp_all [isError]

theorem Approve_events (sdk : TransactionContext) (s : String) (value : Int) :
    (isError (Approve sdk s value).ret = true ∧ (Approve sdk s value).events = []) ∨
    (isError (Approve sdk s value).ret = false ∧
      ∃ o, sdk.userID = .ok o ∧
        (Approve sdk s value).events = [("Approval", ⟨o, s, value⟩)]) := by
  unfold Approve
  simp only [checkInitialized, GetState, GetUserID, PutStateWithoutKYC, SetEvent, failWith]
  repeat' split
  all_goals simp_all [isError]

theorem written_value_decodes (n : Int) (hn : InRange n) (v : String) (hv : v = Itoa n) :
    ∃ m, InRange m ∧ v = Itoa m ∧ Atoi v = (m, false) :=
  ⟨n, hn, hv, by rw [hv]; exact Atoi_Itoa n hn⟩

theorem transferHelper_writes_decode (sdk : TransactionContext) (f t : String) (value : Int)
    (hv : InRange value) (kv : String × String) (hkv : kv ∈ (transferHelper sdk f t value).2) :
    ∃ m, InRange m ∧ kv.2 = Itoa m ∧ Atoi kv.2 = (m, false) := by
  obtain ⟨hpos, -, ⟨h, hge⟩ | ⟨h, hr⟩⟩ := transferHelper_writes_mem sdk f t value hv kv hkv
  · refine written_value_decodes (balance sdk.state f - value) ?_ _ (by rw [h])
    have := balance_inRange sdk.state f
    unfold InRange minInt maxInt at *
    omega
  · exact written_value_decodes _ hr _ (by rw [h])

theorem kalpsdk.GetKYC_eq (ctx : kalpsdk.TransactionContext) (userId : String)
    (hch : ctx.stub.channelID ≠ "") :
    kalpsdk.GetKYC ctx userId =
      if (ctx.stub.invokeChaincode "kyc" ["KycExists", userId] ctx.stub.channelID).Status ≠ 200
      then .error ("failed to query kyc chaincode for user " ++ userId ++ ". Got status " ++
        Itoa (ctx.stub.invokeChaincode "kyc" ["KycExists", userId] ctx.stub.channelID).Status ++
        " and error message: " ++
        (ctx.stub.invokeChaincode "kyc" ["KycExists", userId] ctx.stub.channelID).Payload)
      else ParseBool
        (ctx.stub.invokeChaincode "kyc" ["KycExists", userId] ctx.stub.channelID).Payload := by
  simp [kalpsdk.GetKYC, kalpsdk.GetChannelName, hch]

theorem add_underflow (b q : Int) (hb : InRange b) (hq : InRange q) (h : b + q < minInt) :
    isError (add b q) = true := by
  unfold add
  unfold InRange minInt maxInt at *
  have hb0 : ¬ 0 ≤ b := by omega
  have hq0 : ¬ 0 ≤ q := by omega
  have h1 : ¬ wrap (q + b) < q := by unfold wrap; omega
  have h2 : ¬ wrap (q + b) < b := by unfold wrap; omega
  simp [hb0, hq0, h1, h2, isError]

theorem transferHelper_ok_pos (sdk : TransactionContext) (f t : String) (value : Int)
    (h : isError (transferHelper sdk f t value).1 = false) : 0 < value := by
  by_contra hle
  have := transferHelper_rejects sdk f t value (Or.inr (Or.inl (not_lt.mp hle)))
  rw [this] at h
  cases h

theorem sub_allowance_ok (b value : Int) (hb : InRange b) (hpos : 0 < value)
    (hge : ¬ b < value) : sub b value = .ok (b - value) ∧ 0 ≤ b - value :=
  ⟨sub_of_le b value hb hpos (not_lt.mp hge), by omega⟩

theorem TransferFrom_error_no_writes (sdk : TransactionContext) (f t : String) (value : Int)
    (h : isError (TransferFrom sdk f t value).ret = true) :
    (TransferFrom sdk f t value).writes = [] := by
  cases hget : sdk.state.get nameKey with
  | none => simp [TransferFrom, checkInitialized, GetState, hget, failWith]
  | some nm =>
  cases huser : sdk.userID with
  | error e => simp [TransferFrom, checkInitialized, GetState, GetUserID, hget, huser, failWith]
  | ok s =>
  cases hk : CreateCompositeKey allowancePrefix [f, s] with
  | error e =>
    simp [TransferFrom, checkInitialized, GetState, GetUserID, hget, huser, hk, failWith]
  | ok k =>
  by_cases hal : balance sdk.state k < value
  · simp [TransferFrom, checkInitialized, GetState, GetUserID, hget, huser, hk, balance_getD,
      hal, failWith]
  cases hh : transferHelper sdk f t value with
  | mk r w =>
  cases r with
  | error e =>
    have hw := transferHelper_error_writes sdk f t value (by rw [hh]; rfl)
    rw [hh] at hw
    simp only at hw
    subst hw
    simp [TransferFrom, checkInitialized, GetState, GetUserID, hget, huser, hk, balance_getD,
      hal, hh, failWith]
  | ok u =>
    exfalso
    have hpos := transferHelper_ok_pos sdk f t value (by rw [hh]; rfl)
    have hs := (sub_allowance_ok _ value (balance_inRange sdk.state k) hpos hal).1
    simp [TransferFrom, checkInitialized, GetState, GetUserID, PutStateWithoutKYC, SetEvent,
      hget, huser, hk, balance_getD, hal, hh, hs, isError] at h

theorem Transfer_error_no_writes (sdk : TransactionContext) (t : String) (amount : Int)
    (h : isError (Transfer sdk t amount).ret = true) : (Transfer sdk t amount).writes = [] := by
  cases hget : sdk.state.get nameKey with
  | none => simp [Transfer, checkInitialized, GetState, hget, failWith]
  | some nm =>
  cases huser : sdk.userID with
  | error e => simp [Transfer, checkInitialized, GetState, GetUserID, hget, huser, failWith]
  | ok f =>
  cases hh : transferHelper sdk f t amount with
  | mk r w =>
  cases r with
  | error e =>
    have hw := transferHelper_error_writes sdk f t amount (by rw [hh]; rfl)
    rw [hh] at hw
    simp only at hw
    subst hw
    simp [Transfer, checkInitialized, GetState, GetUserID, hget, huser, hh, failWith]
  | ok u =>
    simp [Transfer, checkInitialized, GetState, GetUserID, SetEvent, hget, huser, hh, isError]
      at h

theorem startsWith_append (p xs : List Char) : startsWith (p ++ xs) p = true := by
  induction p with
  | nil => cases xs <;> rfl
  | cons c cs ih => simp [startsWith, ih]

theorem indexFrom_prefix (p xs : List Char) (i : Nat) : indexFrom (p ++ xs) p i = (i : Int) := by
  cases h : p ++ xs with
  | nil =>
    have hp : p = [] := (List.append_eq_nil.mp h).1
    simp [indexFrom, hp]
  | cons c cs =>
    have := startsWith_append p xs
    rw [h] at this
    simp [indexFrom, this]

theorem indexFrom_comma (xs rest : List Char) (i : Nat) (h : ',' ∉ xs) :
    indexFrom (xs ++ ',' :: rest) [','] i = ((i + xs.length : Nat) : Int) := by
  induction xs generalizing i with
  | nil => simp [indexFrom, startsWith]
  | cons c cs ih =>
    have hc : c ≠ ',' := fun e => h (by simp [e])
    have hcs : ',' ∉ cs := fun e => h (by simp [e])
    have hstep : indexFrom (c :: cs ++ ',' :: rest) [','] i =
        indexFrom (cs ++ ',' :: rest) [','] (i + 1) := by
      simp [indexFrom, startsWith, hc]
    rw [hstep, ih (i + 1) hcs]
    simp only [List.length_cons]
    congr 1
    omega

theorem sliceString_middle (s : String) (m cn rest : List Char)
    (hs : s.data = m ++ (cn ++ rest)) :
    sliceString s (m.length : Int) ((m.length + cn.length : Nat) : Int) =
      some (String.mk cn) := by
  unfold sliceString
  have hcond : (0 : Int) ≤ (m.length : Int) ∧
      (m.length : Int) ≤ ((m.length + cn.length : Nat) : Int) ∧
      ((m.length + cn.length : Nat) : Int) ≤ (s.data.length : Int) := by
    rw [hs]
    simp only [List.length_append]
    omega
  rw [if_pos hcond, hs]
  have h1 : ((m.length : Int)).toNat = m.length := Int.toNat_natCast _
  have h2 : (((m.length + cn.length : Nat) : Int)).toNat = m.length + cn.length :=
    Int.toNat_natCast _
  rw [h1, h2, List.drop_left, Nat.add_sub_cancel_left, List.take_left]

theorem GetUserID_of_decoded (ctx : kalpsdk.TransactionContext) (b64 cn rest : String)
    (h1 : ctx.clientID = .ok b64)
    (h2 : DecodeString b64 = .ok ("x509::CN=" ++ cn ++ "," ++ rest))
    (h3 : ',' ∉ cn.data) : kalpsdk.GetUserID ctx = .ok cn := by
  have hdata : ("x509::CN=" ++ cn ++ "," ++ rest).data =
      "x509::CN=".data ++ (cn.data ++ ',' :: rest.data) := by
    simp only [String.data_append, List.append_assoc]
    rfl
  have hm : stringsIndex ("x509::CN=" ++ cn ++ "," ++ rest) "x509::CN=" = 0 := by
    unfold stringsIndex
    rw [hdata]
    exact indexFrom_prefix _ _ 0
  have hc : stringsIndex ("x509::CN=" ++ cn ++ "," ++ rest) "," =
      (("x509::CN=".data.length + cn.data.length : Nat) : Int) := by
    unfold stringsIndex
    have hmem : ',' ∉ "x509::CN=".data ++ cn.data := by
      intro hin
      rcases List.mem_append.mp hin with hin | hin
      · revert hin; decide
      · exact h3 hin
    have := indexFrom_comma ("x509::CN=".data ++ cn.data) rest.data 0 hmem
    rw [hdata, ← List.append_assoc]
    rw [show (",".data : List Char) = [','] from rfl, this]
    simp only [List.length_append, Nat.zero_add]
  have hs := sliceString_middle ("x509::CN=" ++ cn ++ "," ++ rest) "x509::CN=".data cn.data
    (',' :: rest.data) hdata
  have h9 : stringsIndex ("x509::CN=" ++ cn ++ "," ++ rest) "x509::CN=" + 9 =
      ("x509::CN=".data.length : Int) := by rw [hm]; rfl
  simp only [kalpsdk.GetUserID, h1, h2, h9, hc, hs]

theorem Mint_writes_cases (sdk : TransactionContext) (amount : Int) :
    (isError (Mint sdk amount).ret = false ∧
      ∃ minter b t, sdk.userID = .ok minter ∧
        (Mint sdk amount).writes = [(minter, b), (totalSupplyKey, t)]) ∨
    (isError (Mint sdk amount).ret = true ∧
      ((Mint sdk amount).writes = [] ∨
       (isError (add (balance sdk.state totalSupplyKey) amount) = true ∧
        ∃ minter b, sdk.userID = .ok minter ∧ (Mint sdk amount).writes = [(minter, b)]))) := by
  unfold Mint
  simp only [checkInitialized, GetState, GetMSPID, GetUserID, PutStateWithoutKYC, SetEvent,
    failWith, balance]
  repeat' split
  all_goals simp_all [isError]

theorem Access.writes_append (xs ys : List Access) :
    Access.writes (xs ++ ys) = Access.writes xs ++ Access.writes ys := by
  induction xs with
  | nil => rfl
  | cons a rest ih => cases a <;> simp [Access.writes, ih]

theorem Traced.checkInitialized_eq (mode : ReadSemantics) (sdk : TransactionContext)
    (log : List Access) :
    Traced.checkInitialized mode sdk log =
      (.ok (!decide (Traced.visible mode sdk log nameKey = none)), log ++ [.read nameKey]) := by
  unfold Traced.checkInitialized Traced.GetState
  by_cases h : Traced.visible mode sdk log nameKey = none <;> simp [h]

theorem Traced.Initialize_readsFirst (mode : ReadSemantics) (sdk : TransactionContext)
    (name symbol decimals : String) :
    Access.readsFirst (Traced.Initialize mode sdk name symbol decimals).log = true := by
  unfold Traced.Initialize
  simp only [Traced.GetState, Traced.PutStateWithoutKYC, GetMSPID, Access.lastWrite]
  repeat' split
  all_goals simp_all [Access.readsFirst, Access.isWrite]

theorem Traced.Approve_readsFirst (mode : ReadSemantics) (sdk : TransactionContext)
    (spender : String) (value : Int) :
    Access.readsFirst (Traced.Approve mode sdk spender value).log = true := by
  unfold Traced.Approve
  simp only [Traced.checkInitialized_eq, Traced.GetState, Traced.PutStateWithoutKYC, GetUserID,
    SetEvent, Access.lastWrite]
  repeat' split
  all_goals simp_all [Access.readsFirst, Access.isWrite]

theorem Access.readsFirst_append_reads (log xs : List Access)
    (h : log.all (fun a => !a.isWrite) = true) :
    Access.readsFirst (log ++ xs) = Access.readsFirst xs := by
  induction log with
  | nil => rfl
  | cons a rest ih =>
    cases a with
    | read k =>
      simp only [List.all_cons, Bool.and_eq_true] at h
      simp [Access.readsFirst, ih h.2]
    | write k v => simp [Access.isWrite] at h

theorem Access.readsFirst_append_write (xs : List Access) (k v : String)
    (h : Access.readsFirst xs = true) : Access.readsFirst (xs ++ [.write k v]) = true := by
  induction xs with
  | nil => rfl
  | cons a rest ih =>
    cases a with
    | read k0 => exact ih h
    | write k0 v0 =>
      simp only [Access.readsFirst] at h
      simp [Access.readsFirst, h, Access.isWrite]

theorem Traced.transferHelper_readsFirst (mode : ReadSemantics) (sdk : TransactionContext)
    (log : List Access) (from_ to_ : String) (value : Int)
    (h : log.all (fun a => !a.isWrite) = true) :
    Access.readsFirst (Traced.transferHelper mode sdk log from_ to_ value).2 = true := by
  have h0 : Access.readsFirst log = true := by
    have := Access.readsFirst_append_reads log [] h
    simpa [Access.readsFirst] using this
  unfold Traced.transferHelper
  simp only [Traced.GetState, Traced.PutStateWithoutKYC, List.append_assoc]
  repeat' split
  all_goals simp [Access.readsFirst_append_reads log _ h, h0, Access.readsFirst, Access.isWrite]

theorem Traced.Transfer_readsFirst (mode : ReadSemantics) (sdk : TransactionContext)
    (recipient : String) (amount : Int) :
    Access.readsFirst (Traced.Transfer mode sdk recipient amount).log = true := by
  unfold Traced.Transfer
  simp only [Traced.checkInitialized_eq, GetUserID, SetEvent, List.nil_append]
  by_cases hinit : Traced.visible mode sdk [] nameKey = none
  · simp [hinit, Access.readsFirst]
  cases hu : sdk.userID with
  | error e => simp [hinit, Access.readsFirst]
  | ok f =>
    have key := Traced.transferHelper_readsFirst mode sdk [.read nameKey] f recipient amount rfl
    simp only [hinit, decide_False, Bool.not_false, Bool.not_true, Bool.false_eq_true, if_false]
    generalize Traced.transferHelper mode sdk [.read nameKey] f recipient amount = p at key
    obtain ⟨r, l⟩ := p
    cases r <;> simpa using key

theorem Traced.TransferFrom_readsFirst (mode : ReadSemantics) (sdk : TransactionContext)
    (from_ to_ : String) (value : Int) :
    Access.readsFirst (Traced.TransferFrom mode sdk from_ to_ value).log = true := by
  unfold Traced.TransferFrom
  simp only [Traced.checkInitialized_eq, Traced.GetState, Traced.PutStateWithoutKYC, GetUserID,
    SetEvent, List.nil_append, List.cons_append]
  by_cases hinit : Traced.visible mode sdk [] nameKey = none
  · simp [hinit, Access.readsFirst]
  cases hu : sdk.userID with
  | error e => simp [hinit, Access.readsFirst]
  | ok s =>
  simp only [hinit, decide_False, Bool.not_false, Bool.not_true, Bool.false_eq_true, if_false]
  cases hk : CreateCompositeKey allowancePrefix [from_, s] with
  | error e => simp [Access.readsFirst]
  | ok k =>
    have key := Traced.transferHelper_readsFirst mode sdk [.read nameKey, .read k] from_ to_
      value rfl
    simp only
    generalize Traced.transferHelper mode sdk [.read nameKey, .read k] from_ to_ value = p at key
    obtain ⟨r, l⟩ := p
    split
    · simp [Access.readsFirst]
    · cases r with
      | error e => simpa using key
      | ok u =>
        simp only
        split
        · simpa using key
        · exact Access.readsFirst_append_write l _ _ key

theorem visible_traced_committed (sdk : TransactionContext) (log : List Access) (key : String) :
    Traced.visible .committed sdk log key = sdk.state.get key := rfl

theorem transferHelper_traced_committed (sdk : TransactionContext) (log : List Access)
    (from_ to_ : String) (value : Int) :
    (Traced.transferHelper .committed sdk log from_ to_ value).1 =
      (transferHelper sdk from_ to_ value).1 ∧
    Access.writes (Traced.transferHelper .committed sdk log from_ to_ value).2 =
      Access.writes log ++ (transferHelper sdk from_ to_ value).2 := by
  unfold Traced.transferHelper transferHelper
  simp only [Traced.GetState, Traced.PutStateWithoutKYC, visible_traced_committed, GetState,
    PutStateWithoutKYC]
  repeat' split
  all_goals simp_all [Access.writes_append, Access.writes]

theorem Mint_traced_committed (sdk : TransactionContext) (amount : Int) :
    (Traced.Mint .committed sdk amount).ret = (Mint sdk amount).ret ∧
    Access.writes (Traced.Mint .committed sdk amount).log = (Mint sdk amount).writes ∧
    (Traced.Mint .committed sdk amount).events = (Mint sdk amount).events := by
  unfold Traced.Mint Mint
  simp only [Traced.checkInitialized_eq, Traced.GetState, Traced.PutStateWithoutKYC,
    visible_traced_committed, checkInitialized, GetState, PutStateWithoutKYC, GetMSPID,
    GetUserID, SetEvent, failWith]
  repeat' split
  all_goals simp_all [Access.writes_append, Access.writes]

theorem Burn_traced_committed (sdk : TransactionContext) (amount : Int) :
    (Traced.Burn .committed sdk amount).ret = (Burn sdk amount).ret ∧
    Access.writes (Traced.Burn .committed sdk amount).log = (Burn sdk amount).writes ∧
    (Traced.Burn .committed sdk amount).events = (Burn sdk amount).events := by
  unfold Traced.Burn Burn
  simp only [Traced.checkInitialized_eq, Traced.GetState, Traced.PutStateWithoutKYC,
    visible_traced_committed, checkInitialized, GetState, PutStateWithoutKYC, GetMSPID,
    GetUserID, SetEvent, failWith]
  repeat' split
  all_goals simp_all [Access.writes_append, Access.writes]

theorem Approve_traced_committed (sdk : TransactionContext) (spender : String) (value : Int) :
    (Traced.Approve .committed sdk spender value).ret = (Approve sdk spender value).ret ∧
    Access.writes (Traced.Approve .committed sdk spender value).log =
      (Approve sdk spender value).writes ∧
    (Traced.Approve .committed sdk spender value).events = (Approve sdk spender value).events := by
  unfold Traced.Approve Approve
  simp only [Traced.checkInitialized_eq, Traced.GetState, Traced.PutStateWithoutKYC,
    visible_traced_committed, checkInitialized, GetState, PutStateWithoutKYC, GetMSPID,
    GetUserID, SetEvent, failWith]
  repeat' split
  all_goals simp_all [Access.writes_append, Access.writes]

theorem Initialize_traced_committed (sdk : TransactionContext) (name symbol decimals : String) :
    (Traced.Initialize .committed sdk name symbol decimals).ret =
      (Initialize sdk name symbol decimals).ret ∧
    Access.writes (Traced.Initialize .committed sdk name symbol decimals).log =
      (Initialize sdk name symbol decimals).writes ∧
    (Traced.Initialize .committed sdk name symbol decimals).events =
      (Initialize sdk name symbol decimals).events := by
  unfold Traced.Initialize Initialize
  simp only [Traced.checkInitialized_eq, Traced.GetState, Traced.PutStateWithoutKYC,
    visible_traced_committed, checkInitialized, GetState, PutStateWithoutKYC, GetMSPID,
    GetUserID, SetEvent, failWith]
  repeat' split
  all_goals simp_all [Access.writes_append, Access.writes]

theorem Transfer_traced_committed (sdk : TransactionContext) (recipient : String)
    (amount : Int) :
    (Traced.Transfer .committed sdk recipient amount).ret = (Transfer sdk recipient amount).ret ∧
    Access.writes (Traced.Transfer .committed sdk recipient amount).log =
      (Transfer sdk recipient amount).writes ∧
    (Traced.Transfer .committed sdk recipient amount).events =
      (Transfer sdk recipient amount).events := by
  unfold Traced.Transfer Transfer
  simp only [Traced.checkInitialized_eq, visible_traced_committed, checkInitialized, GetState,
    GetUserID, SetEvent, failWith, List.nil_append]
  by_cases hinit : sdk.state.get nameKey = none
  · simp [hinit, Access.writes]
  cases hu : sdk.userID with
  | error e => simp [hinit, Access.writes]
  | ok f =>
    have key := transferHelper_traced_committed sdk [.read nameKey] f recipient amount
    simp only [hinit, decide_False, Bool.not_false, Bool.not_true, Bool.false_eq_true, if_false]
    generalize Traced.transferHelper .committed sdk [.read nameKey] f recipient amount = p
      at key
    generalize transferHelper sdk f recipient amount = q at key
    obtain ⟨r, l⟩ := p
    obtain ⟨r2, w⟩ := q
    simp only [Access.writes, List.nil_append] at key
    obtain ⟨h1, h2⟩ := key
    subst h1
    cases r <;> simp [h2]

theorem TransferFrom_traced_committed (sdk : TransactionContext) (from_ to_ : String)
    (value : Int) :
    (Traced.TransferFrom .committed sdk from_ to_ value).ret =
      (TransferFrom sdk from_ to_ value).ret ∧
    Access.writes (Traced.TransferFrom .committed sdk from_ to_ value).log =
      (TransferFrom sdk from_ to_ value).writes ∧
    (Traced.TransferFrom .committed sdk from_ to_ value).events =
      (TransferFrom sdk from_ to_ value).events := by
  unfold Traced.TransferFrom TransferFrom
  simp only [Traced.checkInitialized_eq, Traced.GetState, Traced.PutStateWithoutKYC,
    visible_traced_committed, checkInitialized, GetState, PutStateWithoutKYC,
    GetUserID, SetEvent, failWith, List.nil_append, List.cons_append]
  by_cases hinit : sdk.state.get nameKey = none
  · simp [hinit, Access.writes]
  cases hu : sdk.userID with
  | error e => simp [hinit, Access.writes]
  | ok s =>
  simp only [hinit, decide_False, Bool.not_false, Bool.not_true, Bool.false_eq_true, if_false]
  cases hk : CreateCompositeKey allowancePrefix [from_, s] with
  | error e => simp [Access.writes]
  | ok k =>
    have key := transferHelper_traced_committed sdk [.read nameKey, .read k] from_ to_ value
    simp only
    generalize Traced.transferHelper .committed sdk [.read nameKey, .read k] from_ to_ value = p
      at key
    generalize transferHelper sdk from_ to_ value = q at key
    obtain ⟨r, l⟩ := p
    obtain ⟨r2, w⟩ := q
    simp only [Access.writes, List.nil_append] at key
    obtain ⟨h1, h2⟩ := key
    subst h1
    split
    · simp [Access.writes]
    · cases r with
      | error e => simp [h2]
      | ok u =>
        simp only
        split <;> simp [h2, Access.writes_append, Access.writes]

theorem Mint_traced_mode (sdk : TransactionContext) (amount : Int)
    (h : sdk.userID ≠ .ok totalSupplyKey) :
    Traced.Mint .readYourWrites sdk amount = Traced.Mint .committed sdk amount := by
  cases hu : sdk.userID with
  | error e =>
    simp [Traced.Mint, Traced.checkInitialized_eq, Traced.visible, Access.lastWrite, GetUserID,
      hu]
  | ok m =>
    have hm : m ≠ totalSupplyKey := fun e => h (by rw [hu, e])
    simp [Traced.Mint, Traced.checkInitialized_eq, Traced.GetState, Traced.PutStateWithoutKYC,
      Traced.visible, Access.lastWrite, GetUserID, hu, hm]

theorem Burn_traced_mode (sdk : TransactionContext) (amount : Int)
    (h : sdk.userID ≠ .ok totalSupplyKey) :
    Traced.Burn .readYourWrites sdk amount = Traced.Burn .committed sdk amount := by
  cases hu : sdk.userID with
  | error e =>
    simp [Traced.Burn, Traced.checkInitialized_eq, Traced.visible, Access.lastWrite, GetUserID,
      hu]
  | ok m =>
    have hm : m ≠ totalSupplyKey := fun e => h (by rw [hu, e])
    simp [Traced.Burn, Traced.checkInitialized_eq, Traced.GetState, Traced.PutStateWithoutKYC,
      Traced.visible, Access.lastWrite, GetUserID, hu, hm]

theorem Mint_traced_readsAfterWrite (mode : ReadSemantics) (sdk : TransactionContext)
    (amount : Int) :
    ∀ k ∈ Access.readsAfterWrite (Traced.Mint mode sdk amount).log, k = totalSupplyKey := by
  unfold Traced.Mint
  simp only [Traced.checkInitialized_eq, Traced.GetState, Traced.PutStateWithoutKYC, GetMSPID,
    GetUserID, SetEvent, List.nil_append, List.cons_append]
  repeat' split
  all_goals simp [Access.readsAfterWrite]

theorem Burn_traced_readsAfterWrite (mode : ReadSemantics) (sdk : TransactionContext)
    (amount : Int) :
    ∀ k ∈ Access.readsAfterWrite (Traced.Burn mode sdk amount).log, k = totalSupplyKey := by
  unfold Traced.Burn
  simp only [Traced.checkInitialized_eq, Traced.GetState, Traced.PutStateWithoutKYC, GetMSPID,
    GetUserID, SetEvent, List.nil_append, List.cons_append]
  repeat' split
  all_goals simp [Access.readsAfterWrite]

/-- For an issuer whose id is the total supply key the two read semantics differ: the second
read of `Mint` then sees the balance written just before. -/
theorem Mint_traced_mode_totalSupply_caller :
    (Traced.Mint .committed (issuerOn sampleWorld "totalSupply") 10).log =
      [.read "name", .read "totalSupply", .write "totalSupply" "1760", .read "totalSupply",
       .write "totalSupply" "1760"] ∧
    (Traced.Mint .readYourWrites (issuerOn sampleWorld "totalSupply") 10).log =
      [.read "name", .read "totalSupply", .write "totalSupply" "1760", .read "totalSupply",
       .write "totalSupply" "1770"] := by
  refine ⟨by decide, by decide⟩

theorem kalpsdk.PutStateWithKYC_cases (ctx : kalpsdk.TransactionContext) (key value : String) :
    ((∃ uid, kalpsdk.GetUserID ctx = .ok uid ∧ kalpsdk.GetKYC ctx uid = .ok true) ∧
      kalpsdk.PutStateWithKYC ctx key value =
        match ctx.stub.putState key value with
        | .error err => (.error err, [])
        | .ok _ => (.ok (), [.put key value])) ∨
    ((¬ ∃ uid, kalpsdk.GetUserID ctx = .ok uid ∧ kalpsdk.GetKYC ctx uid = .ok true) ∧
      (kalpsdk.PutStateWithKYC ctx key value).1 ≠ .ok () ∧
      (kalpsdk.PutStateWithKYC ctx key value).2 = []) := by
  unfold kalpsdk.PutStateWithKYC
  cases hu : kalpsdk.GetUserID ctx with
  | panics => right; simp
  | error e => right; simp
  | ok uid =>
    cases hk : kalpsdk.GetKYC ctx uid with
    | error e => right; simp [hk]
    | ok b =>
      cases b with
      | false => right; simp [hk]
      | true => left; simp [hk]

theorem kalpsdk.DelStateWithKYC_cases (ctx : kalpsdk.TransactionContext) (key : String) :
    ((∃ uid, kalpsdk.GetUserID ctx = .ok uid ∧ kalpsdk.GetKYC ctx uid = .ok true) ∧
      kalpsdk.DelStateWithKYC ctx key =
        match ctx.stub.delState key with
        | .error err => (.error err, [])
        | .ok _ => (.ok (), [.del key])) ∨
    ((¬ ∃ uid, kalpsdk.GetUserID ctx = .ok uid ∧ kalpsdk.GetKYC ctx uid = .ok true) ∧
      (kalpsdk.DelStateWithKYC ctx key).1 ≠ .ok () ∧
      (kalpsdk.DelStateWithKYC ctx key).2 = []) := by
  unfold kalpsdk.DelStateWithKYC
  cases hu : kalpsdk.GetUserID ctx with
  | panics => right; simp
  | error e => right; simp
  | ok uid =>
    cases hk : kalpsdk.GetKYC ctx uid with
    | error e => right; simp [hk]
    | ok b =>
      cases b with
      | false => right; simp [hk]
      | true => left; simp [hk]

theorem kalpsdk.PutStateWithKYC_written (ctx : kalpsdk.TransactionContext)
    (key value : String) :
    (kalpsdk.PutStateWithKYC ctx key value).2 = [.put key value] ↔
      (∃ uid, kalpsdk.GetUserID ctx = .ok uid ∧ kalpsdk.GetKYC ctx uid = .ok true) ∧
        ctx.stub.putState key value = .ok () := by
  rcases kalpsdk.PutStateWithKYC_cases ctx key value with ⟨hex, hrun⟩ | ⟨hno, -, hw⟩
  · rw [hrun]
    cases hp : ctx.stub.putState key value with
    | error e => simp [hex]
    | ok u => simp [hex]
  · rw [hw]
    exact Iff.intro (fun h => by cases h) (fun h => absurd h.1 hno)

theorem kalpsdk.DelStateWithKYC_written (ctx : kalpsdk.TransactionContext) (key : String) :
    (kalpsdk.DelStateWithKYC ctx key).2 = [.del key] ↔
      (∃ uid, kalpsdk.GetUserID ctx = .ok uid ∧ kalpsdk.GetKYC ctx uid = .ok true) ∧
        ctx.stub.delState key = .ok () := by
  rcases kalpsdk.DelStateWithKYC_cases ctx key with ⟨hex, hrun⟩ | ⟨hno, -, hw⟩
  · rw [hrun]
    cases hp : ctx.stub.delState key with
    | error e => simp [hex]
    | ok u => simp [hex]
  · rw [hw]
    exact Iff.intro (fun h => by cases h) (fun h => absurd h.1 hno)

theorem kalpsdk.gated_rejections_eq (ctx : kalpsdk.TransactionContext)
    (key key' value : String)
    (hno : ¬ ∃ uid, kalpsdk.GetUserID ctx = .ok uid ∧ kalpsdk.GetKYC ctx uid = .ok true) :
    kalpsdk.DelStateWithKYC ctx key = kalpsdk.PutStateWithKYC ctx key' value := by
  unfold kalpsdk.DelStateWithKYC kalpsdk.PutStateWithKYC
  cases hu : kalpsdk.GetUserID ctx with
  | panics => rfl
  | error e => rfl
  | ok uid =>
    cases hk : kalpsdk.GetKYC ctx uid with
    | error e => simp [hk]
    | ok b =>
      cases b with
      | false => simp [hk]
      | true => exact absurd ⟨uid, hu, hk⟩ hno

theorem TransferFrom_after_helper (sdk : TransactionContext) (from_ to_ spender : String)
    (allowanceKey : String) (currentAllowanceBytes : Option String) (value : Int)
    (hinit : checkInitialized sdk = .ok true) (huser : GetUserID sdk = .ok spender)
    (hk : CreateCompositeKey allowancePrefix [from_, spender] = .ok allowanceKey)
    (hget : GetState sdk allowanceKey = .ok currentAllowanceBytes)
    (hcheck : ¬ (Atoi (currentAllowanceBytes.getD "")).1 < value)
    (hhelper : isError (transferHelper sdk from_ to_ value).1 = false) :
    TransferFrom sdk from_ to_ value =
      ⟨.ok (), (transferHelper sdk from_ to_ value).2 ++
        [(allowanceKey, Itoa ((Atoi (currentAllowanceBytes.getD "")).1 - value))],
       [("Transfer", ⟨from_, to_, value⟩)]⟩ := by
  have hpos := transferHelper_ok_pos sdk from_ to_ value hhelper
  have hs := (sub_allowance_ok _ value (Atoi_inRange (currentAllowanceBytes.getD "")) hpos
    hcheck).1
  cases hh : transferHelper sdk from_ to_ value with
  | mk r w =>
  cases r with
  | error e => rw [hh] at hhelper; cases hhelper
  | ok u =>
    unfold TransferFrom
    simp only [hinit, huser, hk, hget, hh, hs, PutStateWithoutKYC, SetEvent]
    simp [hcheck]

/-! ## Theorems on the contract -/

/-- C2 (Mint effect): on an initialized state, an issuer with id `m` and an amount > 0
whose sums with the stored balance and with the stored total supply do not overflow make
`Mint` return no error, write exactly balance+amount under `m` and totalSupply+amount under
the total-supply key, and set the single event "Transfer" from "0x0" to `m`. -/
theorem mint_effect (sdk : TransactionContext) (m : String) (amount : Int)
    (hinit : sdk.state.get nameKey ≠ none)
    (hmsp : sdk.mspID = .ok "mailabs")
    (huser : sdk.userID = .ok m)
    (hpos : 0 < amount)
    (hbal : balance sdk.state m + amount ≤ maxInt)
    (htot : balance sdk.state totalSupplyKey + amount ≤ maxInt) :
    Mint sdk amount =
      ⟨.ok (), [(m, Itoa (balance sdk.state m + amount)),
                (totalSupplyKey, Itoa (balance sdk.state totalSupplyKey + amount))],
       [("Transfer", ⟨"0x0", m, amount⟩)]⟩ :=
  Mint_succeeds sdk m amount hinit hmsp huser hpos hbal htot

/-- Witness of `mint_effect`: the issuer mints 1000 on top of a balance of 5. -/
theorem mint_effect_witness :
    Mint ⟨[("name", "Kalp"), ("issuer", "5"), ("totalSupply", "5")], .ok "mailabs", .ok "issuer"⟩
        1000 =
      ⟨.ok (), [("issuer", Itoa (balance [("name", "Kalp"), ("issuer", "5"),
                  ("totalSupply", "5")] "issuer" + 1000)),
                (totalSupplyKey, Itoa (balance [("name", "Kalp"), ("issuer", "5"),
                  ("totalSupply", "5")] totalSupplyKey + 1000))],
       [("Transfer", ⟨"0x0", "issuer", 1000⟩)]⟩ :=
  mint_effect ⟨[("name", "Kalp"), ("issuer", "5"), ("totalSupply", "5")], .ok "mailabs",
    .ok "issuer"⟩ "issuer" 1000 (by decide) rfl rfl (by decide) (by decide) (by decide)

/-- C3 (Transfer effect): on an initialized state, a caller `f` with a stored balance of
at least amount > 0 and a recipient `t` other than `f` whose balance plus amount does not
overflow make `Transfer` return no error, write exactly balance(f)-amount under `f` and
balance(t)+amount under `t`, and set the single event "Transfer" from `f` to `t`; after
the commit the two balances add up to what they added up to before. -/
theorem transfer_effect (sdk : TransactionContext) (f t : String) (amount : Int)
    (hinit : sdk.state.get nameKey ≠ none) (huser : sdk.userID = .ok f)
    (hne : t ≠ f) (hpos : 0 < amount) (hf : sdk.state.get f ≠ none)
    (hge : amount ≤ balance sdk.state f) (hto : balance sdk.state t + amount ≤ maxInt) :
    Transfer sdk t amount =
      ⟨.ok (), [(f, Itoa (balance sdk.state f - amount)),
                (t, Itoa (balance sdk.state t + amount))],
       [("Transfer", ⟨f, t, amount⟩)]⟩ ∧
    balance (commit sdk.state (Transfer sdk t amount)) f +
        balance (commit sdk.state (Transfer sdk t amount)) t =
      balance sdk.state f + balance sdk.state t := by
  have hrun := Transfer_succeeds sdk f t amount hinit huser hne hpos hf hge hto
  refine ⟨hrun, ?_⟩
  have hbf := balance_inRange sdk.state f
  have hbt := balance_inRange sdk.state t
  have r1 : InRange (balance sdk.state f - amount) := by
    unfold InRange minInt maxInt at *; omega
  have r2 : InRange (balance sdk.state t + amount) := by
    unfold InRange minInt maxInt at *; omega
  rw [hrun, commit_ok]
  simp only [List.foldl_cons, List.foldl_nil]
  rw [balance_put _ _ _ _ r2, balance_put _ _ _ _ r2, balance_put _ _ _ _ r1, if_neg hne,
    if_pos rfl, if_pos rfl]
  omega

/-- Witness of `transfer_effect`: alice, holding 700, transfers 300 to bob, who holds 50. -/
theorem transfer_effect_witness :
    Transfer ⟨[("name", "Kalp"), ("alice", "700"), ("bob", "50")], .ok "org", .ok "alice"⟩
        "bob" 300 =
      ⟨.ok (), [("alice", Itoa (balance [("name", "Kalp"), ("alice", "700"), ("bob", "50")]
                  "alice" - 300)),
                ("bob", Itoa (balance [("name", "Kalp"), ("alice", "700"), ("bob", "50")]
                  "bob" + 300))],
       [("Transfer", ⟨"alice", "bob", 300⟩)]⟩ ∧
    balance (commit [("name", "Kalp"), ("alice", "700"), ("bob", "50")]
        (Transfer ⟨[("name", "Kalp"), ("alice", "700"), ("bob", "50")], .ok "org", .ok "alice"⟩
          "bob" 300)) "alice" +
      balance (commit [("name", "Kalp"), ("alice", "700"), ("bob", "50")]
        (Transfer ⟨[("name", "Kalp"), ("alice", "700"), ("bob", "50")], .ok "org", .ok "alice"⟩
          "bob" 300)) "bob" =
      balance [("name", "Kalp"), ("alice", "700"), ("bob", "50")] "alice" +
        balance [("name", "Kalp"), ("alice", "700"), ("bob", "50")] "bob" :=
  transfer_effect ⟨[("name", "Kalp"), ("alice", "700"), ("bob", "50")], .ok "org", .ok "alice"⟩
    "alice" "bob" 300 (by decide) rfl (by decide) (by decide) (by decide) (by decide) (by decide)

/-- C4 (TransferFrom effect): on an initialized state, a spender `s` whose allowance over
the account of `f` is at least value > 0, an owner `f` with a stored balance of at least
value and a recipient `t` other than `f` whose balance plus value does not overflow make
`TransferFrom` return no error, write balance(f)-value under `f`, balance(t)+value under
`t` and allowance-value under the allowance key of (f, s), and set the single event
"Transfer" from `f` to `t`. -/
theorem transferFrom_effect (sdk : TransactionContext) (s f t k : String) (value : Int)
    (hinit : sdk.state.get nameKey ≠ none) (huser : sdk.userID = .ok s)
    (hk : CreateCompositeKey allowancePrefix [f, s] = .ok k)
    (hne : t ≠ f) (hpos : 0 < value) (hallow : value ≤ balance sdk.state k)
    (hf : sdk.state.get f ≠ none) (hge : value ≤ balance sdk.state f)
    (hto : balance sdk.state t + value ≤ maxInt) :
    TransferFrom sdk f t value =
      ⟨.ok (), [(f, Itoa (balance sdk.state f - value)),
                (t, Itoa (balance sdk.state t + value)),
                (k, Itoa (balance sdk.state k - value))],
       [("Transfer", ⟨f, t, value⟩)]⟩ :=
  TransferFrom_succeeds sdk s f t k value hinit huser hk hne hpos hallow hf hge hto

/-- Witness of `transferFrom_effect`: bob moves 60 of his allowance of 100 from alice to carol. -/
theorem transferFrom_effect_witness :
    TransferFrom (holderOn sampleWorld "bob") "alice" "carol" 60 =
      ⟨.ok (), [("alice", Itoa (balance sampleWorld "alice" - 60)),
                ("carol", Itoa (balance sampleWorld "carol" + 60)),
                ("\x00allowance\x00alice\x00bob\x00",
                  Itoa (balance sampleWorld "\x00allowance\x00alice\x00bob\x00" - 60))],
       [("Transfer", ⟨"alice", "carol", 60⟩)]⟩ :=
  transferFrom_effect (holderOn sampleWorld "bob") "bob" "alice" "carol"
    "\x00allowance\x00alice\x00bob\x00" 60 (by decide) rfl rfl (by decide) (by decide)
    (by decide) (by decide) (by decide) (by decide)

/-- C5 (Burn effect): on an initialized state, an issuer `m` whose stored balance and the
stored total supply are both at least amount > 0 make `Burn` return no error, write
balance(m)-amount under `m` and totalSupply-amount under the total-supply key, and set the
single event "Transfer" from `m` to "0x0"; when no balance is stored under `m`, `Burn`
returns an error and issues no write and no event. -/
theorem burn_effect (sdk : TransactionContext) (m : String) (amount : Int)
    (huser : sdk.userID = .ok m) :
    (sdk.state.get nameKey ≠ none → sdk.mspID = .ok "mailabs" → 0 < amount →
      sdk.state.get m ≠ none → amount ≤ balance sdk.state m →
      sdk.state.get totalSupplyKey ≠ none → amount ≤ balance sdk.state totalSupplyKey →
      Burn sdk amount =
        ⟨.ok (), [(m, Itoa (balance sdk.state m - amount)),
                  (totalSupplyKey, Itoa (balance sdk.state totalSupplyKey - amount))],
         [("Transfer", ⟨m, "0x0", amount⟩)]⟩) ∧
    (sdk.state.get m = none →
      isError (Burn sdk amount).ret = true ∧ (Burn sdk amount).writes = [] ∧
        (Burn sdk amount).events = []) := by
  refine ⟨fun hinit hmsp hpos hm hge hts htge =>
    Burn_succeeds sdk m amount hinit hmsp huser hpos hm hge hts htge, fun hnone => ?_⟩
  unfold Burn
  simp only [checkInitialized, GetState, GetMSPID, GetUserID, huser, hnone]
  repeat' split
  all_goals simp [failWith, isError]

/-- Witness of `burn_effect`: the issuer burns 400 of 1000; a client without a stored
balance cannot burn. -/
theorem burn_effect_witness :
    Burn (issuerOn sampleWorld "issuer") 400 =
      ⟨.ok (), [("issuer", Itoa (balance sampleWorld "issuer" - 400)),
                (totalSupplyKey, Itoa (balance sampleWorld totalSupplyKey - 400))],
       [("Transfer", ⟨"issuer", "0x0", 400⟩)]⟩ ∧
    (isError (Burn (issuerOn sampleWorld "dave") 400).ret = true ∧
      (Burn (issuerOn sampleWorld "dave") 400).writes = [] ∧
      (Burn (issuerOn sampleWorld "dave") 400).events = []) :=
  ⟨(burn_effect (issuerOn sampleWorld "issuer") "issuer" 400 rfl).1 (by decide) rfl (by decide)
      (by decide) (by decide) (by decide) (by decide),
   (burn_effect (issuerOn sampleWorld "dave") "dave" 400 rfl).2 (by decide)⟩

/-- C6 (overflow boundary): on an initialized state, when the issuer's stored balance plus
an amount > 0 (a Go int) exceeds the largest Go int (in particular when the balance is
the largest int and the amount is 1), `Mint` returns the addition-overflow error of `add`
and issues no write and no event, so the committed state is unchanged. -/
theorem mint_overflow (sdk : TransactionContext) (m : String) (amount : Int)
    (hinit : sdk.state.get nameKey ≠ none) (hmsp : sdk.mspID = .ok "mailabs")
    (huser : sdk.userID = .ok m) (hpos : 0 < amount) (hamt : amount ≤ maxInt)
    (hover : maxInt < balance sdk.state m + amount) :
    Mint sdk amount =
      ⟨.error ("Math: addition overflow occurred " ++ Itoa (balance sdk.state m) ++ " + " ++
        Itoa amount), [], []⟩ ∧
    commit sdk.state (Mint sdk amount) = sdk.state := by
  have hq : InRange amount := by
    unfold InRange minInt maxInt at *; omega
  have ho := add_overflow _ _ (balance_inRange sdk.state m) hq hover
  have hrun : Mint sdk amount =
      ⟨.error ("Math: addition overflow occurred " ++ Itoa (balance sdk.state m) ++ " + " ++
        Itoa amount), [], []⟩ := by
    unfold balance at ho ⊢
    simp [Mint, checkInitialized, GetState, GetMSPID, GetUserID, hinit, hmsp, huser,
      not_le.mpr hpos, ho, failWith]
  refine ⟨hrun, ?_⟩
  rw [hrun]
  rfl

/-- Witness of `mint_overflow`: the issuer holds the largest int and mints 1. -/
theorem mint_overflow_witness :
    Mint (issuerOn fullWorld "issuer") 1 =
      ⟨.error ("Math: addition overflow occurred " ++ Itoa (balance fullWorld "issuer") ++
        " + " ++ Itoa 1), [], []⟩ ∧
    commit fullWorld (Mint (issuerOn fullWorld "issuer") 1) = fullWorld :=
  mint_overflow (issuerOn fullWorld "issuer") "issuer" 1 (by decide) rfl rfl (by decide)
    (by decide) (by decide)

/-- C7 (Approve sets, Allowance reads back): on an initialized state, whatever allowance
was stored before, `Approve(s, v)` by owner `o` writes exactly the decimal encoding of `v`
under the allowance key of (o, s) and sets the single event "Approval" {o, s, v}; on the
committed state `Allowance(o, s)` returns `v` to every caller. -/
theorem approve_sets_allowance (sdk : TransactionContext) (o s k : String) (v : Int)
    (reader : Client)
    (hinit : sdk.state.get nameKey ≠ none) (huser : sdk.userID = .ok o)
    (hk : CreateCompositeKey allowancePrefix [o, s] = .ok k) (hv : InRange v) :
    Approve sdk s v = ⟨.ok (), [(k, Itoa v)], [("Approval", ⟨o, s, v⟩)]⟩ ∧
    Allowance (reader.on (commit sdk.state (Approve sdk s v))) o s = .ok v := by
  have hrun := Approve_succeeds sdk o s k v hinit huser hk
  refine ⟨hrun, ?_⟩
  rw [hrun, commit_ok]
  simp only [List.foldl_cons, List.foldl_nil]
  rw [Allowance_eq _ o s k (World.get_put_ne_none _ _ _ _ hinit) hk]
  simp only [Client.on]
  rw [balance_put _ _ _ _ hv, if_pos rfl]

/-- Witness of `approve_sets_allowance`: alice replaces bob's allowance of 100 by 7. -/
theorem approve_sets_allowance_witness :
    Approve (holderOn sampleWorld "alice") "bob" 7 =
      ⟨.ok (), [("\x00allowance\x00alice\x00bob\x00", Itoa 7)],
        [("Approval", ⟨"alice", "bob", 7⟩)]⟩ ∧
    Allowance ((issuerClient "carol").on
      (commit sampleWorld (Approve (holderOn sampleWorld "alice") "bob" 7))) "alice" "bob" =
        .ok 7 :=
  approve_sets_allowance (holderOn sampleWorld "alice") "alice" "bob"
    "\x00allowance\x00alice\x00bob\x00" 7 (issuerClient "carol") (by decide) rfl rfl
    (by decide)

/-- C8 (allowance discipline): a `TransferFrom` of more than the stored allowance of the
caller over the account of `o` returns an error and issues no write and no event; and once
`Approve(s, a)` by `o` is committed, a successful `TransferFrom(o, t, v)` by `s` leaves
`Allowance(o, s)` equal to a - v. -/
theorem allowance_discipline (w : World) (owner spender reader : Client) (o s t k : String)
    (a v : Int) (ho : owner.userID = .ok o) (hs : spender.userID = .ok s)
    (hk : CreateCompositeKey allowancePrefix [o, s] = .ok k) (ha : InRange a)
    (hv : InRange v) :
    (balance w k < v →
      isError (TransferFrom (spender.on w) o t v).ret = true ∧
        (TransferFrom (spender.on w) o t v).writes = [] ∧
        (TransferFrom (spender.on w) o t v).events = []) ∧
    (w.get nameKey ≠ none →
      isError (TransferFrom (spender.on (commit w (Approve (owner.on w) s a))) o t v).ret
        = false →
      Allowance (reader.on (commit (commit w (Approve (owner.on w) s a))
        (TransferFrom (spender.on (commit w (Approve (owner.on w) s a))) o t v))) o s
        = .ok (a - v)) := by
  refine ⟨fun hlow => TransferFrom_low_allowance (spender.on w) s o t k v hs hk hlow,
    fun hinit hok => ?_⟩
  have hA := Approve_succeeds (owner.on w) o s k a hinit ho hk
  have hw1 : commit w (Approve (owner.on w) s a) = w.put k (Itoa a) := by
    rw [hA, commit_ok]; rfl
  rw [hw1] at hok ⊢
  have hinit1 : (w.put k (Itoa a)).get nameKey ≠ none := World.get_put_ne_none _ _ _ _ hinit
  have hbal1 : balance (w.put k (Itoa a)) k = a := by
    rw [balance_put _ _ _ _ ha, if_pos rfl]
  obtain ⟨s', k', hs', hk', -, hal, hne, hpos, hf, hge, hto⟩ :=
    TransferFrom_of_ok (spender.on (w.put k (Itoa a))) o t v hv hok
  have hss : s' = s := by
    have : Except.ok s' = (Except.ok s : Except String String) := by rw [← hs', ← hs]; rfl
    injection this
  rw [hss] at hk'
  have hkk : k' = k := by
    have : Except.ok k' = (Except.ok k : Except String String) := by rw [← hk', ← hk]
    injection this
  rw [hkk] at hal
  have hrun := TransferFrom_succeeds (spender.on (w.put k (Itoa a))) s o t k v hinit1 hs hk
    (Ne.symm hne) hpos hal hf hge hto.2
  rw [hrun, commit_ok]
  rw [Allowance_eq _ o s k (World.get_foldl_put_ne_none _ _ _ hinit1) hk]
  simp only [Client.on, List.foldl_cons, List.foldl_nil] at hal hbal1 ⊢
  have hr : InRange (balance (w.put k (Itoa a)) k - v) := by
    have := balance_inRange (w.put k (Itoa a)) k
    unfold InRange minInt maxInt at *
    omega
  rw [balance_put _ _ _ _ hr, if_pos rfl, hbal1]

/-- Witness of `allowance_discipline` (a = 100): with 100 approved, bob cannot move 150 from
alice's account; after he moves 60, the allowance is 40. -/
theorem allowance_discipline_witness :
    (isError (TransferFrom ((Client.mk (.ok "org1") (.ok "bob")).on
        (commit sampleWorld (Approve (holderOn sampleWorld "alice") "bob" 100)))
        "alice" "carol" 150).ret = true ∧
      (TransferFrom ((Client.mk (.ok "org1") (.ok "bob")).on
        (commit sampleWorld (Approve (holderOn sampleWorld "alice") "bob" 100)))
        "alice" "carol" 150).writes = [] ∧
      (TransferFrom ((Client.mk (.ok "org1") (.ok "bob")).on
        (commit sampleWorld (Approve (holderOn sampleWorld "alice") "bob" 100)))
        "alice" "carol" 150).events = []) ∧
    Allowance ((issuerClient "issuer").on
      (commit (commit sampleWorld (Approve ((Client.mk (.ok "org1") (.ok "alice")).on
          sampleWorld) "bob" 100))
        (TransferFrom ((Client.mk (.ok "org1") (.ok "bob")).on
          (commit sampleWorld (Approve ((Client.mk (.ok "org1") (.ok "alice")).on
            sampleWorld) "bob" 100))) "alice" "carol" 60))) "alice" "bob" = .ok 40 :=
  ⟨(allowance_discipline
      (commit sampleWorld (Approve (holderOn sampleWorld "alice") "bob" 100))
      (Client.mk (.ok "org1") (.ok "alice")) (Client.mk (.ok "org1") (.ok "bob"))
      (issuerClient "issuer") "alice" "bob" "carol" "\x00allowance\x00alice\x00bob\x00" 100 150
      rfl rfl rfl (by decide) (by decide)).1 (by decide),
   (allowance_discipline sampleWorld
      (Client.mk (.ok "org1") (.ok "alice")) (Client.mk (.ok "org1") (.ok "bob"))
      (issuerClient "issuer") "alice" "bob" "carol" "\x00allowance\x00alice\x00bob\x00" 100 60
      rfl rfl rfl (by decide) (by decide)).2 (by decide) (by decide)⟩

/-- Counterexample to C9 as stated: on a state whose only stored allowance is 100, alice's
`Approve("carol", -5)` succeeds and writes the negative value -5 under the allowance key of
(alice, carol). -/
theorem approve_negative_counterexample :
    0 ≤ balance sampleWorld "\x00allowance\x00alice\x00bob\x00" ∧
    CreateCompositeKey allowancePrefix ["alice", "carol"] =
      .ok "\x00allowance\x00alice\x00carol\x00" ∧
    isError (Approve (holderOn sampleWorld "alice") "carol" (-5)).ret = false ∧
    (Approve (holderOn sampleWorld "alice") "carol" (-5)).writes =
      [("\x00allowance\x00alice\x00carol\x00", "-5")] ∧
    (Atoi "-5").1 < 0 :=
  ⟨by decide, rfl, by decide, by decide, by decide⟩

/-- C9 (allowance non-negativity, amended): on a state in which every stored allowance is
non-negative, every value `TransferFrom` writes under an allowance key is non-negative, and
so is every value `Approve` writes when its value argument is non-negative. -/
theorem allowance_nonneg (sdk : TransactionContext) (o s k x : String)
    (hk : CreateCompositeKey allowancePrefix [o, s] = .ok k)
    (hst : ∀ o' s' k', CreateCompositeKey allowancePrefix [o', s'] = .ok k' →
      0 ≤ balance sdk.state k') :
    (∀ spender value, InRange value → 0 ≤ value →
      (k, x) ∈ (Approve sdk spender value).writes → 0 ≤ (Atoi x).1) ∧
    (∀ f t value, InRange value →
      (k, x) ∈ (TransferFrom sdk f t value).writes → 0 ≤ (Atoi x).1) := by
  constructor
  · intro spender value hv h0 hmem
    have hx := Approve_writes_mem sdk spender value (k, x) hmem
    simp only at hx
    rw [hx, Atoi_Itoa_val value hv]
    exact h0
  · intro f t value hv hmem
    rcases TransferFrom_writes_mem sdk f t value hv (k, x) hmem with h | h
    · obtain ⟨hpos, -, h | h⟩ := transferHelper_writes_mem sdk f t value hv (k, x) h
      · obtain ⟨hkv, hge⟩ := h
        have hx : x = Itoa (balance sdk.state f - value) := (Prod.mk.inj hkv).2
        have hr : InRange (balance sdk.state f - value) := by
          have := balance_inRange sdk.state f
          unfold InRange minInt maxInt at *
          omega
        rw [hx, Atoi_Itoa_val _ hr]
        omega
      · obtain ⟨hkv, hr⟩ := h
        have hkt : k = t := (Prod.mk.inj hkv).1
        have hx : x = Itoa (balance sdk.state t + value) := (Prod.mk.inj hkv).2
        have ht := hst o s k hk
        rw [hkt] at ht
        rw [hx, Atoi_Itoa_val _ hr]
        omega
    · obtain ⟨s', k', -, -, hkv, hge, hpos⟩ := h
      have hx : x = Itoa (balance sdk.state k' - value) := (Prod.mk.inj hkv).2
      have hr : InRange (balance sdk.state k' - value) := by
        have := balance_inRange sdk.state k'
        unfold InRange minInt maxInt at *
        omega
      rw [hx, Atoi_Itoa_val _ hr]
      omega

/-- Witness of `allowance_nonneg`: alice approves 7 for bob, and bob spends 60 of an
allowance of 100. -/
theorem allowance_nonneg_witness :
    0 ≤ (Atoi "7").1 ∧ 0 ≤ (Atoi "40").1 :=
  ⟨(allowance_nonneg (holderOn sampleWorld "alice") "alice" "bob"
      "\x00allowance\x00alice\x00bob\x00" "7" rfl
      (fun _ _ k' _ => sampleWorld_nonneg k')).1 "bob" 7 (by decide) (by decide) (by decide),
   (allowance_nonneg (holderOn sampleWorld "bob") "alice" "bob"
      "\x00allowance\x00alice\x00bob\x00" "40" rfl
      (fun _ _ k' _ => sampleWorld_nonneg k')).2 "alice" "carol" 60 (by decide) (by decide)⟩

/-- C10 (balance non-negativity): when the stored total supply, the caller's stored balance
and the recipient's stored balance are non-negative, every value that `Mint`, `Burn`,
`Transfer` or `TransferFrom` writes (under an account key, the total-supply key or an
allowance key) is non-negative. -/
theorem balance_nonneg (sdk : TransactionContext) (f t : String) (a : Int)
    (kv : String × String) (ha : InRange a)
    (hts : 0 ≤ balance sdk.state totalSupplyKey)
    (hcaller : ∀ m, sdk.userID = .ok m → 0 ≤ balance sdk.state m)
    (hto : 0 ≤ balance sdk.state t) :
    (kv ∈ (Mint sdk a).writes → 0 ≤ (Atoi kv.2).1) ∧
    (kv ∈ (Burn sdk a).writes → 0 ≤ (Atoi kv.2).1) ∧
    (kv ∈ (Transfer sdk t a).writes → 0 ≤ (Atoi kv.2).1) ∧
    (kv ∈ (TransferFrom sdk f t a).writes → 0 ≤ (Atoi kv.2).1) := by
  have helper : ∀ g, kv ∈ (transferHelper sdk g t a).2 → 0 ≤ (Atoi kv.2).1 := by
    intro g hmem
    obtain ⟨hpos, -, h | h⟩ := transferHelper_writes_mem sdk g t a ha kv hmem
    · obtain ⟨hkv, hge⟩ := h
      have hr : InRange (balance sdk.state g - a) := by
        have := balance_inRange sdk.state g
        unfold InRange minInt maxInt at *
        omega
      rw [hkv]
      simp only
      rw [Atoi_Itoa_val _ hr]
      omega
    · obtain ⟨hkv, hr⟩ := h
      rw [hkv]
      simp only
      rw [Atoi_Itoa_val _ hr]
      omega
  refine ⟨fun hmem => ?_, fun hmem => ?_, fun hmem => ?_, fun hmem => ?_⟩
  · obtain ⟨hpos, h | h⟩ := Mint_writes_mem sdk a ha kv hmem
    · obtain ⟨m, hm, hkv, hr⟩ := h
      have := hcaller m hm
      rw [hkv]
      simp only
      rw [Atoi_Itoa_val _ hr]
      omega
    · obtain ⟨hkv, hr⟩ := h
      rw [hkv]
      simp only
      rw [Atoi_Itoa_val _ hr]
      omega
  · obtain ⟨hpos, h | h⟩ := Burn_writes_mem sdk a kv hmem
    · obtain ⟨m, hm, hkv, hge⟩ := h
      have hr : InRange (balance sdk.state m - a) := by
        have := balance_inRange sdk.state m
        unfold InRange minInt maxInt at *
        omega
      rw [hkv]
      simp only
      rw [Atoi_Itoa_val _ hr]
      omega
    · obtain ⟨hkv, hge⟩ := h
      have hr : InRange (balance sdk.state totalSupplyKey - a) := by
        have := balance_inRange sdk.state totalSupplyKey
        unfold InRange minInt maxInt at *
        omega
      rw [hkv]
      simp only
      rw [Atoi_Itoa_val _ hr]
      omega
  · obtain ⟨g, -, hg⟩ := Transfer_writes_sub sdk t a kv hmem
    exact helper g hg
  · rcases TransferFrom_writes_mem sdk f t a ha kv hmem with h | h
    · exact helper f h
    · obtain ⟨s', k', -, -, hkv, hge, hpos⟩ := h
      have hr : InRange (balance sdk.state k' - a) := by
        have := balance_inRange sdk.state k'
        unfold InRange minInt maxInt at *
        omega
      rw [hkv]
      simp only
      rw [Atoi_Itoa_val _ hr]
      omega

/-- Witness of `balance_nonneg`: the issuer, holding 1000, mints 10 and transfers 10 to bob,
who holds 50. -/
theorem balance_nonneg_witness :
    0 ≤ (Atoi (("issuer", "1010") : String × String).2).1 ∧
      0 ≤ (Atoi (("bob", "60") : String × String).2).1 :=
  ⟨(balance_nonneg (issuerOn sampleWorld "issuer") "alice" "bob" 10 ("issuer", "1010")
      (by decide) (sampleWorld_nonneg _) (fun m _ => sampleWorld_nonneg m)
      (sampleWorld_nonneg _)).1 (by decide),
   (balance_nonneg (issuerOn sampleWorld "issuer") "alice" "bob" 10 ("bob", "60")
      (by decide) (sampleWorld_nonneg _) (fun m _ => sampleWorld_nonneg m)
      (sampleWorld_nonneg _)).2.2.1 (by decide)⟩

/-- Counterexample to C1 as stated: from the state right after `Initialize`, the issuer
mints 10 and transfers 5 to the recipient string "totalSupply"; the stored total supply is
then 15 while 10 were minted and none burned, and the account balances add up to 5. When
the 5 are transferred to the recipient string "name" instead, the total supply stays 10
while the account balances add up to 5. -/
theorem conservation_counterexample :
    (balance ((freshLedger "Kalp" "KLP" "2").run conservationBreakingTxs).world totalSupplyKey
        = 15 ∧
      ((freshLedger "Kalp" "KLP" "2").run conservationBreakingTxs).minted -
        ((freshLedger "Kalp" "KLP" "2").run conservationBreakingTxs).burned = 10 ∧
      sumBalances ((freshLedger "Kalp" "KLP" "2").run conservationBreakingTxs).world = 5) ∧
    (balance ((freshLedger "Kalp" "KLP" "2").run nameOverwritingTxs).world totalSupplyKey = 10 ∧
      sumBalances ((freshLedger "Kalp" "KLP" "2").run nameOverwritingTxs).world = 5 ∧
      ((freshLedger "Kalp" "KLP" "2").run nameOverwritingTxs).world.get nameKey = some "5") := by
  decide

/-- C1 (conservation, amended): for every sequence of Mint, Burn and Transfer transactions
whose caller ids and recipients are none of the keys name, symbol, decimals and totalSupply
(amounts being Go ints), applied one after another to a state that stores each key once and
holds no balance and no total supply, after every transaction the stored total supply
equals the successfully minted minus the successfully burned amounts, and the balances
stored under the account keys (each key still stored once) add up to the stored total
supply. -/
theorem conservation_on_accounts (w : World) (txs : List (Client × Call)) (n : Nat)
    (hnd : (w.map Prod.fst).Nodup) (hempty : ∀ kv ∈ w, isAccountKey kv.1 = false)
    (hts : w.get totalSupplyKey = none)
    (htxs : ∀ tx ∈ txs, Call.onAccounts tx = true) :
    balance ((Ledger.mk w 0 0).run (txs.take n)).world totalSupplyKey =
        ((Ledger.mk w 0 0).run (txs.take n)).minted -
          ((Ledger.mk w 0 0).run (txs.take n)).burned ∧
      sumBalances ((Ledger.mk w 0 0).run (txs.take n)).world =
        balance ((Ledger.mk w 0 0).run (txs.take n)).world totalSupplyKey ∧
      (((Ledger.mk w 0 0).run (txs.take n)).world.map Prod.fst).Nodup :=
  Ledger.run_conserved (txs.take n) _ (Ledger.conserved_of_no_balance w hnd hempty hts)
    (fun tx hmem => htxs tx (List.mem_of_mem_take hmem))

/-- Witness of `conservation_on_accounts`: on the state right after `Initialize`, the issuer
mints 1000, transfers 300 to alice and burns 200. -/
theorem conservation_on_accounts_witness :
    balance ((Ledger.mk (freshLedger "Kalp" "KLP" "2").world 0 0).run
        (sampleTxs.take 3)).world totalSupplyKey =
        ((Ledger.mk (freshLedger "Kalp" "KLP" "2").world 0 0).run (sampleTxs.take 3)).minted -
          ((Ledger.mk (freshLedger "Kalp" "KLP" "2").world 0 0).run (sampleTxs.take 3)).burned ∧
      sumBalances ((Ledger.mk (freshLedger "Kalp" "KLP" "2").world 0 0).run
        (sampleTxs.take 3)).world =
        balance ((Ledger.mk (freshLedger "Kalp" "KLP" "2").world 0 0).run
          (sampleTxs.take 3)).world totalSupplyKey ∧
      (((Ledger.mk (freshLedger "Kalp" "KLP" "2").world 0 0).run
        (sampleTxs.take 3)).world.map Prod.fst).Nodup :=
  conservation_on_accounts (freshLedger "Kalp" "KLP" "2").world sampleTxs 3 (by decide)
    (by decide) (by decide) (by decide)

/-- C11 (zero-value transfer): `Transfer(t, 0)` is never permitted. For every state, caller
and recipient it returns an error and issues no write and no event, because `sub` rejects a
subtrahend of 0; alice, holding 700, gets the error of `sub` when she transfers 0 to bob. -/
theorem transfer_zero_fails :
    (∀ (sdk : TransactionContext) (t : String),
      isError (Transfer sdk t 0).ret = true ∧ (Transfer sdk t 0).writes = [] ∧
        (Transfer sdk t 0).events = []) ∧
    (sampleWorld.get nameKey ≠ none ∧ sampleWorld.get "alice" = some "700" ∧
      Transfer (holderOn sampleWorld "alice") "bob" 0 =
        failWith ("failed to transfer: Error: the subtraction number is 0, " ++
          "it should be greater than 0") []) := by
  refine ⟨fun sdk t => Transfer_of_helper_error sdk t 0
    (fun f _ => transferHelper_rejects sdk f t 0 (Or.inr (Or.inl (le_refl 0)))), ?_, ?_, ?_⟩
  · decide
  · decide
  · rfl

/-- C12 (self-transfer rejection): `Transfer` to the caller's own id returns an error and
issues no write and no event, so the committed state is unchanged; so does `TransferFrom`
with equal `from` and `to`, for every caller and value. -/
theorem self_transfer_rejected (sdk : TransactionContext) (c f : String) (amount value : Int)
    (huser : sdk.userID = .ok c) :
    (isError (Transfer sdk c amount).ret = true ∧ (Transfer sdk c amount).writes = [] ∧
      (Transfer sdk c amount).events = [] ∧
      commit sdk.state (Transfer sdk c amount) = sdk.state) ∧
    (isError (TransferFrom sdk f f value).ret = true ∧ (TransferFrom sdk f f value).writes = [] ∧
      (TransferFrom sdk f f value).events = [] ∧
      commit sdk.state (TransferFrom sdk f f value) = sdk.state) := by
  have h1 := Transfer_of_helper_error sdk c amount (fun g hg => by
    have hgc : g = c := by
      have : Except.ok g = (Except.ok c : Except String String) := by rw [← hg, ← huser]
      injection this
    exact transferHelper_rejects sdk g c amount (Or.inl hgc))
  have h2 := TransferFrom_of_helper_error sdk f f value
    (transferHelper_rejects sdk f f value (Or.inl rfl))
  exact ⟨⟨h1.1, h1.2.1, h1.2.2, commit_error _ _ h1.1⟩, ⟨h2.1, h2.2.1, h2.2.2,
    commit_error _ _ h2.1⟩⟩

/-- Witness of `self_transfer_rejected`: alice transfers 10 to herself, and bob moves 10 from
alice to alice. -/
theorem self_transfer_rejected_witness :
    (isError (Transfer (holderOn sampleWorld "alice") "alice" 10).ret = true ∧
      (Transfer (holderOn sampleWorld "alice") "alice" 10).writes = [] ∧
      (Transfer (holderOn sampleWorld "alice") "alice" 10).events = [] ∧
      commit (holderOn sampleWorld "alice").state
        (Transfer (holderOn sampleWorld "alice") "alice" 10) =
          (holderOn sampleWorld "alice").state) ∧
    (isError (TransferFrom (holderOn sampleWorld "alice") "alice" "alice" 10).ret = true ∧
      (TransferFrom (holderOn sampleWorld "alice") "alice" "alice" 10).writes = [] ∧
      (TransferFrom (holderOn sampleWorld "alice") "alice" "alice" 10).events = [] ∧
      commit (holderOn sampleWorld "alice").state
        (TransferFrom (holderOn sampleWorld "alice") "alice" "alice" 10) =
          (holderOn sampleWorld "alice").state) :=
  self_transfer_rejected (holderOn sampleWorld "alice") "alice" "alice" 10 10 rfl

/-- C13 (invalid transfers): `Transfer` returns an error and issues no write and no event
whenever the amount is negative, or nothing is stored under the caller's id, or the
caller's stored balance is less than the amount. -/
theorem invalid_transfer_rejected (sdk : TransactionContext) (f t : String) (amount : Int)
    (huser : sdk.userID = .ok f)
    (h : amount < 0 ∨ sdk.state.get f = none ∨ balance sdk.state f < amount) :
    isError (Transfer sdk t amount).ret = true ∧ (Transfer sdk t amount).writes = [] ∧
      (Transfer sdk t amount).events = [] := by
  refine Transfer_of_helper_error sdk t amount (fun g hg => ?_)
  have hgf : g = f := by
    have : Except.ok g = (Except.ok f : Except String String) := by rw [← hg, ← huser]
    injection this
  subst hgf
  rcases h with h | h | h
  · exact transferHelper_rejects sdk g t amount (Or.inr (Or.inl (le_of_lt h)))
  · exact transferHelper_rejects sdk g t amount (Or.inr (Or.inr (Or.inl h)))
  · exact transferHelper_rejects sdk g t amount (Or.inr (Or.inr (Or.inr h)))

/-- Witness of `invalid_transfer_rejected`: alice transfers -1; dave, who has no balance,
transfers 1; bob, who holds 50, transfers 51. -/
theorem invalid_transfer_rejected_witness :
    (isError (Transfer (holderOn sampleWorld "alice") "bob" (-1)).ret = true ∧
      (Transfer (holderOn sampleWorld "alice") "bob" (-1)).writes = [] ∧
      (Transfer (holderOn sampleWorld "alice") "bob" (-1)).events = []) ∧
    (isError (Transfer (holderOn sampleWorld "dave") "bob" 1).ret = true ∧
      (Transfer (holderOn sampleWorld "dave") "bob" 1).writes = [] ∧
      (Transfer (holderOn sampleWorld "dave") "bob" 1).events = []) ∧
    (isError (Transfer (holderOn sampleWorld "bob") "alice" 51).ret = true ∧
      (Transfer (holderOn sampleWorld "bob") "alice" 51).writes = [] ∧
      (Transfer (holderOn sampleWorld "bob") "alice" 51).events = []) :=
  ⟨invalid_transfer_rejected (holderOn sampleWorld "alice") "alice" "bob" (-1) rfl
      (Or.inl (by decide)),
   invalid_transfer_rejected (holderOn sampleWorld "dave") "dave" "bob" 1 rfl
      (Or.inr (Or.inl (by decide))),
   invalid_transfer_rejected (holderOn sampleWorld "bob") "bob" "alice" 51 rfl
      (Or.inr (Or.inr (by decide)))⟩

/-- C15 (Initialize and read-back): when the caller's MSPID is "mailabs" and the name key is
absent, `Initialize` returns true with no error and writes exactly name, symbol and decimals
under the name, symbol and decimals keys; on the committed state the name key is present,
and `Name` and `Symbol` return name and symbol to every caller. -/
theorem initialize_effect (sdk : TransactionContext) (name symbol decimals : String)
    (reader : Client) (hmsp : sdk.mspID = .ok "mailabs")
    (habsent : sdk.state.get nameKey = none) :
    Initialize sdk name symbol decimals =
      ⟨.ok true, [(nameKey, name), (symbolKey, symbol), (decimalsKey, decimals)], []⟩ ∧
    checkInitialized (reader.on (commit sdk.state (Initialize sdk name symbol decimals)))
      = .ok true ∧
    Name (reader.on (commit sdk.state (Initialize sdk name symbol decimals))) = .ok name ∧
    Symbol (reader.on (commit sdk.state (Initialize sdk name symbol decimals)))
      = .ok symbol := by
  have hrun := Initialize_succeeds sdk name symbol decimals hmsp habsent
  refine ⟨hrun, ?_⟩
  rw [hrun, commit_ok]
  simp only [List.foldl_cons, List.foldl_nil]
  have hn : (((sdk.state.put nameKey name).put symbolKey symbol).put decimalsKey decimals).get
      nameKey = some name := by
    rw [World.get_put, if_neg (by decide), World.get_put, if_neg (by decide), World.get_put,
      if_pos rfl]
  have hs : (((sdk.state.put nameKey name).put symbolKey symbol).put decimalsKey decimals).get
      symbolKey = some symbol := by
    rw [World.get_put, if_neg (by decide), World.get_put, if_pos rfl]
  simp [checkInitialized, Name, Symbol, GetState, Client.on, hn, hs]

/-- Witness of `initialize_effect`: the issuer initializes the empty state as Kalp/KLP/2. -/
theorem initialize_effect_witness :
    Initialize (issuerOn [] "issuer") "Kalp" "KLP" "2" =
      ⟨.ok true, [(nameKey, "Kalp"), (symbolKey, "KLP"), (decimalsKey, "2")], []⟩ ∧
    checkInitialized ((issuerClient "alice").on
      (commit (issuerOn [] "issuer").state (Initialize (issuerOn [] "issuer") "Kalp" "KLP" "2")))
      = .ok true ∧
    Name ((issuerClient "alice").on
      (commit (issuerOn [] "issuer").state (Initialize (issuerOn [] "issuer") "Kalp" "KLP" "2")))
      = .ok "Kalp" ∧
    Symbol ((issuerClient "alice").on
      (commit (issuerOn [] "issuer").state (Initialize (issuerOn [] "issuer") "Kalp" "KLP" "2")))
      = .ok "KLP" :=
  initialize_effect (issuerOn [] "issuer") "Kalp" "KLP" "2" (issuerClient "alice") rfl rfl

/-- C16 (initialization happens once): when the name key is present, `Initialize` with any
arguments and any caller returns an error (with the result false) and issues no write and
no event, so the committed state, and with it name, symbol and decimals, is unchanged. -/
theorem initialize_once (sdk : TransactionContext) (name symbol decimals : String)
    (hpresent : sdk.state.get nameKey ≠ none) :
    isError (Initialize sdk name symbol decimals).ret = true ∧
      (Initialize sdk name symbol decimals).writes = [] ∧
      (Initialize sdk name symbol decimals).events = [] ∧
      commit sdk.state (Initialize sdk name symbol decimals) = sdk.state := by
  have h := Initialize_present sdk name symbol decimals hpresent
  exact ⟨h.1, h.2.1, h.2.2, commit_error _ _ h.1⟩

/-- Witness of `initialize_once`: the issuer initializes the sample state a second time. -/
theorem initialize_once_witness :
    isError (Initialize (issuerOn sampleWorld "issuer") "Other" "OTH" "6").ret = true ∧
      (Initialize (issuerOn sampleWorld "issuer") "Other" "OTH" "6").writes = [] ∧
      (Initialize (issuerOn sampleWorld "issuer") "Other" "OTH" "6").events = [] ∧
      commit (issuerOn sampleWorld "issuer").state
        (Initialize (issuerOn sampleWorld "issuer") "Other" "OTH" "6") =
          (issuerOn sampleWorld "issuer").state :=
  initialize_once (issuerOn sampleWorld "issuer") "Other" "OTH" "6" (by decide)

/-- C17 (uninitialized guard): when the name key is absent, each of `Mint`, `Burn`,
`Transfer`, `TransferFrom`, `Approve`, `Allowance`, `BalanceOf`, `ClientAccountBalance`,
`ClientAccountID`, `TotalSupply`, `Name` and `Symbol` returns an error, and those that can
write or set an event issue no write and no event, for every caller and argument. -/
theorem uninitialized_guard (sdk : TransactionContext) (amount : Int) (a b : String)
    (habsent : sdk.state.get nameKey = none) :
    (isError (Mint sdk amount).ret = true ∧ (Mint sdk amount).writes = [] ∧
      (Mint sdk amount).events = []) ∧
    (isError (Burn sdk amount).ret = true ∧ (Burn sdk amount).writes = [] ∧
      (Burn sdk amount).events = []) ∧
    (isError (Transfer sdk a amount).ret = true ∧ (Transfer sdk a amount).writes = [] ∧
      (Transfer sdk a amount).events = []) ∧
    (isError (TransferFrom sdk a b amount).ret = true ∧
      (TransferFrom sdk a b amount).writes = [] ∧ (TransferFrom sdk a b amount).events = []) ∧
    (isError (Approve sdk a amount).ret = true ∧ (Approve sdk a amount).writes = [] ∧
      (Approve sdk a amount).events = []) ∧
    isError (Allowance sdk a b) = true ∧
    isError (BalanceOf sdk a) = true ∧
    isError (ClientAccountBalance sdk) = true ∧
    isError (ClientAccountID sdk) = true ∧
    isError (TotalSupply sdk) = true ∧
    isError (Name sdk) = true ∧
    isError (Symbol sdk) = true := by
  refine ⟨?_, ?_, ?_, ?_, ?_, ?_, ?_, ?_, ?_, ?_, ?_, ?_⟩
  · simp [Mint, checkInitialized, GetState, habsent, failWith, isError]
  · simp [Burn, checkInitialized, GetState, habsent, failWith, isError]
  · simp [Transfer, checkInitialized, GetState, habsent, failWith, isError]
  · simp [TransferFrom, checkInitialized, GetState, habsent, failWith, isError]
  · simp [Approve, checkInitialized, GetState, habsent, failWith, isError]
  · simp [Allowance, checkInitialized, GetState, habsent, isError]
  · simp [BalanceOf, checkInitialized, GetState, habsent, isError]
  · simp [ClientAccountBalance, checkInitialized, GetState, habsent, isError]
  · simp [ClientAccountID, checkInitialized, GetState, habsent, isError]
  · simp [TotalSupply, checkInitialized, GetState, habsent, isError]
  · simp [Name, checkInitialized, GetState, habsent, isError]
  · simp [Symbol, checkInitialized, GetState, habsent, isError]

/-- Witness of `uninitialized_guard`: the issuer calls every operation on a state that holds
a balance but no name. -/
theorem uninitialized_guard_witness :
    (isError (Mint (issuerOn [("issuer", "5")] "issuer") 10).ret = true ∧
      (Mint (issuerOn [("issuer", "5")] "issuer") 10).writes = [] ∧
      (Mint (issuerOn [("issuer", "5")] "issuer") 10).events = []) ∧
    (isError (Burn (issuerOn [("issuer", "5")] "issuer") 10).ret = true ∧
      (Burn (issuerOn [("issuer", "5")] "issuer") 10).writes = [] ∧
      (Burn (issuerOn [("issuer", "5")] "issuer") 10).events = []) ∧
    (isError (Transfer (issuerOn [("issuer", "5")] "issuer") "alice" 10).ret = true ∧
      (Transfer (issuerOn [("issuer", "5")] "issuer") "alice" 10).writes = [] ∧
      (Transfer (issuerOn [("issuer", "5")] "issuer") "alice" 10).events = []) ∧
    (isError (TransferFrom (issuerOn [("issuer", "5")] "issuer") "alice" "bob" 10).ret = true ∧
      (TransferFrom (issuerOn [("issuer", "5")] "issuer") "alice" "bob" 10).writes = [] ∧
      (TransferFrom (issuerOn [("issuer", "5")] "issuer") "alice" "bob" 10).events = []) ∧
    (isError (Approve (issuerOn [("issuer", "5")] "issuer") "alice" 10).ret = true ∧
      (Approve (issuerOn [("issuer", "5")] "issuer") "alice" 10).writes = [] ∧
      (Approve (issuerOn [("issuer", "5")] "issuer") "alice" 10).events = []) ∧
    isError (Allowance (issuerOn [("issuer", "5")] "issuer") "alice" "bob") = true ∧
    isError (BalanceOf (issuerOn [("issuer", "5")] "issuer") "alice") = true ∧
    isError (ClientAccountBalance (issuerOn [("issuer", "5")] "issuer")) = true ∧
    isError (ClientAccountID (issuerOn [("issuer", "5")] "issuer")) = true ∧
    isError (TotalSupply (issuerOn [("issuer", "5")] "issuer")) = true ∧
    isError (Name (issuerOn [("issuer", "5")] "issuer")) = true ∧
    isError (Symbol (issuerOn [("issuer", "5")] "issuer")) = true :=
  uninitialized_guard (issuerOn [("issuer", "5")] "issuer") 10 "alice" "bob" (by decide)

/-- C18 (issuer-only operations): for every state and argument, when the caller's MSPID is
not "mailabs" (or cannot be read), `Initialize`, `Mint` and `Burn` each return an error and
issue no write and no event. -/
theorem issuer_only (sdk : TransactionContext) (name symbol decimals : String) (amount : Int)
    (h : sdk.mspID ≠ .ok "mailabs") :
    (isError (Initialize sdk name symbol decimals).ret = true ∧
      (Initialize sdk name symbol decimals).writes = [] ∧
      (Initialize sdk name symbol decimals).events = []) ∧
    (isError (Mint sdk amount).ret = true ∧ (Mint sdk amount).writes = [] ∧
      (Mint sdk amount).events = []) ∧
    (isError (Burn sdk amount).ret = true ∧ (Burn sdk amount).writes = [] ∧
      (Burn sdk amount).events = []) :=
  ⟨Initialize_not_issuer sdk name symbol decimals h, Mint_not_issuer sdk amount h,
    Burn_not_issuer sdk amount h⟩

/-- Witness of `issuer_only`: alice, a client of org1, initializes the empty state, and
mints and burns on the sample state. -/
theorem issuer_only_witness :
    (isError (Initialize (holderOn [] "alice") "Kalp" "KLP" "2").ret = true ∧
      (Initialize (holderOn [] "alice") "Kalp" "KLP" "2").writes = [] ∧
      (Initialize (holderOn [] "alice") "Kalp" "KLP" "2").events = []) ∧
    (isError (Mint (holderOn sampleWorld "alice") 10).ret = true ∧
      (Mint (holderOn sampleWorld "alice") 10).writes = [] ∧
      (Mint (holderOn sampleWorld "alice") 10).events = []) ∧
    (isError (Burn (holderOn sampleWorld "alice") 10).ret = true ∧
      (Burn (holderOn sampleWorld "alice") 10).writes = [] ∧
      (Burn (holderOn sampleWorld "alice") 10).events = []) :=
  ⟨(issuer_only (holderOn [] "alice") "Kalp" "KLP" "2" 10 (org1_not_issuer [] "alice")).1,
   (issuer_only (holderOn sampleWorld "alice") "Kalp" "KLP" "2" 10
      (org1_not_issuer sampleWorld "alice")).2⟩

/-- Counterexample to C19 as stated: on an initialized state that stores the name "Kalp" and
the symbol "KLP", alice's `Transfer("name", 5)` succeeds and leaves "5" under the name key,
and `Mint(10)` by an issuer whose id is "symbol" succeeds and leaves "10" under the symbol
key. -/
theorem metadata_overwritten_counterexample :
    (sampleWorld.get nameKey = some "Kalp" ∧
      isError (Transfer (holderOn sampleWorld "alice") "name" 5).ret = false ∧
      (commit sampleWorld (Transfer (holderOn sampleWorld "alice") "name" 5)).get nameKey
        = some "5") ∧
    (sampleWorld.get symbolKey = some "KLP" ∧
      isError (Mint (issuerOn sampleWorld "symbol") 10).ret = false ∧
      (commit sampleWorld (Mint (issuerOn sampleWorld "symbol") 10)).get symbolKey
        = some "10") := by
  decide

/-- C19 (metadata immutability, amended): on an initialized state, every operation
(`Initialize`, `Mint`, `Burn`, `Transfer`, `Approve`, `TransferFrom`, with any arguments)
whose account keys (the caller's id for `Mint`, `Burn` and `Transfer`, the recipient of
`Transfer`, `from` and `to` of `TransferFrom`) are none of the keys name, symbol and
decimals leaves the values stored under the name, symbol and decimals keys unchanged. -/
theorem metadata_unchanged (sdk : TransactionContext) (op : Op)
    (hinit : sdk.state.get nameKey ≠ none)
    (hargs : ∀ k ∈ op.accountKeys sdk, k ≠ nameKey ∧ k ≠ symbolKey ∧ k ≠ decimalsKey) :
    (op.committed sdk).get nameKey = sdk.state.get nameKey ∧
      (op.committed sdk).get symbolKey = sdk.state.get symbolKey ∧
      (op.committed sdk).get decimalsKey = sdk.state.get decimalsKey :=
  ⟨Op.committed_get_of_not_mem sdk op nameKey
      (Op.writes_ne_optionKey sdk op nameKey (Or.inl rfl) hinit (fun k hk => (hargs k hk).1)),
   Op.committed_get_of_not_mem sdk op symbolKey
      (Op.writes_ne_optionKey sdk op symbolKey (Or.inr (Or.inl rfl)) hinit
        (fun k hk => (hargs k hk).2.1)),
   Op.committed_get_of_not_mem sdk op decimalsKey
      (Op.writes_ne_optionKey sdk op decimalsKey (Or.inr (Or.inr rfl)) hinit
        (fun k hk => (hargs k hk).2.2))⟩

/-- Witness of `metadata_unchanged`: alice transfers 5 to bob on the sample state. -/
theorem metadata_unchanged_witness :
    ((Op.transfer "bob" 5).committed (holderOn sampleWorld "alice")).get nameKey =
        (holderOn sampleWorld "alice").state.get nameKey ∧
      ((Op.transfer "bob" 5).committed (holderOn sampleWorld "alice")).get symbolKey =
        (holderOn sampleWorld "alice").state.get symbolKey ∧
      ((Op.transfer "bob" 5).committed (holderOn sampleWorld "alice")).get decimalsKey =
        (holderOn sampleWorld "alice").state.get decimalsKey :=
  metadata_unchanged (holderOn sampleWorld "alice") (Op.transfer "bob" 5) (by decide)
    (by decide)

/-- Counterexample to C20 as stated: alice's `Transfer("totalSupply", 5)` succeeds and writes
1755 under the total-supply key. -/
theorem totalSupply_transfer_counterexample :
    isError (Transfer (holderOn sampleWorld "alice") "totalSupply" 5).ret = false ∧
    (Transfer (holderOn sampleWorld "alice") "totalSupply" 5).writes =
      [("alice", "695"), (totalSupplyKey, "1755")] := by
  decide

/-- C20 (total supply frame, amended): for every state and value, `Transfer` issues no write
to the total-supply key when neither the caller's id nor the recipient is "totalSupply",
`TransferFrom` issues none when neither `from` nor `to` is "totalSupply", and `Approve` and
`Initialize` issue none whatever the caller and the arguments. -/
theorem totalSupply_frame (sdk : TransactionContext) (f t : String) (value : Int)
    (hcaller : ∀ c, sdk.userID = .ok c → c ≠ totalSupplyKey)
    (hf : f ≠ totalSupplyKey) (ht : t ≠ totalSupplyKey) :
    (∀ kv ∈ (Transfer sdk t value).writes, kv.1 ≠ totalSupplyKey) ∧
    (∀ kv ∈ (TransferFrom sdk f t value).writes, kv.1 ≠ totalSupplyKey) ∧
    (∀ (ctx : TransactionContext) (s : String) (v : Int),
      ∀ kv ∈ (Approve ctx s v).writes, kv.1 ≠ totalSupplyKey) ∧
    (∀ (ctx : TransactionContext) (n s d : String),
      ∀ kv ∈ (Initialize ctx n s d).writes, kv.1 ≠ totalSupplyKey) := by
  refine ⟨fun kv hkv => ?_, fun kv hkv => ?_, fun ctx s v kv hkv => ?_,
    fun ctx n s d kv hkv => ?_⟩
  · obtain ⟨c, hc, hmem⟩ := Transfer_writes_sub sdk t value kv hkv
    rcases transferHelper_writes_keys sdk c t value kv hmem with h | h
    · rw [h]; exact hcaller c hc
    · rw [h]; exact ht
  · rcases TransferFrom_writes_keys sdk f t value kv hkv with h | h | ⟨s, k, -, hk, h⟩
    · rw [h]; exact hf
    · rw [h]; exact ht
    · rw [h]; exact (CreateCompositeKey_ne_optionKey _ _ _ hk).2.2.2
  · obtain ⟨o, k, -, hk, h⟩ := Approve_writes_keys ctx s v kv hkv
    rw [h]; exact (CreateCompositeKey_ne_optionKey _ _ _ hk).2.2.2
  · obtain ⟨-, h | h | h⟩ := Initialize_writes_keys ctx n s d kv hkv <;> rw [h] <;> decide

/-- Witness of `totalSupply_frame`: alice transfers 5 to bob, and bob moves 60 from alice
to carol. -/
theorem totalSupply_frame_witness :
    (∀ kv ∈ (Transfer (holderOn sampleWorld "bob") "carol" 5).writes, kv.1 ≠ totalSupplyKey) ∧
    (∀ kv ∈ (TransferFrom (holderOn sampleWorld "bob") "alice" "carol" 5).writes,
      kv.1 ≠ totalSupplyKey) ∧
    (∀ (ctx : TransactionContext) (s : String) (v : Int),
      ∀ kv ∈ (Approve ctx s v).writes, kv.1 ≠ totalSupplyKey) ∧
    (∀ (ctx : TransactionContext) (n s d : String),
      ∀ kv ∈ (Initialize ctx n s d).writes, kv.1 ≠ totalSupplyKey) :=
  totalSupply_frame (holderOn sampleWorld "bob") "alice" "carol" 5
    (fun c hc => by
      have h2 : (Except.ok "bob" : Except String String) = Except.ok c := hc
      injection h2 with h3
      rw [← h3]
      decide)
    (by decide) (by decide)

/-- C21 (Initialized is terminal): when the name key is present, it is still present in the
committed state after every operation (`Initialize`, `Mint`, `Burn`, `Transfer`, `Approve`,
`TransferFrom`), whatever the caller and the arguments. -/
theorem initialized_terminal (sdk : TransactionContext) (op : Op)
    (hinit : sdk.state.get nameKey ≠ none) : (op.committed sdk).get nameKey ≠ none := by
  cases op <;> exact commit_get_ne_none _ _ _ hinit

/-- Witness of `initialized_terminal`: alice transfers 5 to the recipient string "name". -/
theorem initialized_terminal_witness :
    ((Op.transfer "name" 5).committed (holderOn sampleWorld "alice")).get nameKey ≠ none :=
  initialized_terminal (holderOn sampleWorld "alice") (Op.transfer "name" 5) (by decide)

/-- C22 (balance accessors): on an initialized state, `BalanceOf(account)` returns an error
when nothing is stored under `account`, and otherwise the integer `strconv.Atoi` decodes
from the stored value, which is `n` when the stored value is the decimal encoding of the Go
int `n`; `ClientAccountBalance()` returns what `BalanceOf` returns for the caller's id. -/
theorem balance_accessors (sdk : TransactionContext) (account c : String)
    (hinit : sdk.state.get nameKey ≠ none) (huser : sdk.userID = .ok c) :
    (sdk.state.get account = none → isError (BalanceOf sdk account) = true) ∧
    (∀ b, sdk.state.get account = some b → BalanceOf sdk account = .ok (Atoi b).1) ∧
    (∀ n, InRange n → sdk.state.get account = some (Itoa n) → BalanceOf sdk account = .ok n) ∧
    ClientAccountBalance sdk = BalanceOf sdk c := by
  refine ⟨fun h => ?_, fun b h => ?_, fun n hn h => ?_, ?_⟩
  · rw [BalanceOf_eq sdk account hinit, h]; rfl
  · rw [BalanceOf_eq sdk account hinit, h]
  · rw [BalanceOf_eq sdk account hinit, h]
    simp only [Atoi_Itoa n hn]
  · simp [ClientAccountBalance, BalanceOf, checkInitialized, GetState, GetUserID, hinit, huser]

/-- Witness of `balance_accessors`: alice reads the balance of dave (absent), of bob (50) and
her own. -/
theorem balance_accessors_witness :
    isError (BalanceOf (holderOn sampleWorld "alice") "dave") = true ∧
    BalanceOf (holderOn sampleWorld "alice") "bob" = .ok 50 ∧
    ClientAccountBalance (holderOn sampleWorld "alice") =
      BalanceOf (holderOn sampleWorld "alice") "alice" :=
  ⟨(balance_accessors (holderOn sampleWorld "alice") "dave" "alice" (by decide) rfl).1
      (by decide),
   (balance_accessors (holderOn sampleWorld "alice") "bob" "alice" (by decide) rfl).2.2.1 50
      (by decide) (by decide),
   (balance_accessors (holderOn sampleWorld "alice") "bob" "alice" (by decide) rfl).2.2.2⟩

/-- C23 (end-to-end scenario): from the empty state, each call being committed before the
next, `Initialize("Kalp","KLP","2")` by the issuer returns true; `Mint(1000)` by the issuer
gives `BalanceOf(issuer)` = 1000 and `TotalSupply()` = 1000; `Transfer(alice, 300)` by the
issuer gives balances 700 and 300; `Approve(bob, 100)` by alice and then
`TransferFrom(alice, carol, 100)` by bob give balances 200 for alice and 100 for carol and
`Allowance(alice, bob)` = 0. -/
theorem scenario_end_to_end :
    (Initialize (issuerOn [] "issuer") "Kalp" "KLP" "2").ret = .ok true ∧
    (isError (Mint (issuerOn scenario1 "issuer") 1000).ret = false ∧
      BalanceOf (holderOn scenario2 "alice") "issuer" = .ok 1000 ∧
      TotalSupply (holderOn scenario2 "alice") = .ok 1000) ∧
    (isError (Transfer (issuerOn scenario2 "issuer") "alice" 300).ret = false ∧
      BalanceOf (holderOn scenario3 "alice") "issuer" = .ok 700 ∧
      BalanceOf (holderOn scenario3 "alice") "alice" = .ok 300) ∧
    (isError (Approve (holderOn scenario3 "alice") "bob" 100).ret = false ∧
      isError (TransferFrom (holderOn scenario4 "bob") "alice" "carol" 100).ret = false ∧
      BalanceOf (holderOn scenario5 "alice") "alice" = .ok 200 ∧
      BalanceOf (holderOn scenario5 "alice") "carol" = .ok 100 ∧
      Allowance (holderOn scenario5 "alice") "alice" "bob" = .ok 0) :=
  ⟨rfl, ⟨by decide, rfl, rfl⟩, ⟨by decide, rfl, rfl⟩, ⟨by decide, by decide, rfl, rfl, rfl⟩⟩

/-- C24 (no event on failure): for every state, caller and arguments, an invocation of
`Mint`, `Burn`, `Transfer`, `TransferFrom` or `Approve` that returns an error has set no
event, and one that returns no error has set exactly one event. -/
theorem no_event_on_failure (sdk : TransactionContext) (amount : Int) (a b : String) :
    ((isError (Mint sdk amount).ret = true → (Mint sdk amount).events = []) ∧
      (isError (Mint sdk amount).ret = false → (Mint sdk amount).events.length = 1)) ∧
    ((isError (Burn sdk amount).ret = true → (Burn sdk amount).events = []) ∧
      (isError (Burn sdk amount).ret = false → (Burn sdk amount).events.length = 1)) ∧
    ((isError (Transfer sdk a amount).ret = true → (Transfer sdk a amount).events = []) ∧
      (isError (Transfer sdk a amount).ret = false →
        (Transfer sdk a amount).events.length = 1)) ∧
    ((isError (TransferFrom sdk a b amount).ret = true →
        (TransferFrom sdk a b amount).events = []) ∧
      (isError (TransferFrom sdk a b amount).ret = false →
        (TransferFrom sdk a b amount).events.length = 1)) ∧
    ((isError (Approve sdk a amount).ret = true → (Approve sdk a amount).events = []) ∧
      (isError (Approve sdk a amount).ret = false →
        (Approve sdk a amount).events.length = 1)) := by
  refine ⟨?_, ?_, ?_, ?_, ?_⟩
  · rcases Mint_events sdk amount with ⟨h1, h2⟩ | ⟨h1, m, -, h2⟩ <;> simp [h1, h2]
  · rcases Burn_events sdk amount with ⟨h1, h2⟩ | ⟨h1, m, -, h2⟩ <;> simp [h1, h2]
  · rcases Transfer_events sdk a amount with ⟨h1, h2⟩ | ⟨h1, m, -, h2⟩ <;> simp [h1, h2]
  · rcases TransferFrom_events sdk a b amount with ⟨h1, h2⟩ | ⟨h1, h2⟩ <;> simp [h1, h2]
  · rcases Approve_events sdk a amount with ⟨h1, h2⟩ | ⟨h1, m, -, h2⟩ <;> simp [h1, h2]

/-- C26 (decimal round trip): for every Go int `n`, `strconv.Atoi` of `strconv.Itoa n` is `n`
with no error, so the contract reads `n` back under a key it stored `Itoa n` under; and
every value that `Mint`, `Burn`, `Transfer`, `TransferFrom` or `Approve` writes (their
amount being a Go int) is the encoding of a Go int, which `Atoi` decodes with no error. -/
theorem decimal_round_trip (n : Int) (hn : InRange n) :
    Atoi (Itoa n) = (n, false) ∧
    (∀ (w : World) (k : String), balance (w.put k (Itoa n)) k = n) ∧
    (∀ (sdk : TransactionContext) (a b : String) (kv : String × String),
      (kv ∈ (Mint sdk n).writes ∨ kv ∈ (Burn sdk n).writes ∨ kv ∈ (Transfer sdk a n).writes ∨
        kv ∈ (TransferFrom sdk a b n).writes ∨ kv ∈ (Approve sdk a n).writes) →
      ∃ m, InRange m ∧ kv.2 = Itoa m ∧ Atoi kv.2 = (m, false)) := by
  refine ⟨Atoi_Itoa n hn, fun w k => by rw [balance_put _ _ _ _ hn, if_pos rfl],
    fun sdk a b kv h => ?_⟩
  rcases h with h | h | h | h | h
  · obtain ⟨-, ⟨m, -, h, hr⟩ | ⟨h, hr⟩⟩ := Mint_writes_mem sdk n hn kv h
    · exact written_value_decodes _ hr _ (by rw [h])
    · exact written_value_decodes _ hr _ (by rw [h])
  · obtain ⟨hpos, ⟨m, -, h, hge⟩ | ⟨h, hge⟩⟩ := Burn_writes_mem sdk n kv h
    · refine written_value_decodes (balance sdk.state m - n) ?_ _ (by rw [h])
      have := balance_inRange sdk.state m
      unfold InRange minInt maxInt at *
      omega
    · refine written_value_decodes (balance sdk.state totalSupplyKey - n) ?_ _ (by rw [h])
      have := balance_inRange sdk.state totalSupplyKey
      unfold InRange minInt maxInt at *
      omega
  · obtain ⟨f, -, hmem⟩ := Transfer_writes_sub sdk a n kv h
    exact transferHelper_writes_decode sdk f a n hn kv hmem
  · rcases TransferFrom_writes_mem sdk a b n hn kv h with h | ⟨s, k, -, -, h, hge, hpos⟩
    · exact transferHelper_writes_decode sdk a b n hn kv h
    · refine written_value_decodes (balance sdk.state k - n) ?_ _ (by rw [h])
      have := balance_inRange sdk.state k
      unfold InRange minInt maxInt at *
      omega
  · exact written_value_decodes n hn _ (Approve_writes_mem sdk a n kv h)

/-- Witness of `decimal_round_trip`: the smallest Go int. -/
theorem decimal_round_trip_witness :
    Atoi (Itoa (-9223372036854775808)) = (-9223372036854775808, false) ∧
    (∀ (w : World) (k : String),
      balance (w.put k (Itoa (-9223372036854775808))) k = -9223372036854775808) ∧
    (∀ (sdk : TransactionContext) (a b : String) (kv : String × String),
      (kv ∈ (Mint sdk (-9223372036854775808)).writes ∨
        kv ∈ (Burn sdk (-9223372036854775808)).writes ∨
        kv ∈ (Transfer sdk a (-9223372036854775808)).writes ∨
        kv ∈ (TransferFrom sdk a b (-9223372036854775808)).writes ∨
        kv ∈ (Approve sdk a (-9223372036854775808)).writes) →
      ∃ m, InRange m ∧ kv.2 = Itoa m ∧ Atoi kv.2 = (m, false)) :=
  decimal_round_trip (-9223372036854775808) (by decide)

/-- C27 (KYC verification result): on a non-empty channel id, `GetKYC(userId)` is decided by
the response of the chaincode "kyc" to the arguments ["KycExists", userId] on the caller's
own channel, and by nothing else of the stub: with status 200 it returns true for the
payload "true" and false for the payload "false", with no error; with any other status it
returns the error (with the result false) whose message ends with the remote payload. -/
theorem kyc_verification (ctx : kalpsdk.TransactionContext) (userId : String)
    (hch : ctx.stub.channelID ≠ "") :
    ((ctx.stub.invokeChaincode "kyc" ["KycExists", userId] ctx.stub.channelID).Status = 200 →
      (ctx.stub.invokeChaincode "kyc" ["KycExists", userId] ctx.stub.channelID).Payload = "true" →
      kalpsdk.GetKYC ctx userId = .ok true) ∧
    ((ctx.stub.invokeChaincode "kyc" ["KycExists", userId] ctx.stub.channelID).Status = 200 →
      (ctx.stub.invokeChaincode "kyc" ["KycExists", userId] ctx.stub.channelID).Payload = "false" →
      kalpsdk.GetKYC ctx userId = .ok false) ∧
    ((ctx.stub.invokeChaincode "kyc" ["KycExists", userId] ctx.stub.channelID).Status ≠ 200 →
      kalpsdk.GetKYC ctx userId =
        .error ("failed to query kyc chaincode for user " ++ userId ++ ". Got status " ++
          Itoa (ctx.stub.invokeChaincode "kyc" ["KycExists", userId] ctx.stub.channelID).Status ++
          " and error message: " ++
          (ctx.stub.invokeChaincode "kyc" ["KycExists", userId] ctx.stub.channelID).Payload)) ∧
    (∀ other : kalpsdk.TransactionContext, other.stub.channelID = ctx.stub.channelID →
      other.stub.invokeChaincode "kyc" ["KycExists", userId] ctx.stub.channelID =
        ctx.stub.invokeChaincode "kyc" ["KycExists", userId] ctx.stub.channelID →
      kalpsdk.GetKYC other userId = kalpsdk.GetKYC ctx userId) := by
  have h := kalpsdk.GetKYC_eq ctx userId hch
  refine ⟨fun hs hp => ?_, fun hs hp => ?_, fun hs => ?_, fun other hc hr => ?_⟩
  · rw [h, if_neg (by simp [hs]), hp]; rfl
  · rw [h, if_neg (by simp [hs]), hp]; rfl
  · rw [h, if_pos hs]
  · rw [h, kalpsdk.GetKYC_eq other userId (by rw [hc]; exact hch), hc, hr]

/-- Witness of `kyc_verification`: the chaincode answers "true" for alice and "false" for bob,
and answers with status 500 on the broken stub. -/
theorem kyc_verification_witness :
    kalpsdk.GetKYC ⟨sampleStub, .ok aliceID⟩ "alice" = .ok true ∧
    kalpsdk.GetKYC ⟨sampleStub, .ok aliceID⟩ "bob" = .ok false ∧
    kalpsdk.GetKYC ⟨brokenStub, .ok aliceID⟩ "alice" =
      .error ("failed to query kyc chaincode for user alice. Got status 500 " ++
        "and error message: kyc is down") :=
  ⟨(kyc_verification ⟨sampleStub, .ok aliceID⟩ "alice" (by decide)).1 rfl rfl,
   (kyc_verification ⟨sampleStub, .ok aliceID⟩ "bob" (by decide)).2.1 rfl rfl,
   (kyc_verification ⟨brokenStub, .ok aliceID⟩ "alice" (by decide)).2.2.1 (by decide)⟩

/-- C30 (identity errors): when the base64 decoding of the client identity fails,
`GetUserID` returns an error; but when the decoded text lacks the marker "x509::CN=" it
returns no error: for "subject-without-marker,rest" it returns the text from offset 8 to the
first comma as the user id, and for "no-marker-and-no-comma" the slice expression panics. -/
theorem getUserID_missing_marker :
    (∀ (ctx : kalpsdk.TransactionContext) (b64 e : String), ctx.clientID = .ok b64 →
      DecodeString b64 = .error e →
      kalpsdk.GetUserID ctx = .error ("failed to base64 decode clientID: " ++ e)) ∧
    (DecodeString unmarkedID = .ok "subject-without-marker,rest" ∧
      stringsIndex "subject-without-marker,rest" "x509::CN=" = -1 ∧
      kalpsdk.GetUserID ⟨sampleStub, .ok unmarkedID⟩ = .ok "without-marker") ∧
    (DecodeString commalessID = .ok "no-marker-and-no-comma" ∧
      stringsIndex "no-marker-and-no-comma" "x509::CN=" = -1 ∧
      kalpsdk.GetUserID ⟨sampleStub, .ok commalessID⟩ = .panics) := by
  refine ⟨fun ctx b64 e h1 h2 => ?_, ⟨rfl, by decide, by decide⟩, ⟨rfl, by decide, by decide⟩⟩
  simp [kalpsdk.GetUserID, h1, h2]

/-- C32 (checked addition): for all Go ints `a` and `b`, `add` returns an error if and only
if the mathematical sum a + b is outside the Go int range, and otherwise returns exactly
a + b; so a result returned without an error is never a wrapped sum. -/
theorem add_checked (a b : Int) (ha : InRange a) (hb : InRange b) :
    (isError (add a b) = true ↔ ¬ InRange (a + b)) ∧
    (InRange (a + b) → add a b = .ok (a + b)) ∧
    (∀ s, add a b = .ok s → s = a + b) := by
  refine ⟨Iff.intro (fun herr hin => ?_) (fun hout => ?_), fun hin => add_of_inRange a b hin,
    fun s hs => (add_eq_ok a b s ha hb hs).1⟩
  · rw [add_of_inRange a b hin] at herr
    cases herr
  · by_cases hhi : maxInt < a + b
    · rw [add_overflow a b ha hb hhi]; rfl
    · apply add_underflow a b ha hb
      unfold InRange at hout
      omega

/-- Witness of `add_checked`: the largest Go int plus 1. -/
theorem add_checked_witness :
    (isError (add 9223372036854775807 1) = true ↔ ¬ InRange (9223372036854775807 + 1)) ∧
    (InRange (9223372036854775807 + 1) →
      add 9223372036854775807 1 = .ok (9223372036854775807 + 1)) ∧
    (∀ s, add 9223372036854775807 1 = .ok s → s = 9223372036854775807 + 1) :=
  add_checked 9223372036854775807 1 (by decide) (by decide)

/-- C33 (checked subtraction): for all Go ints `a` and `b`, `sub` returns a - b with no error
if and only if b > 0 and a >= b, and returns an error otherwise; a result returned for
a >= 0 is at least 0 and less than `a`. -/
theorem sub_checked (a b : Int) (ha : InRange a) :
    (sub a b = .ok (a - b) ↔ 0 < b ∧ b ≤ a) ∧
    (¬ (0 < b ∧ b ≤ a) → isError (sub a b) = true) ∧
    (∀ r, sub a b = .ok r → r = a - b ∧ (0 ≤ a → 0 ≤ r ∧ r < a)) := by
  refine ⟨Iff.intro (fun h => ?_) (fun h => sub_of_le a b ha h.1 h.2), fun h => ?_, fun r h => ?_⟩
  · have := sub_eq_ok a b _ ha h
    exact ⟨this.1, this.2.1⟩
  · unfold sub
    by_cases hb : b ≤ 0
    · simp [hb, isError]
    · have hlt : a < b := by omega
      simp [hb, hlt, isError]
  · have := sub_eq_ok a b r ha h
    exact ⟨this.2.2, fun _ => by omega⟩

/-- Witness of `sub_checked`: 10 minus 3. -/
theorem sub_checked_witness :
    (sub 10 3 = .ok (10 - 3) ↔ (0 : Int) < 3 ∧ (3 : Int) ≤ 10) ∧
    (¬ ((0 : Int) < 3 ∧ (3 : Int) ≤ 10) → isError (sub 10 3) = true) ∧
    (∀ r, sub 10 3 = .ok r → r = 10 - 3 ∧ ((0 : Int) ≤ 10 → 0 ≤ r ∧ r < 10)) :=
  sub_checked 10 3 (by decide)

/-- C36 (transfers are all-or-nothing): when `transferHelper` returns an error it has issued
no write, and an invocation of `Transfer` that returns an error has issued no write either,
so a failed transfer never debits the sender without crediting the recipient. -/
theorem transfer_all_or_nothing (sdk : TransactionContext) (f t : String) (value : Int)
    (h : isError (transferHelper sdk f t value).1 = true) :
    (transferHelper sdk f t value).2 = [] ∧
    (isError (Transfer sdk t value).ret = true → (Transfer sdk t value).writes = []) :=
  ⟨transferHelper_error_writes sdk f t value h, Transfer_error_no_writes sdk t value⟩

/-- Witness of `transfer_all_or_nothing`: alice, holding 700, transfers 701 to bob. -/
theorem transfer_all_or_nothing_witness :
    (transferHelper (holderOn sampleWorld "alice") "alice" "bob" 701).2 = [] ∧
    (isError (Transfer (holderOn sampleWorld "alice") "bob" 701).ret = true →
      (Transfer (holderOn sampleWorld "alice") "bob" 701).writes = []) :=
  transfer_all_or_nothing (holderOn sampleWorld "alice") "alice" "bob" 701 (by decide)

/-- C31 (identity extraction): when the base64 text of the client identity decodes to
"x509::CN=" ++ cn ++ "," ++ rest and `cn` contains no comma, `GetUserID` returns exactly `cn`
and no error; and every context whose identity decodes to the same text gets the same
result. -/
theorem identity_extraction (ctx : kalpsdk.TransactionContext) (b64 cn rest : String)
    (h1 : ctx.clientID = .ok b64)
    (h2 : DecodeString b64 = .ok ("x509::CN=" ++ cn ++ "," ++ rest))
    (h3 : ',' ∉ cn.data) :
    kalpsdk.GetUserID ctx = .ok cn ∧
    (∀ (other : kalpsdk.TransactionContext) (b64o : String), other.clientID = .ok b64o →
      DecodeString b64o = DecodeString b64 → kalpsdk.GetUserID other = kalpsdk.GetUserID ctx) := by
  refine ⟨GetUserID_of_decoded ctx b64 cn rest h1 h2 h3, fun other b64o ho hd => ?_⟩
  rw [GetUserID_of_decoded ctx b64 cn rest h1 h2 h3]
  exact GetUserID_of_decoded other b64o cn rest ho (hd.trans h2) h3

/-- Witness of `identity_extraction`: the identity of alice, on two different stubs. -/
theorem identity_extraction_witness :
    kalpsdk.GetUserID ⟨sampleStub, .ok aliceID⟩ = .ok "alice" ∧
    (∀ (other : kalpsdk.TransactionContext) (b64o : String), other.clientID = .ok b64o →
      DecodeString b64o = DecodeString aliceID →
      kalpsdk.GetUserID other = kalpsdk.GetUserID ⟨sampleStub, .ok aliceID⟩) :=
  identity_extraction ⟨sampleStub, .ok aliceID⟩ aliceID "alice"
    "OU=client,O=Kalp::CN=ca.kalp,O=Kalp" rfl rfl (by decide)

/-- C38 (`GetUserID` is not total): the bounds of the slice expression are not checked. For
the decoded identity "x509::CN=alice", which has no comma, the upper bound is -1; for
"O=Kalp,x509::CN=alice,OU=client", whose first comma precedes the marker, the lower bound 16
exceeds the upper bound 6; for the empty identity the bounds are 8 and -1. In each case the
slice expression is out of range and `GetUserID` panics, returning neither a value nor an
error. -/
theorem getUserID_slice_out_of_range :
    (DecodeString markerOnlyID = .ok "x509::CN=alice" ∧
      stringsIndex "x509::CN=alice" "x509::CN=" + 9 = 9 ∧
      stringsIndex "x509::CN=alice" "," = -1 ∧
      kalpsdk.GetUserID ⟨sampleStub, .ok markerOnlyID⟩ = .panics) ∧
    (DecodeString commaFirstID = .ok "O=Kalp,x509::CN=alice,OU=client" ∧
      stringsIndex "O=Kalp,x509::CN=alice,OU=client" "x509::CN=" + 9 = 16 ∧
      stringsIndex "O=Kalp,x509::CN=alice,OU=client" "," = 6 ∧
      kalpsdk.GetUserID ⟨sampleStub, .ok commaFirstID⟩ = .panics) ∧
    (DecodeString "" = .ok "" ∧
      stringsIndex "" "x509::CN=" + 9 = 8 ∧
      stringsIndex "" "," = -1 ∧
      kalpsdk.GetUserID ⟨sampleStub, .ok ""⟩ = .panics) := by
  refine ⟨⟨rfl, by decide, by decide, by decide⟩, ⟨rfl, by decide, by decide, by decide⟩,
    ⟨rfl, by decide, by decide, by decide⟩⟩

/-- C40 (greeting round trip): `SetGreeting g` returns no error and issues the single write of
`g` under the key "greeting"; on the state committed after it `GetGreeting` returns `g` and no
error; and on every state with no value under "greeting" `GetGreeting` returns the error
"greeting not found". -/
theorem greeting_round_trip (ctx : TransactionContext) (g : String) :
    (SetGreeting ctx g).ret = .ok () ∧
    (SetGreeting ctx g).writes = [("greeting", g)] ∧
    (∀ kv ∈ (SetGreeting ctx g).writes, kv.1 = "greeting") ∧
    (∀ (msp user : Except String String),
      GetGreeting ⟨commit ctx.state (SetGreeting ctx g), msp, user⟩ = .ok g) ∧
    (ctx.state.get "greeting" = none → GetGreeting ctx = .error "greeting not found") := by
  refine ⟨rfl, rfl, ?_, fun msp user => ?_, fun h => ?_⟩
  · intro kv hkv
    simp [SetGreeting, PutStateWithoutKYC] at hkv
    simp [hkv]
  · simp [GetGreeting, GetState, commit, SetGreeting, PutStateWithoutKYC, World.get_put]
  · simp [GetGreeting, GetState, h]

/-- Witness of `greeting_round_trip`: the greeting "hello" on the empty state. -/
theorem greeting_round_trip_witness :
    (SetGreeting ⟨[], .ok "org1", .ok "alice"⟩ "hello").writes = [("greeting", "hello")] ∧
    GetGreeting ⟨commit [] (SetGreeting ⟨[], .ok "org1", .ok "alice"⟩ "hello"),
      .ok "org1", .ok "alice"⟩ = .ok "hello" ∧
    GetGreeting ⟨[], .ok "org1", .ok "alice"⟩ = .error "greeting not found" :=
  ⟨(greeting_round_trip ⟨[], .ok "org1", .ok "alice"⟩ "hello").2.1,
   (greeting_round_trip ⟨[], .ok "org1", .ok "alice"⟩ "hello").2.2.2.1 _ _,
   (greeting_round_trip ⟨[], .ok "org1", .ok "alice"⟩ "hello").2.2.2.2 rfl⟩

/-- Counterexample to C34: on a state where the issuer holds 0 and the total supply is the
largest Go `int`, `Mint 1` issues the balance write, then fails on the overflow of the total
supply: it returns an error having issued one of its two writes. -/
theorem mint_partial_writes_counterexample :
    isError (Mint (issuerOn supplyFullWorld "issuer") 1).ret = true ∧
    (Mint (issuerOn supplyFullWorld "issuer") 1).writes = [("issuer", "1")] ∧
    add (balance supplyFullWorld "issuer") 1 = .ok 1 ∧
    isError (add (balance supplyFullWorld totalSupplyKey) 1) = true := by
  refine ⟨by decide, by decide, rfl, by decide⟩

/-- C34 (amended, `Mint` is all-or-nothing in the writes that persist): an invocation of
`Mint` either returns no error and has issued both the balance write and the total supply
write, or returns an error, and then the committed state is the state before the invocation;
a failed invocation has issued no write, or the balance write alone, which happens only when
the total supply sum overflows. -/
theorem mint_atomic_on_commit (sdk : TransactionContext) (amount : Int) :
    (isError (Mint sdk amount).ret = false ∧
      ∃ minter b t, sdk.userID = .ok minter ∧
        (Mint sdk amount).writes = [(minter, b), (totalSupplyKey, t)]) ∨
    (isError (Mint sdk amount).ret = true ∧
      commit sdk.state (Mint sdk amount) = sdk.state ∧
      ((Mint sdk amount).writes = [] ∨
       (isError (add (balance sdk.state totalSupplyKey) amount) = true ∧
        ∃ minter b, sdk.userID = .ok minter ∧ (Mint sdk amount).writes = [(minter, b)]))) := by
  rcases Mint_writes_cases sdk amount with h | h
  · exact Or.inl h
  · exact Or.inr ⟨h.1, commit_error _ _ h.1, h.2⟩

/-- Witness of `mint_atomic_on_commit`: the failed `Mint 1` on the state whose total supply is
the largest Go `int` leaves the committed state as it was. -/
theorem mint_atomic_on_commit_witness :
    commit supplyFullWorld (Mint (issuerOn supplyFullWorld "issuer") 1) = supplyFullWorld := by
  rcases mint_atomic_on_commit (issuerOn supplyFullWorld "issuer") 1 with h | h
  · exact absurd h.1 (by decide)
  · exact h.2.1

/-- Counterexample to C35: the issuer's `Mint 10` and `Burn 10` on the sample state read the
name key and the issuer's balance, write the balance, and only then read the total supply
and write it: a read follows a write. -/
theorem reads_precede_writes_counterexample :
    (Traced.Mint .committed (issuerOn sampleWorld "issuer") 10).log =
      [.read "name", .read "issuer", .write "issuer" "1010", .read "totalSupply",
       .write "totalSupply" "1760"] ∧
    Access.readsFirst (Traced.Mint .committed (issuerOn sampleWorld "issuer") 10).log = false ∧
    Access.writes (Traced.Mint .committed (issuerOn sampleWorld "issuer") 10).log =
      (Mint (issuerOn sampleWorld "issuer") 10).writes ∧
    (Traced.Burn .committed (issuerOn sampleWorld "issuer") 10).log =
      [.read "name", .read "issuer", .write "issuer" "990", .read "totalSupply",
       .write "totalSupply" "1740"] ∧
    Access.readsFirst (Traced.Burn .committed (issuerOn sampleWorld "issuer") 10).log = false ∧
    Access.writes (Traced.Burn .committed (issuerOn sampleWorld "issuer") 10).log =
      (Burn (issuerOn sampleWorld "issuer") 10).writes := by
  refine ⟨by decide, by decide, by decide, by decide, by decide, by decide⟩

/-- C35 (amended, order of the store accesses): in the sequence of store accesses of
`Initialize`, `Transfer`, `TransferFrom` and `Approve` no read occurs after a write; in that
of `Mint` and `Burn` the only key read after a write is the total supply key. With
`GetState` returning committed values only, every read returns the value committed before
the invocation, and the writes of each sequence are the writes of the operation, so all
values written are computed from the state before the invocation. -/
theorem reads_precede_writes (mode : ReadSemantics) (sdk : TransactionContext)
    (name symbol decimals recipient from_ to_ spender : String) (amount : Int) :
    (Access.readsFirst (Traced.Initialize mode sdk name symbol decimals).log = true ∧
     Access.readsFirst (Traced.Transfer mode sdk recipient amount).log = true ∧
     Access.readsFirst (Traced.TransferFrom mode sdk from_ to_ amount).log = true ∧
     Access.readsFirst (Traced.Approve mode sdk spender amount).log = true) ∧
    ((∀ k ∈ Access.readsAfterWrite (Traced.Mint mode sdk amount).log, k = totalSupplyKey) ∧
     (∀ k ∈ Access.readsAfterWrite (Traced.Burn mode sdk amount).log, k = totalSupplyKey)) ∧
    (∀ log key, Traced.visible .committed sdk log key = sdk.state.get key) ∧
    (Access.writes (Traced.Initialize .committed sdk name symbol decimals).log =
       (Initialize sdk name symbol decimals).writes ∧
     Access.writes (Traced.Mint .committed sdk amount).log = (Mint sdk amount).writes ∧
     Access.writes (Traced.Burn .committed sdk amount).log = (Burn sdk amount).writes ∧
     Access.writes (Traced.Transfer .committed sdk recipient amount).log =
       (Transfer sdk recipient amount).writes ∧
     Access.writes (Traced.TransferFrom .committed sdk from_ to_ amount).log =
       (TransferFrom sdk from_ to_ amount).writes ∧
     Access.writes (Traced.Approve .committed sdk spender amount).log =
       (Approve sdk spender amount).writes) :=
  ⟨⟨Traced.Initialize_readsFirst mode sdk name symbol decimals,
    Traced.Transfer_readsFirst mode sdk recipient amount,
    Traced.TransferFrom_readsFirst mode sdk from_ to_ amount,
    Traced.Approve_readsFirst mode sdk spender amount⟩,
   ⟨Mint_traced_readsAfterWrite mode sdk amount, Burn_traced_readsAfterWrite mode sdk amount⟩,
   fun _ _ => rfl,
   ⟨(Initialize_traced_committed sdk name symbol decimals).2.1,
    (Mint_traced_committed sdk amount).2.1, (Burn_traced_committed sdk amount).2.1,
    (Transfer_traced_committed sdk recipient amount).2.1,
    (TransferFrom_traced_committed sdk from_ to_ amount).2.1,
    (Approve_traced_committed sdk spender amount).2.1⟩⟩

/-- Witness of `reads_precede_writes`: bob's `TransferFrom` of 60 from alice to carol reads the
name key, the allowance and both balances before its three writes. -/
theorem reads_precede_writes_witness :
    (Traced.TransferFrom .committed (holderOn sampleWorld "bob") "alice" "carol" 60).log =
      [.read "name", .read "\x00allowance\x00alice\x00bob\x00", .read "alice", .read "carol",
       .write "alice" "640", .write "carol" "60",
       .write "\x00allowance\x00alice\x00bob\x00" "40"] ∧
    Access.readsFirst
      (Traced.TransferFrom .committed (holderOn sampleWorld "bob") "alice" "carol" 60).log =
        true :=
  ⟨by decide,
   (reads_precede_writes .committed (holderOn sampleWorld "bob") "Kalp" "KLP" "2" "carol"
      "alice" "carol" "bob" 60).1.2.2.1⟩

/-- C39 (`Mint` and `Burn` do not depend on read-your-own-writes): for a caller whose id is
not the total supply key, `Mint` and `Burn` perform the same accesses, return the same result
and set the same event when `GetState` also reflects the writes buffered earlier in the
invocation as when it returns committed values only, and these are the result, the writes
and the event of `Mint` and `Burn`. -/
theorem mint_burn_read_semantics (sdk : TransactionContext) (amount : Int)
    (h : sdk.userID ≠ .ok totalSupplyKey) :
    (Traced.Mint .readYourWrites sdk amount = Traced.Mint .committed sdk amount ∧
     (Traced.Mint .readYourWrites sdk amount).ret = (Mint sdk amount).ret ∧
     Access.writes (Traced.Mint .readYourWrites sdk amount).log = (Mint sdk amount).writes ∧
     (Traced.Mint .readYourWrites sdk amount).events = (Mint sdk amount).events) ∧
    (Traced.Burn .readYourWrites sdk amount = Traced.Burn .committed sdk amount ∧
     (Traced.Burn .readYourWrites sdk amount).ret = (Burn sdk amount).ret ∧
     Access.writes (Traced.Burn .readYourWrites sdk amount).log = (Burn sdk amount).writes ∧
     (Traced.Burn .readYourWrites sdk amount).events = (Burn sdk amount).events) := by
  refine ⟨⟨Mint_traced_mode sdk amount h, ?_⟩, ⟨Burn_traced_mode sdk amount h, ?_⟩⟩
  · rw [Mint_traced_mode sdk amount h]
    exact Mint_traced_committed sdk amount
  · rw [Burn_traced_mode sdk amount h]
    exact Burn_traced_committed sdk amount

/-- Witness of `mint_burn_read_semantics`: the issuer "issuer" mints and burns 10 on the
sample state. -/
theorem mint_burn_read_semantics_witness :
    (Traced.Mint .readYourWrites (issuerOn sampleWorld "issuer") 10 =
       Traced.Mint .committed (issuerOn sampleWorld "issuer") 10 ∧
     (Traced.Mint .readYourWrites (issuerOn sampleWorld "issuer") 10).ret =
       (Mint (issuerOn sampleWorld "issuer") 10).ret ∧
     Access.writes (Traced.Mint .readYourWrites (issuerOn sampleWorld "issuer") 10).log =
       (Mint (issuerOn sampleWorld "issuer") 10).writes ∧
     (Traced.Mint .readYourWrites (issuerOn sampleWorld "issuer") 10).events =
       (Mint (issuerOn sampleWorld "issuer") 10).events) ∧
    (Traced.Burn .readYourWrites (issuerOn sampleWorld "issuer") 10 =
       Traced.Burn .committed (issuerOn sampleWorld "issuer") 10 ∧
     (Traced.Burn .readYourWrites (issuerOn sampleWorld "issuer") 10).ret =
       (Burn (issuerOn sampleWorld "issuer") 10).ret ∧
     Access.writes (Traced.Burn .readYourWrites (issuerOn sampleWorld "issuer") 10).log =
       (Burn (issuerOn sampleWorld "issuer") 10).writes ∧
     (Traced.Burn .readYourWrites (issuerOn sampleWorld "issuer") 10).events =
       (Burn (issuerOn sampleWorld "issuer") 10).events) :=
  mint_burn_read_semantics (issuerOn sampleWorld "issuer") 10
    (by simp [issuerOn, totalSupplyKey])

/-- C28 (KYC-gated write, the unresolved id): where the user id cannot be extracted because
the slice expression of `GetUserID` is out of range, `PutStateWithKYC` panics: it returns
neither an error nor a value (and writes nothing). So it does for the identities
"x509::CN=alice::CN=ca.kalp" and "x509::CN=alice", which have no comma. The rest of the policy
holds: the entry is put into the write-set exactly when `GetUserID` returns an id, `GetKYC`
returns true for it and the stub's `PutState` returns no error, and an error of `GetUserID`,
a false or an error of `GetKYC` give an error and no write. -/
theorem putStateWithKYC_panics :
    (DecodeString bareSubjectID = .ok "x509::CN=alice::CN=ca.kalp" ∧
      stringsIndex "x509::CN=alice::CN=ca.kalp" "," = -1 ∧
      kalpsdk.GetUserID ⟨sampleStub, .ok bareSubjectID⟩ = .panics ∧
      kalpsdk.PutStateWithKYC ⟨sampleStub, .ok bareSubjectID⟩ "k" "v" = (.panics, []) ∧
      kalpsdk.PutStateWithKYC ⟨sampleStub, .ok markerOnlyID⟩ "k" "v" = (.panics, [])) ∧
    (∀ (ctx : kalpsdk.TransactionContext) (key value : String),
      kalpsdk.GetUserID ctx = .panics →
      kalpsdk.PutStateWithKYC ctx key value = (.panics, [])) ∧
    (∀ (ctx : kalpsdk.TransactionContext) (key value : String),
      ((kalpsdk.PutStateWithKYC ctx key value).2 = [.put key value] ↔
        (∃ uid, kalpsdk.GetUserID ctx = .ok uid ∧ kalpsdk.GetKYC ctx uid = .ok true) ∧
          ctx.stub.putState key value = .ok ()) ∧
      ((¬ ∃ uid, kalpsdk.GetUserID ctx = .ok uid ∧ kalpsdk.GetKYC ctx uid = .ok true) →
        (kalpsdk.PutStateWithKYC ctx key value).2 = []) ∧
      (∀ e, kalpsdk.GetUserID ctx = .error e →
        kalpsdk.PutStateWithKYC ctx key value = (.error e, [])) ∧
      (∀ uid, kalpsdk.GetUserID ctx = .ok uid → kalpsdk.GetKYC ctx uid = .ok false →
        kalpsdk.PutStateWithKYC ctx key value =
          (.error ("user " ++ uid ++ " has not completed KYC"), [])) ∧
      (∀ uid e, kalpsdk.GetUserID ctx = .ok uid → kalpsdk.GetKYC ctx uid = .error e →
        kalpsdk.PutStateWithKYC ctx key value =
          (.error ("failed to perform KYC check for user " ++ uid ++ ". Error: " ++ e), [])) ∧
      (∀ uid, kalpsdk.GetUserID ctx = .ok uid → kalpsdk.GetKYC ctx uid = .ok true →
        (ctx.stub.putState key value = .ok () →
          kalpsdk.PutStateWithKYC ctx key value = (.ok (), [.put key value])) ∧
        (∀ e, ctx.stub.putState key value = .error e →
          kalpsdk.PutStateWithKYC ctx key value = (.error e, [])))) ∧
    (kalpsdk.PutStateWithKYC ⟨sampleStub, .ok aliceID⟩ "k" "v" = (.ok (), [.put "k" "v"]) ∧
      kalpsdk.PutStateWithKYC ⟨sampleStub, .ok bobID⟩ "k" "v" =
        (.error "user bob has not completed KYC", []) ∧
      kalpsdk.PutStateWithKYC ⟨rejectingStub, .ok aliceID⟩ "k" "v" =
        (.error "PUT_STATE failed", [])) := by
  refine ⟨⟨rfl, by decide, by decide, by decide, by decide⟩, fun ctx key value h => ?_,
    fun ctx key value => ⟨kalpsdk.PutStateWithKYC_written ctx key value, fun hno => ?_,
      fun e h => ?_, fun uid h1 h2 => ?_, fun uid e h1 h2 => ?_, fun uid h1 h2 => ⟨fun h3 => ?_,
        fun e h3 => ?_⟩⟩, ⟨by decide, by decide, by decide⟩⟩
  · simp [kalpsdk.PutStateWithKYC, h]
  · rcases kalpsdk.PutStateWithKYC_cases ctx key value with ⟨hex, -⟩ | ⟨-, -, hw⟩
    · exact absurd hex hno
    · exact hw
  · simp [kalpsdk.PutStateWithKYC, h]
  · simp [kalpsdk.PutStateWithKYC, h1, h2]
  · simp [kalpsdk.PutStateWithKYC, h1, h2]
  · simp [kalpsdk.PutStateWithKYC, h1, h2, h3]
  · simp [kalpsdk.PutStateWithKYC, h1, h2, h3]

/-- C29 (KYC-gated delete, the unresolved id): where the user id cannot be extracted because
the slice expression of `GetUserID` is out of range, `DelStateWithKYC` panics: it returns
neither an error nor a value (and records nothing). So it does for the identities
"x509::CN=alice::CN=ca.kalp" and "x509::CN=alice", which have no comma. The rest of the policy
holds: the deletion is recorded exactly when `GetUserID` returns an id, `GetKYC` returns true
for it and the stub's `DelState` returns no error, and in every context in which the KYC
check does not pass `DelStateWithKYC` and `PutStateWithKYC` have the same result. -/
theorem delStateWithKYC_panics :
    (kalpsdk.GetUserID ⟨sampleStub, .ok bareSubjectID⟩ = .panics ∧
      kalpsdk.DelStateWithKYC ⟨sampleStub, .ok bareSubjectID⟩ "k" = (.panics, []) ∧
      kalpsdk.DelStateWithKYC ⟨sampleStub, .ok markerOnlyID⟩ "k" = (.panics, [])) ∧
    (∀ (ctx : kalpsdk.TransactionContext) (key : String),
      kalpsdk.GetUserID ctx = .panics → kalpsdk.DelStateWithKYC ctx key = (.panics, [])) ∧
    (∀ (ctx : kalpsdk.TransactionContext) (key : String),
      ((kalpsdk.DelStateWithKYC ctx key).2 = [.del key] ↔
        (∃ uid, kalpsdk.GetUserID ctx = .ok uid ∧ kalpsdk.GetKYC ctx uid = .ok true) ∧
          ctx.stub.delState key = .ok ()) ∧
      ((¬ ∃ uid, kalpsdk.GetUserID ctx = .ok uid ∧ kalpsdk.GetKYC ctx uid = .ok true) →
        (kalpsdk.DelStateWithKYC ctx key).1 ≠ .ok () ∧
        (kalpsdk.DelStateWithKYC ctx key).2 = [] ∧
        ∀ key' value, kalpsdk.DelStateWithKYC ctx key =
          kalpsdk.PutStateWithKYC ctx key' value) ∧
      (∀ uid, kalpsdk.GetUserID ctx = .ok uid → kalpsdk.GetKYC ctx uid = .ok true →
        (ctx.stub.delState key = .ok () →
          kalpsdk.DelStateWithKYC ctx key = (.ok (), [.del key])) ∧
        (∀ e, ctx.stub.delState key = .error e →
          kalpsdk.DelStateWithKYC ctx key = (.error e, [])))) ∧
    (kalpsdk.DelStateWithKYC ⟨sampleStub, .ok aliceID⟩ "k" = (.ok (), [.del "k"]) ∧
      kalpsdk.DelStateWithKYC ⟨sampleStub, .ok bobID⟩ "k" =
        (.error "user bob has not completed KYC", []) ∧
      kalpsdk.DelStateWithKYC ⟨rejectingStub, .ok aliceID⟩ "k" =
        (.error "DEL_STATE failed", [])) := by
  refine ⟨⟨by decide, by decide, by decide⟩, fun ctx key h => ?_,
    fun ctx key => ⟨kalpsdk.DelStateWithKYC_written ctx key, fun hno => ?_,
      fun uid h1 h2 => ⟨fun h3 => ?_, fun e h3 => ?_⟩⟩, ⟨by decide, by decide, by decide⟩⟩
  · simp [kalpsdk.DelStateWithKYC, h]
  · rcases kalpsdk.DelStateWithKYC_cases ctx key with ⟨hex, -⟩ | ⟨-, h1, hw⟩
    · exact absurd hex hno
    · exact ⟨h1, hw, fun key' value => kalpsdk.gated_rejections_eq ctx key key' value hno⟩
  · simp [kalpsdk.DelStateWithKYC, h1, h2, h3]
  · simp [kalpsdk.DelStateWithKYC, h1, h2, h3]

/-- C25 (event shape): an event is marshalled as an object with exactly the members `from`,
`to` and `value`, two strings and an integer. An invocation of `Mint`, `Burn`, `Transfer`,
`TransferFrom` or `Approve` that returns no error sets exactly one event, and one that returns
an error sets none: the event of `Mint` is "Transfer" from "0x0" to the caller, that of `Burn`
"Transfer" from the caller to "0x0", that of `Transfer` "Transfer" from the caller to the
recipient, that of `TransferFrom` "Transfer" from `from` to `to`, and that of `Approve`
"Approval" from the caller to the spender; its `value` is the amount argument of the call. -/
theorem event_shape (sdk : TransactionContext) (amount : Int) (a b : String) :
    (∀ e : event, e.marshal.map Prod.fst = ["from", "to", "value"] ∧
      e.marshal.map Prod.snd = [.str e.From, .str e.To, .num e.Value]) ∧
    ((∀ ev ∈ (Mint sdk amount).events,
        ∃ m, sdk.userID = .ok m ∧ ev = ("Transfer", ⟨"0x0", m, amount⟩)) ∧
      (∀ m, sdk.userID = .ok m → isError (Mint sdk amount).ret = false →
        (Mint sdk amount).events = [("Transfer", ⟨"0x0", m, amount⟩)] ∧
        (Mint sdk amount).events.map (fun ev => (ev.1, ev.2.marshal)) =
          [("Transfer", [("from", .str "0x0"), ("to", .str m), ("value", .num amount)])])) ∧
    ((∀ ev ∈ (Burn sdk amount).events,
        ∃ m, sdk.userID = .ok m ∧ ev = ("Transfer", ⟨m, "0x0", amount⟩)) ∧
      (∀ m, sdk.userID = .ok m → isError (Burn sdk amount).ret = false →
        (Burn sdk amount).events = [("Transfer", ⟨m, "0x0", amount⟩)] ∧
        (Burn sdk amount).events.map (fun ev => (ev.1, ev.2.marshal)) =
          [("Transfer", [("from", .str m), ("to", .str "0x0"), ("value", .num amount)])])) ∧
    ((∀ ev ∈ (Transfer sdk a amount).events,
        ∃ f, sdk.userID = .ok f ∧ ev = ("Transfer", ⟨f, a, amount⟩)) ∧
      (∀ f, sdk.userID = .ok f → isError (Transfer sdk a amount).ret = false →
        (Transfer sdk a amount).events = [("Transfer", ⟨f, a, amount⟩)] ∧
        (Transfer sdk a amount).events.map (fun ev => (ev.1, ev.2.marshal)) =
          [("Transfer", [("from", .str f), ("to", .str a), ("value", .num amount)])])) ∧
    ((∀ ev ∈ (TransferFrom sdk a b amount).events, ev = ("Transfer", ⟨a, b, amount⟩)) ∧
      (isError (TransferFrom sdk a b amount).ret = false →
        (TransferFrom sdk a b amount).events = [("Transfer", ⟨a, b, amount⟩)] ∧
        (TransferFrom sdk a b amount).events.map (fun ev => (ev.1, ev.2.marshal)) =
          [("Transfer", [("from", .str a), ("to", .str b), ("value", .num amount)])])) ∧
    ((∀ ev ∈ (Approve sdk a amount).events,
        ∃ o, sdk.userID = .ok o ∧ ev = ("Approval", ⟨o, a, amount⟩)) ∧
      (∀ o, sdk.userID = .ok o → isError (Approve sdk a amount).ret = false →
        (Approve sdk a amount).events = [("Approval", ⟨o, a, amount⟩)] ∧
        (Approve sdk a amount).events.map (fun ev => (ev.1, ev.2.marshal)) =
          [("Approval", [("from", .str o), ("to", .str a), ("value", .num amount)])])) ∧
    ((isError (Mint sdk amount).ret = true → (Mint sdk amount).events = []) ∧
      (isError (Burn sdk amount).ret = true → (Burn sdk amount).events = []) ∧
      (isError (Transfer sdk a amount).ret = true → (Transfer sdk a amount).events = []) ∧
      (isError (TransferFrom sdk a b amount).ret = true →
        (TransferFrom sdk a b amount).events = []) ∧
      (isError (Approve sdk a amount).ret = true → (Approve sdk a amount).events = [])) := by
  refine ⟨fun e => ⟨rfl, rfl⟩, ⟨fun ev h => ?_, fun m hm hok => ?_⟩,
    ⟨fun ev h => ?_, fun m hm hok => ?_⟩, ⟨fun ev h => ?_, fun m hm hok => ?_⟩,
    ⟨fun ev h => ?_, fun hok => ?_⟩, ⟨fun ev h => ?_, fun m hm hok => ?_⟩,
    ⟨fun herr => ?_, fun herr => ?_, fun herr => ?_, fun herr => ?_, fun herr => ?_⟩⟩
  · rcases Mint_events sdk amount with ⟨-, h2⟩ | ⟨-, m, hm, h2⟩ <;> rw [h2] at h
    · simp at h
    · exact ⟨m, hm, by simpa using h⟩
  · rcases Mint_events sdk amount with ⟨h1, -⟩ | ⟨-, m', hm', h2⟩
    · rw [h1] at hok; cases hok
    · rw [hm] at hm'
      injection hm' with hmm
      subst hmm
      rw [h2]
      exact ⟨rfl, rfl⟩
  · rcases Burn_events sdk amount with ⟨-, h2⟩ | ⟨-, m, hm, h2⟩ <;> rw [h2] at h
    · simp at h
    · exact ⟨m, hm, by simpa using h⟩
  · rcases Burn_events sdk amount with ⟨h1, -⟩ | ⟨-, m', hm', h2⟩
    · rw [h1] at hok; cases hok
    · rw [hm] at hm'
      injection hm' with hmm
      subst hmm
      rw [h2]
      exact ⟨rfl, rfl⟩
  · rcases Transfer_events sdk a amount with ⟨-, h2⟩ | ⟨-, m, hm, h2⟩ <;> rw [h2] at h
    · simp at h
    · exact ⟨m, hm, by simpa using h⟩
  · rcases Transfer_events sdk a amount with ⟨h1, -⟩ | ⟨-, m', hm', h2⟩
    · rw [h1] at hok; cases hok
    · rw [hm] at hm'
      injection hm' with hmm
      subst hmm
      rw [h2]
      exact ⟨rfl, rfl⟩
  · rcases TransferFrom_events sdk a b amount with ⟨-, h2⟩ | ⟨-, h2⟩ <;> rw [h2] at h
    · simp at h
    · simpa using h
  · rcases TransferFrom_events sdk a b amount with ⟨h1, -⟩ | ⟨-, h2⟩
    · rw [h1] at hok; cases hok
    · rw [h2]
      exact ⟨rfl, rfl⟩
  · rcases Approve_events sdk a amount with ⟨-, h2⟩ | ⟨-, m, hm, h2⟩ <;> rw [h2] at h
    · simp at h
    · exact ⟨m, hm, by simpa using h⟩
  · rcases Approve_events sdk a amount with ⟨h1, -⟩ | ⟨-, m', hm', h2⟩
    · rw [h1] at hok; cases hok
    · rw [hm] at hm'
      injection hm' with hmm
      subst hmm
      rw [h2]
      exact ⟨rfl, rfl⟩
  · rcases Mint_events sdk amount with ⟨-, h2⟩ | ⟨h1, -⟩
    · exact h2
    · rw [h1] at herr; cases herr
  · rcases Burn_events sdk amount with ⟨-, h2⟩ | ⟨h1, -⟩
    · exact h2
    · rw [h1] at herr; cases herr
  · rcases Transfer_events sdk a amount with ⟨-, h2⟩ | ⟨h1, -⟩
    · exact h2
    · rw [h1] at herr; cases herr
  · rcases TransferFrom_events sdk a b amount with ⟨-, h2⟩ | ⟨h1, -⟩
    · exact h2
    · rw [h1] at herr; cases herr
  · rcases Approve_events sdk a amount with ⟨-, h2⟩ | ⟨h1, -⟩
    · exact h2
    · rw [h1] at herr; cases herr

/-- Witness of `event_shape`: on the sample state the issuer mints 10 and burns 10, alice
transfers 25 to bob and approves carol for 40, and bob moves 60 of alice's tokens to carol;
each call sets the one event stated. -/
theorem event_shape_witness :
    (Mint (issuerOn sampleWorld "issuer") 10).events =
      [("Transfer", ⟨"0x0", "issuer", 10⟩)] ∧
    (Burn (issuerOn sampleWorld "issuer") 10).events =
      [("Transfer", ⟨"issuer", "0x0", 10⟩)] ∧
    (Transfer (holderOn sampleWorld "alice") "bob" 25).events.map
        (fun ev => (ev.1, ev.2.marshal)) =
      [("Transfer", [("from", .str "alice"), ("to", .str "bob"), ("value", .num 25)])] ∧
    (TransferFrom (holderOn sampleWorld "bob") "alice" "carol" 60).events =
      [("Transfer", ⟨"alice", "carol", 60⟩)] ∧
    (Approve (holderOn sampleWorld "alice") "carol" 40).events.map
        (fun ev => (ev.1, ev.2.marshal)) =
      [("Approval", [("from", .str "alice"), ("to", .str "carol"), ("value", .num 40)])] ∧
    (Approve (holderOn [] "alice") "carol" 40).events = [] :=
  ⟨((event_shape (issuerOn sampleWorld "issuer") 10 "bob" "carol").2.1.2 "issuer" rfl
      (by decide)).1,
   ((event_shape (issuerOn sampleWorld "issuer") 10 "bob" "carol").2.2.1.2 "issuer" rfl
      (by decide)).1,
   ((event_shape (holderOn sampleWorld "alice") 25 "bob" "carol").2.2.2.1.2 "alice" rfl
      (by decide)).2,
   ((event_shape (holderOn sampleWorld "bob") 60 "alice" "carol").2.2.2.2.1.2 (by decide)).1,
   ((event_shape (holderOn sampleWorld "alice") 40 "carol" "bob").2.2.2.2.2.1.2 "alice" rfl
      (by decide)).2,
   (event_shape (holderOn [] "alice") 40 "carol" "bob").2.2.2.2.2.2.2.2.2.2 (by decide)⟩

/-- C37 (the allowance decrement cannot fail): when `TransferFrom` has passed its allowance
check and `transferHelper` has returned no error, `value` is positive and at most the
allowance, `sub` returns allowance - value, which is not negative, and `TransferFrom` returns
no error: its writes are those of `transferHelper` followed by the write of
allowance - value under the allowance key, and its event is the one Transfer event. So the
error branch after the balances have been written is not reached: an invocation of
`TransferFrom` that returns an error has issued no write. -/
theorem allowance_decrement_succeeds (sdk : TransactionContext) (from_ to_ spender : String)
    (allowanceKey : String) (currentAllowanceBytes : Option String) (value : Int)
    (hinit : checkInitialized sdk = .ok true) (huser : GetUserID sdk = .ok spender)
    (hk : CreateCompositeKey allowancePrefix [from_, spender] = .ok allowanceKey)
    (hget : GetState sdk allowanceKey = .ok currentAllowanceBytes)
    (hcheck : ¬ (Atoi (currentAllowanceBytes.getD "")).1 < value)
    (hhelper : isError (transferHelper sdk from_ to_ value).1 = false) :
    (0 < value ∧ value ≤ (Atoi (currentAllowanceBytes.getD "")).1) ∧
    sub (Atoi (currentAllowanceBytes.getD "")).1 value =
      .ok ((Atoi (currentAllowanceBytes.getD "")).1 - value) ∧
    0 ≤ (Atoi (currentAllowanceBytes.getD "")).1 - value ∧
    TransferFrom sdk from_ to_ value =
      ⟨.ok (), (transferHelper sdk from_ to_ value).2 ++
        [(allowanceKey, Itoa ((Atoi (currentAllowanceBytes.getD "")).1 - value))],
       [("Transfer", ⟨from_, to_, value⟩)]⟩ ∧
    balance (commit sdk.state (TransferFrom sdk from_ to_ value)) allowanceKey =
      (Atoi (currentAllowanceBytes.getD "")).1 - value ∧
    (∀ (f t : String) (v : Int), isError (TransferFrom sdk f t v).ret = true →
      (TransferFrom sdk f t v).writes = []) := by
  have hpos := transferHelper_ok_pos sdk from_ to_ value hhelper
  have hs := sub_allowance_ok _ value (Atoi_inRange (currentAllowanceBytes.getD "")) hpos hcheck
  have hrun := TransferFrom_after_helper sdk from_ to_ spender allowanceKey
    currentAllowanceBytes value hinit huser hk hget hcheck hhelper
  refine ⟨⟨hpos, not_lt.mp hcheck⟩, hs.1, hs.2, hrun, ?_,
    fun f t v => TransferFrom_error_no_writes sdk f t v⟩
  have hr : InRange ((Atoi (currentAllowanceBytes.getD "")).1 - value) := by
    have := Atoi_inRange (currentAllowanceBytes.getD "")
    unfold InRange minInt maxInt at *
    omega
  rw [hrun]
  simp only [commit, List.foldl_append, List.foldl_cons, List.foldl_nil]
  rw [balance_put _ _ _ _ hr, if_pos rfl]

/-- Witness of `allowance_decrement_succeeds`: bob moves 60 of his allowance of 100 from alice
to carol, and 40 is written under the allowance key. -/
theorem allowance_decrement_succeeds_witness :
    TransferFrom (holderOn sampleWorld "bob") "alice" "carol" 60 =
      ⟨.ok (), (transferHelper (holderOn sampleWorld "bob") "alice" "carol" 60).2 ++
        [("\x00allowance\x00alice\x00bob\x00", Itoa ((Atoi ((some "100").getD "")).1 - 60))],
       [("Transfer", ⟨"alice", "carol", 60⟩)]⟩ ∧
    (TransferFrom (holderOn sampleWorld "bob") "alice" "carol" 60).writes =
      [("alice", "640"), ("carol", "60"), ("\x00allowance\x00alice\x00bob\x00", "40")] ∧
    balance (commit (holderOn sampleWorld "bob").state
        (TransferFrom (holderOn sampleWorld "bob") "alice" "carol" 60))
      "\x00allowance\x00alice\x00bob\x00" = (Atoi ((some "100").getD "")).1 - 60 :=
  ⟨(allowance_decrement_succeeds (holderOn sampleWorld "bob") "alice" "carol" "bob"
      "\x00allowance\x00alice\x00bob\x00" (some "100") 60 rfl rfl rfl rfl (by decide)
      (by decide)).2.2.2.1,
   by decide,
   (allowance_decrement_succeeds (holderOn sampleWorld "bob") "alice" "carol" "bob"
      "\x00allowance\x00alice\x00bob\x00" (some "100") 60 rfl rfl rfl rfl (by decide)
      (by decide)).2.2.2.2.1⟩

end Kalp
